import Mathlib

/-!
# Receipt processor: points calculation and validation

A shallow embedding of `services/receipt_processor.go`, `handlers/receipt_handler.go`
and `utils/validation.go`, together with the parts of the Go standard library those
files call (`strconv.ParseFloat`, `math.Mod`, `math.Ceil`, float64 multiplication,
`time.Parse` for the two layouts used, `strings.TrimSpace`, and the three regular
expressions).

Conventions.
* Go strings are modelled by `String` (sequences of Unicode scalar values, which is what
  JSON decoding produces); `len` is the UTF-8 byte length, as in Go.
* `int64` values are integers in `[-2^63, 2^63)`; `+=` wraps modulo `2^64` (`add64`).
* `float64` values are modelled exactly: a finite value is a sign, a natural mantissa and a
  binary exponent; every operation computes the exact result and rounds it to nearest,
  ties to even, as IEEE 754 binary64 does.
-/

namespace ReceiptProcessor

/-! ## int64 -/

/-- Two's complement reduction of an integer into the int64 range. -/
def wrap64 (x : Int) : Int := (x + 2 ^ 63) % 2 ^ 64 - 2 ^ 63

/-- Go's `+` on int64: the sum wraps around modulo `2^64`. -/
def add64 (a b : Int) : Int := wrap64 (a + b)

/-- Go's `-` on int64: the difference wraps around modulo `2^64`. -/
def sub64 (a b : Int) : Int := wrap64 (a - b)

/-! ## float64 -/

/-- A float64 value. `finite neg m e` is the number `(-1)^neg * m * 2^e`; the values
produced by the operations below have `m ≤ 2^53` and `-1074 ≤ e`. The representation of a
number is not unique and is never compared structurally: the program only observes a
float64 through `eqZero` and `toInt64`. -/
inductive F64 where
  | finite (neg : Bool) (m : Nat) (e : Int)
  | inf (neg : Bool)
  | nan
  deriving DecidableEq, Repr

/-- Number of binary digits of `n`, by halving at most `fuel` times. -/
def bitLenAux : Nat → Nat → Nat
  | 0, _ => 0
  | fuel + 1, n => if n = 0 then 0 else bitLenAux fuel (n / 2) + 1

/-- Number of binary digits of `n` (`0` for `0`). -/
def bitLen (n : Nat) : Nat := bitLenAux n n

/-- The integer nearest to `p / q`, the even one of the two when `p / q` lies halfway. -/
def roundHalfEven (p q : Nat) : Nat :=
  if 2 * (p % q) < q then p / q
  else if q < 2 * (p % q) then p / q + 1
  else if (p / q) % 2 = 0 then p / q else p / q + 1

/-- Binary exponent of the last mantissa bit of the float64 nearest to `p / q > 0`: the `e`
with `2^52 ≤ (p / q) / 2^e < 2^53`, but never below the subnormal exponent `-1074`. -/
def ulpExp (p q : Nat) : Int :=
  let e0 : Int := (bitLen p : Int) - (bitLen q : Int) - 53
  let e1 : Int := if 2 ^ 53 * (q * 2 ^ e0.toNat) ≤ p * 2 ^ (-e0).toNat then e0 + 1 else e0
  max e1 (-1074)

/-- Round the non-negative rational `p / q` (with sign `neg`) to float64: nearest value,
ties to even, and infinity when the rounded value `m * 2^e` reaches `2^1024`, that is when
it needs more than 1024 binary digits. -/
def F64.round (neg : Bool) (p q : Nat) : F64 :=
  if p = 0 then .finite neg 0 0
  else
    let e := ulpExp p q
    let m := roundHalfEven (p * 2 ^ (-e).toNat) (q * 2 ^ e.toNat)
    if 1024 < (bitLen m : Int) + e then .inf neg else .finite neg m e

/-- Go's `x == 0` on float64 (true for both zeros, false for NaN). -/
def F64.eqZero : F64 → Bool
  | .finite _ m _ => m = 0
  | _ => false

/-- Go's `x * y` on float64. -/
def F64.mul : F64 → F64 → F64
  | .nan, _ => .nan
  | _, .nan => .nan
  | .inf s, .inf t => .inf (xor s t)
  | .inf s, .finite t n _ => if n = 0 then .nan else .inf (xor s t)
  | .finite s m _, .inf t => if m = 0 then .nan else .inf (xor s t)
  | .finite s m e, .finite t n f =>
    F64.round (xor s t) (m * n * 2 ^ (e + f).toNat) (2 ^ (-(e + f)).toNat)

/-- Go's `math.Mod(x, y)`: the remainder of `x / y` with the sign of `x`, always exact.
Special cases: `Mod(±Inf, y) = NaN`, `Mod(NaN, y) = NaN`, `Mod(x, 0) = NaN`,
`Mod(x, ±Inf) = x`, `Mod(x, NaN) = NaN`. -/
def Mod : F64 → F64 → F64
  | .nan, _ => .nan
  | .inf _, _ => .nan
  | .finite _ _ _, .nan => .nan
  | .finite s m e, .inf _ => .finite s m e
  | .finite s m e, .finite _ n f =>
    if n = 0 then .nan
    else
      let g := min e f
      .finite s ((m * 2 ^ (e - g).toNat) % (n * 2 ^ (f - g).toNat)) g

/-- Go's `math.Ceil(x)`: least integer value not below `x`; `±Inf` and `NaN` are returned
unchanged. -/
def Ceil : F64 → F64
  | .finite true m e => .finite true ((m * 2 ^ e.toNat) / 2 ^ (-e).toNat) 0
  | .finite false m e => .finite false ((m * 2 ^ e.toNat + 2 ^ (-e).toNat - 1) / 2 ^ (-e).toNat) 0
  | x => x

/-- The float64 constant `1.0`. -/
def F64.one : F64 := .finite false 1 0

/-- The float64 constant `25`. -/
def F64.twentyFive : F64 := .finite false 25 0

/-- The float64 constant `100`. -/
def F64.hundred : F64 := .finite false 100 0

/-- The float64 constant `0.2`, that is `3602879701896397 / 2^54`, the float64 nearest to
one fifth. -/
def F64.pointTwo : F64 := .finite false 3602879701896397 (-54)

/-! ## What the toolchain decides -/

/-- Errors of `strconv.ParseFloat`. -/
inductive NumError where
  | ErrSyntax
  | ErrRange
  deriving DecidableEq, Repr

/-- Behaviour that the repository's source leaves to the Go toolchain and that this
development does not fix: every statement quantified over `Runtime` holds whatever these
two functions are.
* `int64OutOfRange`: the result of `int64(f)` when `f` is NaN, infinite or does not fit
  (the language specification calls it implementation-dependent);
* `parseFloatRest`: the result of `strconv.ParseFloat` on text that is neither a plain
  decimal number nor rejected at its first byte (exponents, hexadecimal mantissas,
  underscores, `Inf`, `NaN`, and text with an error further in). -/
structure Runtime where
  int64OutOfRange : F64 → Int
  parseFloatRest : String → F64 × Option NumError

/-- Go's `int64(x)` for a float64 `x`: the value truncated toward zero when that fits. -/
def F64.toInt64 (rt : Runtime) : F64 → Int
  | .finite s m e =>
    let t : Int := ((m * 2 ^ e.toNat) / 2 ^ (-e).toNat : Nat)
    let v : Int := if s then -t else t
    if -(2 : Int) ^ 63 ≤ v ∧ v < 2 ^ 63 then v
    else wrap64 (rt.int64OutOfRange (.finite s m e))
  | x => wrap64 (rt.int64OutOfRange x)

/-! ## strconv.ParseFloat -/

/-- ASCII decimal digit. -/
def isDigit (c : Char) : Bool := decide ('0' ≤ c ∧ c ≤ '9')

/-- Value of an ASCII decimal digit. -/
def digitVal (c : Char) : Nat := c.toNat - 48

/-- Value of a sequence of decimal digits. -/
def digitsVal (cs : List Char) : Nat := cs.foldl (fun a c => 10 * a + digitVal c) 0

/-- Removes one leading sign: the sign read and the remaining text. -/
def readSign : List Char → Bool × List Char
  | [] => (false, [])
  | c :: cs =>
    if c = '+' then (false, cs)
    else if c = '-' then (true, cs)
    else (false, c :: cs)

/-- Recognises a plain decimal number, `[+-]digits[.digits]` with at least one digit
overall: the sign, the digits before the point and the digits after it. -/
def plainDecimal (cs : List Char) : Option (Bool × List Char × List Char) :=
  let (neg, body) := readSign cs
  let ip := body.takeWhile isDigit
  match body.dropWhile isDigit with
  | [] => if ip = [] then none else some (neg, ip, [])
  | c :: fp =>
    if c = '.' ∧ fp.all isDigit ∧ ip ++ fp ≠ [] then some (neg, ip, fp) else none

/-- Text that `ParseFloat` rejects on its first byte: the empty string, and any string not
starting with a sign, a digit, a point, an underscore or the first letter of `Inf`/`NaN`. -/
def cannotStartNumber : List Char → Bool
  | [] => true
  | c :: _ => !(isDigit c || c = '+' || c = '-' || c = '.' || c = '_'
                 || c = 'i' || c = 'I' || c = 'n' || c = 'N')

/-- Go's `strconv.ParseFloat(s, 64)`: value and error. A plain decimal number is converted
to the nearest float64 (`±Inf` with `ErrRange` when it is too large); text that cannot
start a number gives `0` with `ErrSyntax`; anything else is left to the runtime. -/
def ParseFloat (rt : Runtime) (s : String) : F64 × Option NumError :=
  match plainDecimal s.data with
  | some (neg, ip, fp) =>
    match F64.round neg (digitsVal (ip ++ fp)) (10 ^ fp.length) with
    | .inf sgn => (.inf sgn, some .ErrRange)
    | x => (x, none)
  | none =>
    if cannotStartNumber s.data then (.finite false 0 0, some .ErrSyntax)
    else rt.parseFloatRest s

/-! ## time.Parse -/

/-- The fields of a `time.Time` that the program reads. -/
structure Time where
  year : Nat
  month : Nat
  day : Nat
  hour : Nat
  minute : Nat
  deriving DecidableEq, Repr

/-- The zero `time.Time`, January 1, year 1, 00:00, which `time.Parse` returns with an
error. -/
def Time.zero : Time := ⟨1, 1, 1, 0, 0⟩

/-- The error of `time.Parse`. -/
inductive TimeError where
  | ParseError
  deriving DecidableEq, Repr

/-- Go's `getnum` of package time: reads a one- or two-digit number from the front of the
text; with `fixed` the number must have two digits. -/
def getnum : List Char → Bool → Option (Nat × List Char)
  | [], _ => none
  | [c], fixed =>
    if !isDigit c then none
    else if fixed then none
    else some (digitVal c, [])
  | c :: d :: rest, fixed =>
    if !isDigit c then none
    else if !isDigit d then
      if fixed then none else some (digitVal c, d :: rest)
    else some (digitVal c * 10 + digitVal d, rest)

/-- Go's `isLeap`. -/
def isLeap (year : Nat) : Bool := year % 4 = 0 && (year % 100 != 0 || year % 400 = 0)

/-- Go's `daysIn`: the number of days of a month of a year. -/
def daysIn (month year : Nat) : Nat :=
  if month = 2 then (if isLeap year then 29 else 28)
  else if month = 4 ∨ month = 6 ∨ month = 9 ∨ month = 11 then 30
  else 31

/-- Go's `time.Parse("2006-01-02", value)`: a four-digit year, `-`, a two-digit month in
1..12, `-`, a two-digit day, no further text, and the day must exist in that month. -/
def parseDate (value : String) : Time × Option TimeError :=
  let bad : Time × Option TimeError := (Time.zero, some .ParseError)
  match value.data with
  | y1 :: y2 :: y3 :: y4 :: rest =>
    if !(isDigit y1 && isDigit y2 && isDigit y3 && isDigit y4) then bad
    else
      let year := digitsVal [y1, y2, y3, y4]
      match rest with
      | [] => bad
      | c :: rest =>
        if c ≠ '-' then bad
        else
          match getnum rest true with
          | none => bad
          | some (month, rest) =>
            if month = 0 ∨ 12 < month then bad
            else
              match rest with
              | [] => bad
              | c :: rest =>
                if c ≠ '-' then bad
                else
                  match getnum rest true with
                  | none => bad
                  | some (day, rest) =>
                    if rest ≠ [] then bad
                    else if day < 1 ∨ daysIn month year < day then bad
                    else (⟨year, month, day, 0, 0⟩, none)
  | _ => bad

/-- Go's `time.Parse("15:04", value)`: an hour of one or two digits below 24, `:`, a
two-digit minute below 60, and no further text. The date part of the result is January 1,
year 0. -/
def parseClock (value : String) : Time × Option TimeError :=
  let bad : Time × Option TimeError := (Time.zero, some .ParseError)
  match getnum value.data false with
  | none => bad
  | some (hour, rest) =>
    if 24 ≤ hour then bad
    else
      match rest with
      | [] => bad
      | c :: rest =>
        if c ≠ ':' then bad
        else
          match getnum rest true with
          | none => bad
          | some (min, rest) =>
            if 60 ≤ min then bad
            else if rest ≠ [] then bad
            else (⟨0, 1, 1, hour, min⟩, none)

/-! ## strings and regular expressions -/

/-- Go's `len(s)`: the number of bytes of the UTF-8 encoding. -/
def len (s : String) : Nat := (s.data.map Char.utf8Size).sum

/-- Go's `unicode.IsSpace`. -/
def isSpace (c : Char) : Bool :=
  let n := c.toNat
  n = 0x20 || (0x09 ≤ n && n ≤ 0x0D) || n = 0x85 || n = 0xA0 || n = 0x1680
    || (0x2000 ≤ n && n ≤ 0x200A) || n = 0x2028 || n = 0x2029 || n = 0x202F
    || n = 0x205F || n = 0x3000

/-- Go's `strings.TrimSpace`: the text without its leading and trailing white space. -/
def TrimSpace (s : String) : String :=
  ⟨((s.data.dropWhile isSpace).reverse.dropWhile isSpace).reverse⟩

/-- Character class `[a-zA-Z0-9]`. -/
def isAlnum (c : Char) : Bool :=
  decide (('a' ≤ c ∧ c ≤ 'z') ∨ ('A' ≤ c ∧ c ≤ 'Z') ∨ ('0' ≤ c ∧ c ≤ '9'))

/-- The matches `regexp.MustCompile("[a-zA-Z0-9]").FindAllString(s, -1)`: one
one-character match for each character of the class, in order. -/
def alphanumericFindAll (s : String) : List String :=
  (s.data.filter isAlnum).map fun c => String.mk [c]

/-- Character class `[\w\s\-&]` of RE2: a word character (ASCII letter, digit or
underscore), white space (tab, line feed, form feed, carriage return, space), `-` or `&`. -/
def isRetailerChar (c : Char) : Bool :=
  isAlnum c || c = '_' || c = '\t' || c = '\n' || c = '\x0c' || c = '\r' || c = ' '
    || c = '-' || c = '&'

/-- Whether the text matches `^[\w\s\-&]+$`. -/
def retailerRegexMatch (s : String) : Bool :=
  s.data ≠ [] && s.data.all isRetailerChar

/-- Whether the text matches `^\d+\.\d{2}$`: one or more digits, a point, two digits. -/
def totalRegexMatch (s : String) : Bool :=
  match s.data.reverse with
  | d2 :: d1 :: c :: ip => isDigit d2 && isDigit d1 && c = '.' && ip ≠ [] && ip.all isDigit
  | _ => false

/-! ## models -/

/-- A line of a receipt (`models.Item`). -/
structure Item where
  ShortDescription : String
  Price : String
  deriving DecidableEq, Repr

/-- A receipt (`models.Receipt`). -/
structure Receipt where
  Retailer : String
  PurchaseDate : String
  PurchaseTime : String
  Items : List Item
  Total : String
  deriving DecidableEq, Repr

/-! ## services/receipt_processor.go -/

/-- Rule 5 for one item inside the loop of `CalculatePoints`: the running score after the
item. -/
def rule5Step (rt : Runtime) (points : Int) (item : Item) : Int :=
  let trimmedDesc := TrimSpace item.ShortDescription
  if len trimmedDesc > 0 ∧ len trimmedDesc % 3 = 0 then
    let price := (ParseFloat rt item.Price).1
    add64 points (F64.toInt64 rt (Ceil (price.mul F64.pointTwo)))
  else points

/-- The method `ReceiptProcessor.CalculatePoints`, statement by statement. -/
def CalculatePoints (rt : Runtime) (receipt : Receipt) : Int :=
  let points : Int := 0
  -- Rule 1
  let points := add64 points (wrap64 (alphanumericFindAll receipt.Retailer).length)
  -- Rule 2
  let total := (ParseFloat rt receipt.Total).1
  let points := if (Mod total F64.one).eqZero then add64 points 50 else points
  -- Rule 3
  let points :=
    if (Mod (total.mul F64.hundred) F64.twentyFive).eqZero then add64 points 25 else points
  -- Rule 4
  let pairs := receipt.Items.length / 2
  let points := add64 points (wrap64 ((pairs * 5 : Nat) : Int))
  -- Rule 5
  let points := receipt.Items.foldl (rule5Step rt) points
  -- Rule 6
  let purchaseDate := (parseDate receipt.PurchaseDate).1
  let points := if purchaseDate.day % 2 = 1 then add64 points 6 else points
  -- Rule 7
  let purchaseTime := (parseClock receipt.PurchaseTime).1
  let hour := purchaseTime.hour
  let minute := purchaseTime.minute
  let purchaseTimeMinutes := hour * 60 + minute
  let points :=
    if purchaseTimeMinutes ≥ 14 * 60 ∧ purchaseTimeMinutes < 16 * 60 then add64 points 10
    else points
  points

/-! ## handlers/receipt_handler.go: the validator -/

/-- The loop of `isValidReceipt` over the items: false at the first item with an empty
description or a price that does not match the pattern. -/
def itemsValid : List Item → Bool
  | [] => true
  | item :: rest =>
    if item.ShortDescription = "" ∨ !totalRegexMatch item.Price then false
    else itemsValid rest

/-- The function `isValidReceipt`. -/
def isValidReceipt (receipt : Receipt) : Bool :=
  if receipt.Retailer = "" ∨ receipt.PurchaseDate = "" ∨ receipt.PurchaseTime = ""
      ∨ receipt.Total = "" ∨ receipt.Items.length = 0 then false
  else if !retailerRegexMatch receipt.Retailer then false
  else if (parseDate receipt.PurchaseDate).2 ≠ none then false
  else if (parseClock receipt.PurchaseTime).2 ≠ none then false
  else if !totalRegexMatch receipt.Total then false
  else itemsValid receipt.Items

/-! ## The seven contributions, each as a function of the fields it reads -/

/-- Number of characters of the class `[a-zA-Z0-9]`. -/
def alnumCount (s : String) : Nat := (s.data.filter isAlnum).length

/-- Rule 1 as an int64. -/
def retailerPoints (retailer : String) : Int := wrap64 (alnumCount retailer)

/-- Rule 2: 50 when `math.Mod(total, 1.0) == 0`. -/
def roundDollarPoints (rt : Runtime) (total : String) : Int :=
  if (Mod (ParseFloat rt total).1 F64.one).eqZero then 50 else 0

/-- Rule 3: 25 when `math.Mod(total*100, 25) == 0`. -/
def quarterPoints (rt : Runtime) (total : String) : Int :=
  if (Mod ((ParseFloat rt total).1.mul F64.hundred) F64.twentyFive).eqZero then 25 else 0

/-- Rule 4 as an int64. -/
def pairPoints (items : List Item) : Int := wrap64 ((items.length / 2 * 5 : Nat) : Int)

/-- Rule 5 eligibility of a description. -/
def eligible (desc : String) : Bool :=
  decide (len (TrimSpace desc) > 0 ∧ len (TrimSpace desc) % 3 = 0)

/-- The int64 `int64(math.Ceil(price * 0.2))` for a price text. -/
def priceBonus (rt : Runtime) (price : String) : Int :=
  F64.toInt64 rt (Ceil ((ParseFloat rt price).1.mul F64.pointTwo))

/-- Rule 5 for one item. -/
def itemPoints (rt : Runtime) (item : Item) : Int :=
  if eligible item.ShortDescription then priceBonus rt item.Price else 0

/-- Rule 6: 6 when the day of the parsed date is odd. -/
def oddDayPoints (purchaseDate : String) : Int :=
  if (parseDate purchaseDate).1.day % 2 = 1 then 6 else 0

/-- Rule 7: 10 when the parsed time lies in `[14:00, 16:00)`. -/
def afternoonPoints (purchaseTime : String) : Int :=
  let t := (parseClock purchaseTime).1
  if 840 ≤ t.hour * 60 + t.minute ∧ t.hour * 60 + t.minute < 960 then 10 else 0

/-- The amount in cents of a text of the form `digits.dd`: the number its digits spell. -/
def centsOf (s : String) : Nat := digitsVal (s.data.filter isDigit)

/-- Sum of int64 values with Go's wrapping `+`. -/
def sum64 (xs : List Int) : Int := xs.foldl add64 0

/-- A runtime used to evaluate closed examples: conversion out of range as on amd64 (the
smallest int64), and a syntax error for the text `ParseFloat` leaves to the runtime. No
example below reaches either function. -/
def Runtime.sample : Runtime :=
  ⟨fun _ => -(2 : Int) ^ 63, fun _ => (.finite false 0 0, some .ErrSyntax)⟩

/-- The receipt of `TestSimpleReceiptCalculation`. -/
def simpleReceipt : Receipt :=
  { Retailer := "Target", PurchaseDate := "2022-01-02", PurchaseTime := "13:13",
    Total := "1.25", Items := [⟨"Pepsi - 12-oz", "1.25"⟩] }

/-- The receipt of `TestMorningReceiptCalculation`. -/
def morningReceipt : Receipt :=
  { Retailer := "Walgreens", PurchaseDate := "2022-01-02", PurchaseTime := "08:13",
    Total := "2.65", Items := [⟨"Pepsi - 12-oz", "1.25"⟩, ⟨"Dasani", "1.40"⟩] }

/-- Example 1 of the README (`TestReadmeExamples`). -/
def readmeReceipt1 : Receipt :=
  { Retailer := "Target", PurchaseDate := "2022-01-01", PurchaseTime := "13:01",
    Items := [⟨"Mountain Dew 12PK", "6.49"⟩, ⟨"Emils Cheese Pizza", "12.25"⟩,
              ⟨"Knorr Creamy Chicken", "1.26"⟩, ⟨"Doritos Nacho Cheese", "3.35"⟩,
              ⟨"   Klarbrunn 12-PK 12 FL OZ  ", "12.00"⟩],
    Total := "35.35" }

/-- Example 2 of the README (`TestReadmeExamples`). -/
def readmeReceipt2 : Receipt :=
  { Retailer := "M&M Corner Market", PurchaseDate := "2022-03-20", PurchaseTime := "14:33",
    Items := [⟨"Gatorade", "2.25"⟩, ⟨"Gatorade", "2.25"⟩, ⟨"Gatorade", "2.25"⟩,
              ⟨"Gatorade", "2.25"⟩],
    Total := "9.00" }

/-- The receipt-wide rule 5 contribution as an integer: the sum of the items' points. -/
def rule5Points (rt : Runtime) (items : List Item) : Int := (items.map (itemPoints rt)).sum

/-- The seven contributions added as integers, before the reduction into int64. -/
def scoreSum (rt : Runtime) (r : Receipt) : Int :=
  (alnumCount r.Retailer : Int) + roundDollarPoints rt r.Total + quarterPoints rt r.Total
    + ((5 * (r.Items.length / 2) : Nat) : Int) + rule5Points rt r.Items
    + oddDayPoints r.PurchaseDate + afternoonPoints r.PurchaseTime

/-- The base receipt of the test "Rule 1: Retailer Name Points". -/
def rule1Base : Receipt :=
  { Retailer := "X", PurchaseDate := "2022-01-02", PurchaseTime := "12:00",
    Items := [⟨"Item", "1.10"⟩], Total := "1.10" }

/-- The receipt of the test "Rule 4: Points for Item Pairs" with `n` items. -/
def rule4Receipt (n : Nat) (total : String) : Receipt :=
  { Retailer := "X", PurchaseDate := "2022-01-02", PurchaseTime := "12:00",
    Items := List.replicate n ⟨"Item", "1.01"⟩, Total := total }

/-- The receipt of the tests "Rule 6: Odd Day Points" and "Rule 7: Afternoon Time Points":
one point from the retailer and nothing from the total and the item. -/
def dateTimeReceipt (date time : String) : Receipt :=
  { Retailer := "X", PurchaseDate := date, PurchaseTime := time,
    Items := [⟨"Item", "1.01"⟩], Total := "1.01" }

/-- The receipt of the test "Rule 5: Description Length Points" with the given first item. -/
def rule5Receipt (desc price : String) : Receipt :=
  { Retailer := "X", PurchaseDate := "2022-01-02", PurchaseTime := "12:00",
    Items := [⟨desc, price⟩], Total := "5.00" }

/-- A receipt the validator accepts whose two eligible items each earn
`8000000000000000000` points, so that their int64 sum wraps around. -/
def overflowReceipt : Receipt :=
  { Retailer := "A", PurchaseDate := "2022-01-02", PurchaseTime := "13:13",
    Items := [⟨"ABC", "40000000000000000000.00"⟩, ⟨"ABC", "40000000000000000000.00"⟩],
    Total := "1.01" }

/-- An unvalidated receipt whose total and whose eligible item's price are not numbers. -/
def malformedReceipt : Receipt :=
  { Retailer := "X", PurchaseDate := "2022-01-02", PurchaseTime := "12:00",
    Items := [⟨"ABC", "abc"⟩], Total := "abc" }

/-- A receipt whose retailer holds an underscore. -/
def underscoreReceipt : Receipt :=
  { Retailer := "A_B", PurchaseDate := "2022-01-02", PurchaseTime := "13:13",
    Items := [⟨"Item", "1.01"⟩], Total := "1.01" }

/-- A receipt whose retailer holds a plus sign. -/
def plusReceipt : Receipt :=
  { Retailer := "A+B", PurchaseDate := "2022-01-02", PurchaseTime := "13:13",
    Items := [⟨"Item", "1.01"⟩], Total := "1.01" }

/-- The value `json.Decode` produces for the body `{"retailer": "Test"}` of the test
"Missing Required Fields": the absent fields keep their zero values. -/
def missingFieldsReceipt : Receipt :=
  { Retailer := "Test", PurchaseDate := "", PurchaseTime := "", Items := [], Total := "" }

/-- Whether the year is a leap year of the Gregorian calendar. -/
def isLeapYear (year : Nat) : Bool :=
  decide (year % 4 = 0 ∧ (year % 100 ≠ 0 ∨ year % 400 = 0))

/-- Number of days of a month of the Gregorian calendar. -/
def calendarDays (month year : Nat) : Nat :=
  match month with
  | 1 => 31 | 2 => if isLeapYear year then 29 else 28
  | 3 => 31 | 4 => 30 | 5 => 31 | 6 => 30
  | 7 => 31 | 8 => 31 | 9 => 30 | 10 => 31 | 11 => 30 | 12 => 31
  | _ => 0

/-- The dates of the specification: exactly `YYYY-MM-DD`, four digits, a hyphen, two digits,
a hyphen, two digits, with the month in 01..12 and the day between 01 and the number of days
of that month in that year. -/
def isCalendarDateText (s : String) : Bool :=
  match s.data with
  | [y1, y2, y3, y4, c1, o1, o2, c2, d1, d2] =>
    isDigit y1 && isDigit y2 && isDigit y3 && isDigit y4 && c1 = '-'
      && isDigit o1 && isDigit o2 && c2 = '-' && isDigit d1 && isDigit d2
      && decide (1 ≤ digitVal o1 * 10 + digitVal o2)
      && decide (digitVal o1 * 10 + digitVal o2 ≤ 12)
      && decide (1 ≤ digitVal d1 * 10 + digitVal d2)
      && decide (digitVal d1 * 10 + digitVal d2
          ≤ calendarDays (digitVal o1 * 10 + digitVal o2) (digitsVal [y1, y2, y3, y4]))
  | _ => false

/-- The times the code accepts: an hour of one or two digits below 24, a colon, a two-digit
minute below 60. -/
def isClockText (s : String) : Bool :=
  match s.data with
  | [h1, c, m1, m2] =>
    isDigit h1 && c = ':' && isDigit m1 && isDigit m2
      && decide (digitVal m1 * 10 + digitVal m2 < 60)
  | [h1, h2, c, m1, m2] =>
    isDigit h1 && isDigit h2 && c = ':' && isDigit m1 && isDigit m2
      && decide (digitVal h1 * 10 + digitVal h2 < 24)
      && decide (digitVal m1 * 10 + digitVal m2 < 60)
  | _ => false

/-- The times of the specification: exactly `HH:MM`, two digits with value 00..23, a colon,
two digits with value 00..59. -/
def isTwoDigitClockText (s : String) : Bool :=
  match s.data with
  | [h1, h2, c, m1, m2] =>
    isDigit h1 && isDigit h2 && c = ':' && isDigit m1 && isDigit m2
      && decide (digitVal h1 * 10 + digitVal h2 < 24)
      && decide (digitVal m1 * 10 + digitVal m2 < 60)
  | _ => false

/-- The amounts of the specification: one or more digits 0-9, a point, exactly two digits
0-9, and nothing else. -/
def isTwoDecimalText (s : String) : Prop :=
  ∃ (ip : List Char) (d1 d2 : Char), s.data = ip ++ ['.', d1, d2] ∧ ip ≠ []
    ∧ (∀ c ∈ ip, isDigit c = true) ∧ isDigit d1 = true ∧ isDigit d2 = true

/-- The retailer characters of the specification's acceptance rule: ASCII letter, ASCII
digit, ASCII white space (tab, line feed, form feed, carriage return, space), hyphen,
ampersand. -/
def isPlainRetailerChar (c : Char) : Bool :=
  decide (('a' ≤ c ∧ c ≤ 'z') ∨ ('A' ≤ c ∧ c ≤ 'Z') ∨ ('0' ≤ c ∧ c ≤ '9')
    ∨ c = '\t' ∨ c = '\n' ∨ c = '\x0c' ∨ c = '\r' ∨ c = ' ' ∨ c = '-' ∨ c = '&')

/-! ## The store and the handlers -/

/-- The state of a `ReceiptProcessor`: its map `receipts` from id to receipt, as the list of
the map's entries, with at most one entry for each id. The mutex makes each method atomic,
so the methods are modelled as functions on this state. -/
structure ProcessorState where
  receipts : List (String × Receipt)

/-- The function `NewReceiptProcessor`: the empty map. -/
def NewReceiptProcessor : ProcessorState := ⟨[]⟩

/-- The zero value of `models.Receipt`. -/
def Receipt.zero : Receipt :=
  { Retailer := "", PurchaseDate := "", PurchaseTime := "", Items := [], Total := "" }

/-- Go's `m[id] = receipt`: the entry for `id` is added or replaced. -/
def mapAssign (m : List (String × Receipt)) (id : String) (receipt : Receipt) :
    List (String × Receipt) :=
  (id, receipt) :: m.filter fun e => e.1 ≠ id

/-- Go's `receipt, exists := m[id]`. -/
def mapIndex (m : List (String × Receipt)) (id : String) : Receipt × Bool :=
  match m.find? fun e => e.1 = id with
  | some e => (e.2, true)
  | none => (Receipt.zero, false)

/-- The method `ReceiptProcessor.ProcessReceipt`; `newId` is the text of the identifier that
`uuid.New()` draws. The new state and the returned id. -/
def ProcessReceipt (rp : ProcessorState) (newId : String) (receipt : Receipt) :
    ProcessorState × String :=
  let id := newId
  (⟨mapAssign rp.receipts id receipt⟩, id)

/-- The method `ReceiptProcessor.GetReceipt`. -/
def GetReceipt (rp : ProcessorState) (id : String) : Receipt × Bool :=
  mapIndex rp.receipts id

/-- What a handler writes as the body of its response. -/
inductive Body where
  /-- The message given to `http.Error`, sent as plain text. -/
  | text (message : String)
  /-- The JSON encoding of a `models.ReceiptResponse`. -/
  | receiptResponse (ID : String)
  /-- The JSON encoding of a `models.PointsResponse`. -/
  | pointsResponse (Points : Int)
  deriving DecidableEq, Repr

/-- The response of a handler: status code and body. -/
structure Response where
  status : Nat
  body : Body
  deriving DecidableEq, Repr

/-- The handler `ReceiptHandler.ProcessReceipt`. `decoded` is the outcome of decoding the
request body into a receipt (`none` when `Decode` returns an error) and `newId` the
identifier that `uuid.New()` draws when the receipt is stored. The new state and the
response. -/
def ReceiptHandler.ProcessReceipt (rp : ProcessorState) (newId : String)
    (decoded : Option Receipt) : ProcessorState × Response :=
  match decoded with
  | none => (rp, ⟨400, .text "The receipt is invalid."⟩)
  | some receipt =>
    if !isValidReceipt receipt then (rp, ⟨400, .text "The receipt is invalid."⟩)
    else
      let (rp, id) := ReceiptProcessor.ProcessReceipt rp newId receipt
      (rp, ⟨200, .receiptResponse id⟩)

/-- The handler `ReceiptHandler.GetPoints`: the response, and the receipts on which the
handler called `CalculatePoints` while it served the request. -/
def ReceiptHandler.GetPoints (rt : Runtime) (rp : ProcessorState) (id : String) :
    Response × List Receipt :=
  let (receipt, found) := GetReceipt rp id
  if !found then (⟨404, .text "No receipt found for that ID."⟩, [])
  else
    let points := CalculatePoints rt receipt
    (⟨200, .pointsResponse points⟩, [receipt])

/-- A request to the server. -/
inductive Request where
  /-- A request routed to `ReceiptHandler.ProcessReceipt`. -/
  | process (newId : String) (decoded : Option Receipt)
  /-- A request routed to `ReceiptHandler.GetPoints`. -/
  | points (id : String)

/-- The state after one request. -/
def serveOne (rp : ProcessorState) : Request → ProcessorState
  | .process newId decoded => (ReceiptHandler.ProcessReceipt rp newId decoded).1
  | .points _ => rp

/-- The state after a sequence of requests. -/
def serve (rp : ProcessorState) (requests : List Request) : ProcessorState :=
  requests.foldl serveOne rp

/-- The state after a sequence of calls of the method `ProcessReceipt`, each given with the
id it returns. -/
def processAll (rp : ProcessorState) (calls : List (String × Receipt)) : ProcessorState :=
  calls.foldl (fun rp call => (ProcessReceipt rp call.1 call.2).1) rp

/-! ## Receipts and amounts of the rule 2, 3 and 5 statements -/

/-- The contribution of the total to the score: rules 2 and 3 together. -/
def totalPoints (rt : Runtime) (total : String) : Int :=
  roundDollarPoints rt total + quarterPoints rt total

/-- The receipt of the test "Rule 2: Round Dollar Amount" with the given amount as total and
as the price of its item, whose description is not eligible for rule 5. -/
def rule2Receipt (amount : String) : Receipt :=
  { Retailer := "X", PurchaseDate := "2022-01-02", PurchaseTime := "12:00",
    Items := [⟨"Item", amount⟩], Total := amount }

/-- The receipt of the test "Rule 3: Multiple of 0.25" with the given total. -/
def rule3Receipt (total : String) : Receipt :=
  { Retailer := "X", PurchaseDate := "2022-01-02", PurchaseTime := "12:00",
    Items := [⟨"Item", "5.23"⟩], Total := total }

/-- A total of 401 digits before the point: a one followed by 400 zeros, ".00". -/
def hugeTotal : String := ⟨'1' :: List.replicate 400 '0' ++ ['.', '0', '0']⟩

/-- A receipt with the total `hugeTotal`. -/
def hugeTotalReceipt : Receipt :=
  { Retailer := "A", PurchaseDate := "2022-01-02", PurchaseTime := "13:13",
    Items := [⟨"Item", "1.01"⟩], Total := hugeTotal }

/-- The smallest natural number `n` with `500 * n ≥ c`. -/
def ceilDiv500 (c : Nat) : Nat := (c + 499) / 500

/-! ## utils/validation.go -/

/-- The function `IsValidDate`: `time.Parse` with the layout `2006-01-02` returns no
error. -/
def IsValidDate (date : String) : Bool :=
  let err := (parseDate date).2
  decide (err = none)

/-- The function `IsValidTime`: `time.Parse` with the layout `15:04` returns no error. -/
def IsValidTime (timeStr : String) : Bool :=
  let err := (parseClock timeStr).2
  decide (err = none)

/-- The function `IsValidPrice`: `regexp.MatchString` with the pattern `^\d+\.\d{2}$`, the
pattern of `totalRegex` in the handler. -/
def IsValidPrice (price : String) : Bool :=
  let matched := totalRegexMatch price
  matched

/-- The function `IsValidRetailer`: `regexp.MatchString` with the pattern `^[\w\s\-&]+$`,
the pattern of `retailerRegex` in the handler. -/
def IsValidRetailer (retailer : String) : Bool :=
  let matched := retailerRegexMatch retailer
  matched

/-- The validator as the specification words it, with the named predicates: the four
strings and the list of items are not empty, the retailer, the date, the time and the total
are valid, and every item has a description that is not empty and a valid price. -/
def validByNamedPredicates (r : Receipt) : Bool :=
  decide (r.Retailer ≠ "" ∧ r.PurchaseDate ≠ "" ∧ r.PurchaseTime ≠ "" ∧ r.Total ≠ ""
    ∧ r.Items ≠ [])
  && IsValidRetailer r.Retailer && IsValidDate r.PurchaseDate && IsValidTime r.PurchaseTime
  && IsValidPrice r.Total
  && r.Items.all fun item => decide (item.ShortDescription ≠ "") && IsValidPrice item.Price

/-- Example 1 of the README with its items in another order. -/
def readmeReceipt1Shuffled : Receipt :=
  { readmeReceipt1 with
    Items := [⟨"   Klarbrunn 12-PK 12 FL OZ  ", "12.00"⟩, ⟨"Knorr Creamy Chicken", "1.26"⟩,
              ⟨"Mountain Dew 12PK", "6.49"⟩, ⟨"Doritos Nacho Cheese", "3.35"⟩,
              ⟨"Emils Cheese Pizza", "12.25"⟩] }

/-! ## The documented score and runtimes that differ in errors only -/

/-- The score as the comments of `CalculatePoints` and the specification word it, with the
rules on amounts decided by exact decimal arithmetic on the cents: one point for every
alphanumeric character of the retailer, 50 for a total with no cents, 25 for a total that is
a multiple of 0.25, 5 for every two items, the price times 0.2 rounded up for every item
with an eligible description, 6 for an odd day, 10 for a time from 14:00 and before 16:00.
The amounts are read as `digits.dd` texts. -/
def documentedScore (r : Receipt) : Int :=
  (alnumCount r.Retailer : Int)
    + (if centsOf r.Total % 100 = 0 then 50 else 0)
    + (if centsOf r.Total % 25 = 0 then 25 else 0)
    + ((5 * (r.Items.length / 2) : Nat) : Int)
    + ((r.Items.filter fun item => eligible item.ShortDescription).map
        fun item => (ceilDiv500 (centsOf item.Price) : Int)).sum
    + oddDayPoints r.PurchaseDate + afternoonPoints r.PurchaseTime

/-- The runtime `rt2` returns the values that `rt` returns, whatever errors either reports:
the same int64 for a conversion out of range and the same float64 for every text that
`ParseFloat` leaves to the runtime. -/
def Runtime.sameValues (rt rt2 : Runtime) : Prop :=
  rt2.int64OutOfRange = rt.int64OutOfRange
    ∧ ∀ s : String, (rt2.parseFloatRest s).1 = (rt.parseFloatRest s).1

/-- A runtime on which `ParseFloat` reports a syntax error, with the value 0, for the text
left to the runtime. -/
def Runtime.strict : Runtime :=
  ⟨fun _ => -(2 : Int) ^ 63, fun _ => (.finite false 0 0, some .ErrSyntax)⟩

/-- A runtime that returns the values of `Runtime.strict` and never reports an error. -/
def Runtime.silent : Runtime :=
  ⟨fun _ => -(2 : Int) ^ 63, fun _ => (.finite false 0 0, none)⟩

/-- An unvalidated receipt whose total has a thousands separator and whose eligible item has
a price followed by letters. -/
def separatorReceipt : Receipt :=
  { Retailer := "X", PurchaseDate := "2022-01-02", PurchaseTime := "12:00",
    Items := [⟨"ABC", "12.5abc"⟩], Total := "1,000.00" }

/-! ## int64 arithmetic -/

theorem wrap64_wrap64 (x : Int) : wrap64 (wrap64 x) = wrap64 x := by
  unfold wrap64; omega

theorem wrap64_add_wrap64_left (a b : Int) : wrap64 (wrap64 a + b) = wrap64 (a + b) := by
  unfold wrap64; omega

theorem wrap64_add_wrap64_right (a b : Int) : wrap64 (a + wrap64 b) = wrap64 (a + b) := by
  unfold wrap64; omega

theorem wrap64_of_range {x : Int} (h1 : -(2 : Int) ^ 63 ≤ x) (h2 : x < 2 ^ 63) :
    wrap64 x = x := by
  unfold wrap64; omega

theorem wrap64_range (x : Int) : -(2 : Int) ^ 63 ≤ wrap64 x ∧ wrap64 x < 2 ^ 63 := by
  unfold wrap64; omega

theorem add64_wrap64_left (a b : Int) : add64 (wrap64 a) b = wrap64 (a + b) := by
  unfold add64; exact wrap64_add_wrap64_left a b

theorem sum64_foldl (xs : List Int) (a : Int) :
    xs.foldl add64 (wrap64 a) = wrap64 (a + xs.sum) := by
  induction xs generalizing a with
  | nil => simp
  | cons x xs ih =>
    simp only [List.foldl_cons, List.sum_cons, add64_wrap64_left, ih]
    apply congrArg wrap64; ring

theorem sum64_eq (xs : List Int) : sum64 xs = wrap64 xs.sum := by
  have h := sum64_foldl xs 0
  have h0 : wrap64 0 = 0 := by decide
  rw [h0] at h
  simpa [sum64] using h

theorem wrap64_sum_seven (a b c d e f g : Int) :
    wrap64 (a + (b + (c + (d + (wrap64 e + (f + g)))))) = wrap64 (a + b + c + d + e + f + g) := by
  unfold wrap64; omega

theorem sum64_seven (a b c d f g : Int) (xs : List Int) :
    sum64 [a, b, c, d, sum64 xs, f, g] = wrap64 (a + b + c + d + xs.sum + f + g) := by
  rw [sum64_eq, sum64_eq]
  simp only [List.sum_cons, List.sum_nil, add_zero]
  exact wrap64_sum_seven a b c d xs.sum f g

/-! ## The score as a sum -/

theorem rule5Step_eq (rt : Runtime) (p : Int) (item : Item) :
    rule5Step rt (wrap64 p) item = wrap64 (p + itemPoints rt item) := by
  unfold rule5Step itemPoints eligible priceBonus
  by_cases h : len (TrimSpace item.ShortDescription) > 0 ∧
      len (TrimSpace item.ShortDescription) % 3 = 0
  · simp only [h, and_self, if_true, decide_True, add64_wrap64_left]
  · simp only [h, if_false, decide_False, add_zero]
    simp

theorem rule5_foldl (rt : Runtime) (items : List Item) (p : Int) :
    items.foldl (rule5Step rt) (wrap64 p) = wrap64 (p + (items.map (itemPoints rt)).sum) := by
  induction items generalizing p with
  | nil => simp
  | cons x xs ih =>
    simp only [List.foldl_cons, List.map_cons, List.sum_cons, rule5Step_eq, ih]
    apply congrArg wrap64; ring

theorem alphanumericFindAll_length (s : String) :
    (alphanumericFindAll s).length = alnumCount s := by
  simp [alphanumericFindAll, alnumCount]

/-- The score is the integer sum of the seven contributions, reduced into int64. -/
theorem CalculatePoints_eq_wrap (rt : Runtime) (r : Receipt) :
    CalculatePoints rt r =
      wrap64 (retailerPoints r.Retailer + roundDollarPoints rt r.Total
        + quarterPoints rt r.Total + pairPoints r.Items
        + (r.Items.map (itemPoints rt)).sum
        + oddDayPoints r.PurchaseDate + afternoonPoints r.PurchaseTime) := by
  have step : ∀ (c : Prop) [Decidable c] (p k : Int),
      (if c then add64 (wrap64 p) k else wrap64 p) = wrap64 (p + if c then k else 0) := by
    intro c _ p k
    by_cases h : c
    · simp [h, add64_wrap64_left]
    · simp [h]
  unfold CalculatePoints
  simp only [alphanumericFindAll_length]
  have h0 : add64 0 (wrap64 (alnumCount r.Retailer)) = wrap64 (retailerPoints r.Retailer) := by
    unfold add64 retailerPoints
    rw [zero_add, wrap64_wrap64]
  rw [h0, step, step, add64_wrap64_left, rule5_foldl, step, step]
  rfl

set_option maxRecDepth 20000 in
/-- The receipts of the tests evaluate to the documented scores on every runtime. -/
theorem documented_receipts (rt : Runtime) :
    CalculatePoints rt simpleReceipt = 31 ∧ CalculatePoints rt morningReceipt = 15
      ∧ CalculatePoints rt readmeReceipt1 = 28
      ∧ CalculatePoints rt readmeReceipt2 = 109 := by
  refine ⟨?_, ?_, ?_, ?_⟩ <;> rfl

/-- The score as the sum of the code's seven contributions. For every receipt,
`CalculatePoints` returns the int64 sum of seven contributions, each a function of the one
field it reads: (1) the alphanumeric characters of the retailer,
(2) 50 when `math.Mod(total, 1.0) == 0`, (3) 25 when `math.Mod(total*100, 25) == 0`,
(4) 5 per pair of items, (5) the sum over the eligible items of
`int64(math.Ceil(price * 0.2))`, (6) 6 for an odd day, (7) 10 for a time in
`[14:00, 16:00)`; whenever the integer sum of the seven fits an int64 the score is that sum
itself; and the four documented receipts score 31, 15, 28 and 109. -/
theorem calculatePoints_sum_of_seven_contributions :
    (∀ (rt : Runtime) (r : Receipt),
      CalculatePoints rt r =
        sum64 [retailerPoints r.Retailer, roundDollarPoints rt r.Total,
          quarterPoints rt r.Total, pairPoints r.Items,
          sum64 (r.Items.map (itemPoints rt)),
          oddDayPoints r.PurchaseDate, afternoonPoints r.PurchaseTime])
    ∧ (∀ (rt : Runtime) (r : Receipt),
        retailerPoints r.Retailer + roundDollarPoints rt r.Total + quarterPoints rt r.Total
          + pairPoints r.Items + (r.Items.map (itemPoints rt)).sum
          + oddDayPoints r.PurchaseDate + afternoonPoints r.PurchaseTime < 2 ^ 63 →
        -(2 : Int) ^ 63 ≤
          retailerPoints r.Retailer + roundDollarPoints rt r.Total + quarterPoints rt r.Total
          + pairPoints r.Items + (r.Items.map (itemPoints rt)).sum
          + oddDayPoints r.PurchaseDate + afternoonPoints r.PurchaseTime →
        CalculatePoints rt r =
          retailerPoints r.Retailer + roundDollarPoints rt r.Total + quarterPoints rt r.Total
          + pairPoints r.Items + (r.Items.map (itemPoints rt)).sum
          + oddDayPoints r.PurchaseDate + afternoonPoints r.PurchaseTime)
    ∧ (∀ rt : Runtime,
        CalculatePoints rt simpleReceipt = 31 ∧ CalculatePoints rt morningReceipt = 15
          ∧ CalculatePoints rt readmeReceipt1 = 28
          ∧ CalculatePoints rt readmeReceipt2 = 109) := by
  refine ⟨?_, ?_, ?_⟩
  · intro rt r
    rw [CalculatePoints_eq_wrap, sum64_seven]
  · intro rt r h1 h2
    rw [CalculatePoints_eq_wrap]
    exact wrap64_of_range h2 h1
  · intro rt
    exact documented_receipts rt

/-! ## Rule isolation -/

theorem wrap64_scoreSum_shape (a b c d e f g : Int) :
    wrap64 (wrap64 a + b + c + wrap64 d + e + f + g) = wrap64 (a + b + c + d + e + f + g) := by
  unfold wrap64; omega

/-- The score is the integer sum of the seven contributions, reduced into int64. -/
theorem CalculatePoints_eq_scoreSum (rt : Runtime) (r : Receipt) :
    CalculatePoints rt r = wrap64 (scoreSum rt r) := by
  rw [CalculatePoints_eq_wrap]
  unfold scoreSum retailerPoints pairPoints rule5Points
  rw [Nat.mul_comm 5 (r.Items.length / 2)]
  exact wrap64_scoreSum_shape _ _ _ _ _ _ _

theorem sub64_first (x y b c d e f g : Int) :
    sub64 (wrap64 (x + b + c + d + e + f + g)) (wrap64 (y + b + c + d + e + f + g))
      = wrap64 (x - y) := by
  unfold sub64 wrap64; omega

theorem sub64_sixth (x y a b c d e g : Int) :
    sub64 (wrap64 (a + b + c + d + e + x + g)) (wrap64 (a + b + c + d + e + y + g))
      = wrap64 (x - y) := by
  unfold sub64 wrap64; omega

theorem sub64_seventh (x y a b c d e f : Int) :
    sub64 (wrap64 (a + b + c + d + e + f + x)) (wrap64 (a + b + c + d + e + f + y))
      = wrap64 (x - y) := by
  unfold sub64 wrap64; omega

theorem sub64_items (x y u v a b c f g : Int) :
    sub64 (wrap64 (a + b + c + x + u + f + g)) (wrap64 (a + b + c + y + v + f + g))
      = wrap64 (x - y + (u - v)) := by
  unfold sub64 wrap64; omega

theorem alnumCount_cons (c : Char) (cs : List Char) :
    alnumCount ⟨c :: cs⟩ = (if isAlnum c then 1 else 0) + alnumCount ⟨cs⟩ := by
  unfold alnumCount
  by_cases h : isAlnum c = true
  · simp [List.filter_cons, h]; omega
  · simp [List.filter_cons, h]

theorem isAlnum_iff (c : Char) :
    isAlnum c = true ↔
      (97 ≤ c.toNat ∧ c.toNat ≤ 122) ∨ (65 ≤ c.toNat ∧ c.toNat ≤ 90)
        ∨ (48 ≤ c.toNat ∧ c.toNat ≤ 57) := by
  unfold isAlnum
  rw [decide_eq_true_iff]
  exact Iff.rfl

theorem toNat_of_eq_char {c d : Char} (h : c = d) : c.toNat = d.toNat := by rw [h]

theorem not_isAlnum_of_other (c : Char)
    (h : isSpace c = true ∨ c = '-' ∨ c = '&') : isAlnum c = false := by
  rw [Bool.eq_false_iff]
  intro ha
  rw [isAlnum_iff] at ha
  rcases h with h | h | h
  · unfold isSpace at h
    simp only [Bool.or_eq_true, Bool.and_eq_true, decide_eq_true_eq] at h
    omega
  · have := toNat_of_eq_char h
    have h2 : ('-' : Char).toNat = 45 := by decide
    omega
  · have := toNat_of_eq_char h
    have h2 : ('&' : Char).toNat = 38 := by decide
    omega

set_option maxRecDepth 20000 in
/-- The receipts of the rule 1 test evaluate ten points apart on every runtime. -/
theorem rule1_test (rt : Runtime) :
    CalculatePoints rt { rule1Base with Retailer := "Tar-get & Store" }
      - CalculatePoints rt rule1Base = 10 := by
  rfl

/-- C2. Rule 1: replacing the retailer of any receipt changes the score, in int64
arithmetic, by exactly the difference of the two retailers' counts of characters in
`a-z`, `A-Z`, `0-9`; every character counts one when it is in that class and nothing
otherwise, and white space, `-` and `&` are not in it. "Target" counts 6, and replacing
"X" by "Tar-get & Store" raises the score of the test receipt by exactly 10. -/
theorem retailer_rule_counts_alphanumerics :
    (∀ (rt : Runtime) (r : Receipt) (s : String),
      sub64 (CalculatePoints rt { r with Retailer := s }) (CalculatePoints rt r)
        = wrap64 ((alnumCount s : Int) - (alnumCount r.Retailer : Int)))
    ∧ (∀ (c : Char) (cs : List Char),
        alnumCount ⟨c :: cs⟩ = (if isAlnum c then 1 else 0) + alnumCount ⟨cs⟩)
    ∧ alnumCount "" = 0
    ∧ (∀ c : Char, isAlnum c = true ↔
        (97 ≤ c.toNat ∧ c.toNat ≤ 122) ∨ (65 ≤ c.toNat ∧ c.toNat ≤ 90)
          ∨ (48 ≤ c.toNat ∧ c.toNat ≤ 57))
    ∧ (∀ c : Char, isSpace c = true ∨ c = '-' ∨ c = '&' → isAlnum c = false)
    ∧ alnumCount "Target" = 6
    ∧ (∀ rt : Runtime,
        CalculatePoints rt { rule1Base with Retailer := "Tar-get & Store" }
          - CalculatePoints rt rule1Base = 10) := by
  refine ⟨?_, alnumCount_cons, by decide, isAlnum_iff, not_isAlnum_of_other, by decide,
    rule1_test⟩
  intro rt r s
  rw [CalculatePoints_eq_scoreSum, CalculatePoints_eq_scoreSum]
  unfold scoreSum
  exact sub64_first _ _ _ _ _ _ _ _

theorem parseClock_valid (h1 h2 m1 m2 : Char)
    (hd : isDigit h1 = true ∧ isDigit h2 = true ∧ isDigit m1 = true ∧ isDigit m2 = true)
    (hh : digitVal h1 * 10 + digitVal h2 < 24) (hm : digitVal m1 * 10 + digitVal m2 < 60) :
    parseClock ⟨[h1, h2, ':', m1, m2]⟩
      = (⟨0, 1, 1, digitVal h1 * 10 + digitVal h2, digitVal m1 * 10 + digitVal m2⟩, none) := by
  obtain ⟨d1, d2, d3, d4⟩ := hd
  have e1 : ¬ (24 ≤ digitVal h1 * 10 + digitVal h2) := by omega
  have e2 : ¬ (60 ≤ digitVal m1 * 10 + digitVal m2) := by omega
  simp [parseClock, getnum, d1, d2, d3, d4, e1, e2]

theorem parseDate_valid (y1 y2 y3 y4 o1 o2 d1 d2 : Char)
    (hy : isDigit y1 = true ∧ isDigit y2 = true ∧ isDigit y3 = true ∧ isDigit y4 = true)
    (ho : isDigit o1 = true ∧ isDigit o2 = true) (hd : isDigit d1 = true ∧ isDigit d2 = true)
    (hm : 1 ≤ digitVal o1 * 10 + digitVal o2 ∧ digitVal o1 * 10 + digitVal o2 ≤ 12)
    (hday : 1 ≤ digitVal d1 * 10 + digitVal d2 ∧
      digitVal d1 * 10 + digitVal d2
        ≤ daysIn (digitVal o1 * 10 + digitVal o2) (digitsVal [y1, y2, y3, y4])) :
    parseDate ⟨[y1, y2, y3, y4, '-', o1, o2, '-', d1, d2]⟩
      = (⟨digitsVal [y1, y2, y3, y4], digitVal o1 * 10 + digitVal o2,
          digitVal d1 * 10 + digitVal d2, 0, 0⟩, none) := by
  obtain ⟨a1, a2, a3, a4⟩ := hy
  obtain ⟨b1, b2⟩ := ho
  obtain ⟨c1, c2⟩ := hd
  have e1 : ¬ (digitVal o1 * 10 + digitVal o2 = 0 ∨ 12 < digitVal o1 * 10 + digitVal o2) := by
    omega
  have e2 : ¬ (digitVal d1 * 10 + digitVal d2 < 1 ∨
      daysIn (digitVal o1 * 10 + digitVal o2) (digitsVal [y1, y2, y3, y4])
        < digitVal d1 * 10 + digitVal d2) := by omega
  simp only [parseDate, getnum, a1, a2, a3, a4, b1, b2, c1, c2, e1, e2, Bool.not_true,
    Bool.and_self, Bool.false_eq_true, if_false, ne_eq, not_true_eq_false, not_false_eq_true,
    if_true]

set_option maxRecDepth 20000 in
/-- The receipts of the rule 7 test evaluate to the expected scores on every runtime. -/
theorem rule7_test (rt : Runtime) :
    CalculatePoints rt (dateTimeReceipt "2022-01-02" "13:59") = 1
      ∧ CalculatePoints rt (dateTimeReceipt "2022-01-02" "14:00") = 11
      ∧ CalculatePoints rt (dateTimeReceipt "2022-01-02" "14:30") = 11
      ∧ CalculatePoints rt (dateTimeReceipt "2022-01-02" "15:59") = 11
      ∧ CalculatePoints rt (dateTimeReceipt "2022-01-02" "16:00") = 1
      ∧ CalculatePoints rt (dateTimeReceipt "2022-01-02" "17:00") = 1 := by
  refine ⟨?_, ?_, ?_, ?_, ?_, ?_⟩ <;> rfl

set_option maxRecDepth 20000 in
/-- The receipts of the rule 6 test evaluate to the expected scores on every runtime. -/
theorem rule6_test (rt : Runtime) :
    CalculatePoints rt (dateTimeReceipt "2022-01-01" "12:00") = 7
      ∧ CalculatePoints rt (dateTimeReceipt "2022-01-02" "12:00") = 1
      ∧ CalculatePoints rt (dateTimeReceipt "2022-01-31" "12:00") = 7
      ∧ CalculatePoints rt (dateTimeReceipt "2022-01-30" "12:00") = 1 := by
  refine ⟨?_, ?_, ?_, ?_⟩ <;> rfl

set_option maxRecDepth 20000 in
/-- The receipts of the rule 4 test evaluate to the expected scores on every runtime. -/
theorem rule4_test (rt : Runtime) :
    CalculatePoints rt (rule4Receipt 1 "1.01") = 1
      ∧ CalculatePoints rt (rule4Receipt 2 "2.02") = 6
      ∧ CalculatePoints rt (rule4Receipt 3 "3.03") = 6
      ∧ CalculatePoints rt (rule4Receipt 4 "4.04") = 11
      ∧ CalculatePoints rt (rule4Receipt 5 "5.05") = 11 := by
  refine ⟨?_, ?_, ?_, ?_, ?_⟩ <;> rfl

/-- C6. Rule 7: for a purchase time that is a valid 24-hour `HH:MM`, the contribution is 10
exactly when `840 ≤ 60*HH + MM < 960` and 0 otherwise (lower bound inclusive, upper bound
exclusive); replacing only the purchase time of any receipt changes the score, in int64
arithmetic, by the difference of the two times' contributions and nothing else; and the
receipts of the test score 0, 10, 10, 10, 0, 0 above their base of 1 for 13:59, 14:00,
14:30, 15:59, 16:00, 17:00. -/
theorem afternoon_rule_half_open_window (h1 h2 m1 m2 : Char)
    (hd : isDigit h1 = true ∧ isDigit h2 = true ∧ isDigit m1 = true ∧ isDigit m2 = true)
    (hh : digitVal h1 * 10 + digitVal h2 < 24) (hm : digitVal m1 * 10 + digitVal m2 < 60) :
    afternoonPoints ⟨[h1, h2, ':', m1, m2]⟩
        = (if 840 ≤ 60 * (digitVal h1 * 10 + digitVal h2) + (digitVal m1 * 10 + digitVal m2)
              ∧ 60 * (digitVal h1 * 10 + digitVal h2) + (digitVal m1 * 10 + digitVal m2) < 960
            then 10 else 0)
    ∧ (∀ (rt : Runtime) (r : Receipt) (t : String),
        sub64 (CalculatePoints rt { r with PurchaseTime := t }) (CalculatePoints rt r)
          = wrap64 (afternoonPoints t - afternoonPoints r.PurchaseTime))
    ∧ (∀ rt : Runtime,
        CalculatePoints rt (dateTimeReceipt "2022-01-02" "13:59") = 1
          ∧ CalculatePoints rt (dateTimeReceipt "2022-01-02" "14:00") = 11
          ∧ CalculatePoints rt (dateTimeReceipt "2022-01-02" "14:30") = 11
          ∧ CalculatePoints rt (dateTimeReceipt "2022-01-02" "15:59") = 11
          ∧ CalculatePoints rt (dateTimeReceipt "2022-01-02" "16:00") = 1
          ∧ CalculatePoints rt (dateTimeReceipt "2022-01-02" "17:00") = 1) := by
  refine ⟨?_, ?_, rule7_test⟩
  · unfold afternoonPoints
    rw [parseClock_valid h1 h2 m1 m2 hd hh hm]
    simp only [Nat.mul_comm 60]
  · intro rt r t
    rw [CalculatePoints_eq_scoreSum, CalculatePoints_eq_scoreSum]
    unfold scoreSum
    exact sub64_seventh _ _ _ _ _ _ _ _

/-- C6 at 14:00: the hypotheses hold and the contribution is 10. -/
theorem afternoon_rule_half_open_window_witness :
    afternoonPoints "14:00" = 10 := by
  have h := (afternoon_rule_half_open_window '1' '4' '0' '0' (by decide) (by decide)
    (by decide)).1
  exact h.trans (by decide)

/-- C7. Rule 6: for a purchase date that is a valid calendar date `YYYY-MM-DD`, the
contribution is 6 exactly when the day of month `DD` is odd and 0 otherwise, whatever the
year and the month; replacing only the purchase date of any receipt changes the score, in
int64 arithmetic, by the difference of the two dates' contributions; and the receipts of the
test score 6, 0, 6, 0 above their base of 1 for 2022-01-01, 2022-01-02, 2022-01-31,
2022-01-30. -/
theorem odd_day_rule (y1 y2 y3 y4 o1 o2 d1 d2 : Char)
    (hy : isDigit y1 = true ∧ isDigit y2 = true ∧ isDigit y3 = true ∧ isDigit y4 = true)
    (ho : isDigit o1 = true ∧ isDigit o2 = true) (hd : isDigit d1 = true ∧ isDigit d2 = true)
    (hm : 1 ≤ digitVal o1 * 10 + digitVal o2 ∧ digitVal o1 * 10 + digitVal o2 ≤ 12)
    (hday : 1 ≤ digitVal d1 * 10 + digitVal d2 ∧
      digitVal d1 * 10 + digitVal d2
        ≤ daysIn (digitVal o1 * 10 + digitVal o2) (digitsVal [y1, y2, y3, y4])) :
    oddDayPoints ⟨[y1, y2, y3, y4, '-', o1, o2, '-', d1, d2]⟩
        = (if (digitVal d1 * 10 + digitVal d2) % 2 = 1 then 6 else 0)
    ∧ (∀ (rt : Runtime) (r : Receipt) (d : String),
        sub64 (CalculatePoints rt { r with PurchaseDate := d }) (CalculatePoints rt r)
          = wrap64 (oddDayPoints d - oddDayPoints r.PurchaseDate))
    ∧ (∀ rt : Runtime,
        CalculatePoints rt (dateTimeReceipt "2022-01-01" "12:00") = 7
          ∧ CalculatePoints rt (dateTimeReceipt "2022-01-02" "12:00") = 1
          ∧ CalculatePoints rt (dateTimeReceipt "2022-01-31" "12:00") = 7
          ∧ CalculatePoints rt (dateTimeReceipt "2022-01-30" "12:00") = 1) := by
  refine ⟨?_, ?_, rule6_test⟩
  · unfold oddDayPoints
    rw [parseDate_valid y1 y2 y3 y4 o1 o2 d1 d2 hy ho hd hm hday]
  · intro rt r d
    rw [CalculatePoints_eq_scoreSum, CalculatePoints_eq_scoreSum]
    unfold scoreSum
    exact sub64_sixth _ _ _ _ _ _ _ _

/-- C7 at 2022-01-31: the hypotheses hold and the contribution is 6. -/
theorem odd_day_rule_witness : oddDayPoints "2022-01-31" = 6 := by
  have h := (odd_day_rule '2' '0' '2' '2' '0' '1' '3' '1' (by decide) (by decide)
    (by decide) (by decide) (by decide)).1
  exact h.trans (by decide)

theorem wrap64_fourth_out (a b c d e f g : Int) :
    wrap64 (a + b + c + d + e + f + g) = wrap64 (d + (a + b + c + e + f + g)) := by
  unfold wrap64; omega

/-- C8. Rule 4: for every receipt with `n` items the item-count contribution to the score is
`5 * floor(n / 2)`: the score is that number plus the contributions of the other six rules,
reduced into int64; replacing the items changes the score by the change of `5 * floor(n/2)`
and of the rule 5 sum and nothing else; one item more after an even number adds nothing;
and the test receipts with 1 to 5 ineligible items score 0, 5, 5, 10, 10 above their base
of 1. -/
theorem pair_rule_five_per_two_items :
    (∀ (rt : Runtime) (r : Receipt),
      CalculatePoints rt r =
        wrap64 (((5 * (r.Items.length / 2) : Nat) : Int)
          + ((alnumCount r.Retailer : Int) + roundDollarPoints rt r.Total
            + quarterPoints rt r.Total + rule5Points rt r.Items
            + oddDayPoints r.PurchaseDate + afternoonPoints r.PurchaseTime)))
    ∧ (∀ (rt : Runtime) (r : Receipt) (items : List Item),
        sub64 (CalculatePoints rt { r with Items := items }) (CalculatePoints rt r)
          = wrap64 ((((5 * (items.length / 2) : Nat) : Int)
              - ((5 * (r.Items.length / 2) : Nat) : Int))
              + (rule5Points rt items - rule5Points rt r.Items)))
    ∧ (∀ (item : Item) (items : List Item), items.length % 2 = 0 →
        5 * ((items ++ [item]).length / 2) = 5 * (items.length / 2))
    ∧ (∀ rt : Runtime,
        CalculatePoints rt (rule4Receipt 1 "1.01") = 1
          ∧ CalculatePoints rt (rule4Receipt 2 "2.02") = 6
          ∧ CalculatePoints rt (rule4Receipt 3 "3.03") = 6
          ∧ CalculatePoints rt (rule4Receipt 4 "4.04") = 11
          ∧ CalculatePoints rt (rule4Receipt 5 "5.05") = 11) := by
  refine ⟨?_, ?_, ?_, rule4_test⟩
  · intro rt r
    rw [CalculatePoints_eq_scoreSum]
    unfold scoreSum
    exact wrap64_fourth_out _ _ _ _ _ _ _
  · intro rt r items
    rw [CalculatePoints_eq_scoreSum, CalculatePoints_eq_scoreSum]
    unfold scoreSum
    exact sub64_items _ _ _ _ _ _ _ _ _
  · intro item items h
    rw [List.length_append, List.length_singleton]
    omega

/-! ## Rule 5: eligibility -/

theorem dropWhile_append_all {p : Char → Bool} (l r : List Char) (h : l.all p = true) :
    (l ++ r).dropWhile p = r.dropWhile p := by
  induction l with
  | nil => rfl
  | cons a l ih =>
    simp only [List.all_cons, Bool.and_eq_true] at h
    simp only [List.cons_append, List.dropWhile_cons, h.1, if_true]
    exact ih h.2

theorem dropWhile_all {p : Char → Bool} (l : List Char) (h : l.all p = true) :
    l.dropWhile p = [] := by
  have := dropWhile_append_all l [] h
  simpa using this

theorem dropWhile_head_false {p : Char → Bool} (l : List Char)
    (h : ∀ c ∈ l.head?, p c = false) : l.dropWhile p = l := by
  cases l with
  | nil => rfl
  | cons a l =>
    have : p a = false := h a (by simp)
    simp [List.dropWhile_cons, this]

theorem TrimSpace_spec (pre core post : List Char)
    (hpre : pre.all isSpace = true) (hpost : post.all isSpace = true)
    (hfirst : ∀ c ∈ core.head?, isSpace c = false)
    (hlast : ∀ c ∈ core.getLast?, isSpace c = false) :
    TrimSpace ⟨pre ++ core ++ post⟩ = ⟨core⟩ := by
  unfold TrimSpace
  congr 1
  show (((pre ++ core ++ post).dropWhile isSpace).reverse.dropWhile isSpace).reverse = core
  rw [List.append_assoc, dropWhile_append_all pre _ hpre]
  cases core with
  | nil =>
    rw [List.nil_append, dropWhile_all post hpost]
    rfl
  | cons a l =>
    rw [dropWhile_head_false ((a :: l) ++ post) (by simpa using hfirst)]
    rw [List.reverse_append, dropWhile_append_all post.reverse _ (by simpa using hpost)]
    rw [dropWhile_head_false _ (fun c hc => hlast c (by rwa [List.head?_reverse] at hc))]
    exact List.reverse_reverse _

theorem eligible_of_all_space (d : String) (h : d.data.all isSpace = true) :
    eligible d = false := by
  have ht : TrimSpace d = "" := by
    have := TrimSpace_spec d.data [] [] h rfl (by simp) (by simp)
    simpa using this
  unfold eligible
  rw [ht]
  decide

theorem rule5Step_cases (rt : Runtime) (p : Int) (item : Item) :
    rule5Step rt p item =
      if eligible item.ShortDescription = true then add64 p (priceBonus rt item.Price)
      else p := by
  unfold rule5Step eligible priceBonus
  by_cases h : len (TrimSpace item.ShortDescription) > 0 ∧
      len (TrimSpace item.ShortDescription) % 3 = 0
  · simp only [h, and_self, if_true, decide_True]
  · simp only [h, if_false, decide_False, Bool.false_eq_true]

set_option maxRecDepth 20000 in
/-- The receipts of the rule 5 test evaluate to the expected scores on every runtime. -/
theorem rule5_test (rt : Runtime) :
    CalculatePoints rt (rule5Receipt "ABCD" "5.00") = 76
      ∧ CalculatePoints rt (rule5Receipt "ABC" "5.00") = 77
      ∧ CalculatePoints rt (rule5Receipt "ABCDEF" "5.00") = 77
      ∧ CalculatePoints rt (rule5Receipt "ABC" "4.90") = 77
      ∧ CalculatePoints rt (rule5Receipt "ABC" "0.50") = 77
      ∧ CalculatePoints rt (rule5Receipt "ABC" "10.00") = 78
      ∧ CalculatePoints rt (rule5Receipt "   ABC   " "5.00") = 77
      ∧ CalculatePoints rt (rule5Receipt "   " "5.00") = 76 := by
  refine ⟨?_, ?_, ?_, ?_, ?_, ?_, ?_, ?_⟩ <;> rfl

/-- C5. Rule 5 eligibility: the loop adds an item's bonus exactly when the description,
after `strings.TrimSpace`, has a length (Go's `len`) greater than 0 and divisible by 3, and
leaves the score unchanged for every other item whatever its price; `TrimSpace` removes the
leading and the trailing white space and nothing else; a description made of white space
only is never eligible although the validator accepts it; "   ABC   " is eligible like
"ABC", "ABCD" is not; and the receipts of the test score as expected. -/
theorem rule5_eligibility_after_trim :
    (∀ (rt : Runtime) (p : Int) (item : Item),
      rule5Step rt p item =
        if 0 < len (TrimSpace item.ShortDescription)
            ∧ len (TrimSpace item.ShortDescription) % 3 = 0
        then add64 p (priceBonus rt item.Price) else p)
    ∧ (∀ (rt : Runtime) (desc price : String),
        ¬ (0 < len (TrimSpace desc) ∧ len (TrimSpace desc) % 3 = 0) →
        itemPoints rt ⟨desc, price⟩ = 0)
    ∧ (∀ pre core post : List Char, pre.all isSpace = true → post.all isSpace = true →
        (∀ c ∈ core.head?, isSpace c = false) → (∀ c ∈ core.getLast?, isSpace c = false) →
        TrimSpace ⟨pre ++ core ++ post⟩ = ⟨core⟩)
    ∧ (∀ (rt : Runtime) (desc price : String), desc.data.all isSpace = true →
        itemPoints rt ⟨desc, price⟩ = 0)
    ∧ isValidReceipt (rule5Receipt "   " "5.00") = true
    ∧ TrimSpace "   ABC   " = "ABC"
    ∧ eligible "   ABC   " = true ∧ eligible "ABC" = true ∧ eligible "ABCD" = false
    ∧ (∀ rt : Runtime,
        CalculatePoints rt (rule5Receipt "ABCD" "5.00") = 76
          ∧ CalculatePoints rt (rule5Receipt "ABC" "5.00") = 77
          ∧ CalculatePoints rt (rule5Receipt "ABCDEF" "5.00") = 77
          ∧ CalculatePoints rt (rule5Receipt "ABC" "4.90") = 77
          ∧ CalculatePoints rt (rule5Receipt "ABC" "0.50") = 77
          ∧ CalculatePoints rt (rule5Receipt "ABC" "10.00") = 78
          ∧ CalculatePoints rt (rule5Receipt "   ABC   " "5.00") = 77
          ∧ CalculatePoints rt (rule5Receipt "   " "5.00") = 76) := by
  refine ⟨?_, ?_, TrimSpace_spec, ?_, by decide, by decide, by decide, by decide, by decide,
    rule5_test⟩
  · intro rt p item
    rw [rule5Step_cases]
    unfold eligible
    by_cases h : 0 < len (TrimSpace item.ShortDescription) ∧
        len (TrimSpace item.ShortDescription) % 3 = 0
    · simp only [gt_iff_lt, h, and_self, decide_True, if_true]
    · simp only [gt_iff_lt, h, decide_False, Bool.false_eq_true, if_false]
  · intro rt desc price h
    unfold itemPoints eligible
    simp only [gt_iff_lt, h, decide_False, Bool.false_eq_true, if_false]
  · intro rt desc price h
    unfold itemPoints
    rw [eligible_of_all_space desc h]
    rfl

/-! ## Overflow of the score -/

set_option maxRecDepth 20000 in
/-- C9. The receipt `overflowReceipt` is accepted by the validator, each of its two items
earns `int64(math.Ceil(4e19 * 0.2)) = 8000000000000000000` points, which is an int64, and
the sum of the two wraps around: on every runtime `CalculatePoints` returns the negative
number `-2446744073709551610`. -/
theorem validated_receipt_negative_score :
    isValidReceipt overflowReceipt = true
    ∧ (∀ rt : Runtime, priceBonus rt "40000000000000000000.00" = 8000000000000000000)
    ∧ (∀ rt : Runtime, CalculatePoints rt overflowReceipt = -2446744073709551610)
    ∧ (∀ rt : Runtime, CalculatePoints rt overflowReceipt < 0) := by
  refine ⟨by decide, fun rt => ?_, fun rt => ?_, fun rt => ?_⟩
  · rfl
  · rfl
  · have h : CalculatePoints rt overflowReceipt = -2446744073709551610 := rfl
    rw [h]; decide

/-! ## Malformed numeric text -/

theorem plainDecimal_of_cannotStart (cs : List Char) (h : cannotStartNumber cs = true) :
    plainDecimal cs = none := by
  cases cs with
  | nil => rfl
  | cons c rest =>
    simp only [cannotStartNumber, Bool.not_eq_true', Bool.or_eq_false_iff,
      decide_eq_false_iff_not] at h
    obtain ⟨⟨⟨⟨⟨⟨⟨⟨hd, hp⟩, hm⟩, hdot⟩, _⟩, _⟩, _⟩, _⟩, _⟩ := h
    simp only [plainDecimal, readSign, hp, hm, if_false, List.takeWhile, List.dropWhile, hd,
      hdot, false_and]

theorem ParseFloat_of_cannotStart (rt : Runtime) (s : String)
    (h : cannotStartNumber s.data = true) :
    ParseFloat rt s = (.finite false 0 0, some .ErrSyntax) := by
  unfold ParseFloat
  rw [plainDecimal_of_cannotStart _ h]
  simp only [h, if_true]

set_option maxRecDepth 20000 in
/-- C10 fails on `malformedReceipt`: the validator rejects it, `ParseFloat` reports a syntax
error for its total and for its price, and `CalculatePoints` still returns the ordinary
score 76, the total counting as a round dollar amount (50 + 25) and the price as 0. -/
theorem malformed_text_scored_as_zero :
    isValidReceipt malformedReceipt = false
    ∧ (∀ rt : Runtime, ParseFloat rt "abc" = (.finite false 0 0, some .ErrSyntax))
    ∧ (∀ rt : Runtime, CalculatePoints rt malformedReceipt = 76) := by
  refine ⟨by decide, fun rt => ?_, fun rt => ?_⟩
  · rfl
  · rfl

theorem roundDollarPoints_of_cannotStart (rt : Runtime) (s : String)
    (h : cannotStartNumber s.data = true) : roundDollarPoints rt s = 50 := by
  unfold roundDollarPoints
  rw [ParseFloat_of_cannotStart rt s h]
  rfl

theorem quarterPoints_of_cannotStart (rt : Runtime) (s : String)
    (h : cannotStartNumber s.data = true) : quarterPoints rt s = 25 := by
  unfold quarterPoints
  rw [ParseFloat_of_cannotStart rt s h]
  rfl

theorem priceBonus_of_cannotStart (rt : Runtime) (s : String)
    (h : cannotStartNumber s.data = true) : priceBonus rt s = 0 := by
  unfold priceBonus
  rw [ParseFloat_of_cannotStart rt s h]
  rfl

/-! ## The validator -/

theorem isValidReceipt_retailer (r : Receipt) (h : isValidReceipt r = true) :
    retailerRegexMatch r.Retailer = true := by
  unfold isValidReceipt at h
  by_cases h0 : r.Retailer = "" ∨ r.PurchaseDate = "" ∨ r.PurchaseTime = ""
      ∨ r.Total = "" ∨ r.Items.length = 0
  · rw [if_pos h0] at h; exact absurd h (by decide)
  · rw [if_neg h0] at h
    cases hr : retailerRegexMatch r.Retailer with
    | true => rfl
    | false =>
      simp only [hr, Bool.not_false, if_true] at h
      exact absurd h (by decide)

/-- C11 fails on `underscoreReceipt`: the underscore of "A_B" is neither a letter, a digit,
white space, a hyphen nor an ampersand, and the validator accepts the receipt, because the
class `\w` of the pattern contains the underscore. -/
theorem underscore_retailer_accepted :
    isValidReceipt underscoreReceipt = true
    ∧ underscoreReceipt.Retailer = "A_B"
    ∧ '_' ∈ underscoreReceipt.Retailer.data
    ∧ isAlnum '_' = false ∧ isSpace '_' = false ∧ '_' ≠ '-' ∧ '_' ≠ '&' := by
  refine ⟨by decide, rfl, by decide, by decide, by decide, by decide, by decide⟩

/-- C11, as the code behaves. The validator rejects every receipt whose retailer holds a
character outside the class of the pattern: ASCII letter, ASCII digit, underscore, the white
space characters tab, line feed, form feed, carriage return and space, hyphen, ampersand. -/
theorem retailer_outside_pattern_class_rejected (r : Receipt) (c : Char)
    (hc : c ∈ r.Retailer.data)
    (hout : ¬ (('a' ≤ c ∧ c ≤ 'z') ∨ ('A' ≤ c ∧ c ≤ 'Z') ∨ ('0' ≤ c ∧ c ≤ '9') ∨ c = '_'
      ∨ c = '\t' ∨ c = '\n' ∨ c = '\x0c' ∨ c = '\r' ∨ c = ' ' ∨ c = '-' ∨ c = '&')) :
    isValidReceipt r = false := by
  cases hv : isValidReceipt r with
  | false => rfl
  | true =>
    exfalso
    have hm := isValidReceipt_retailer r hv
    unfold retailerRegexMatch at hm
    simp only [Bool.and_eq_true, List.all_eq_true] at hm
    have hcc := hm.2 c hc
    apply hout
    unfold isRetailerChar isAlnum at hcc
    simp only [Bool.or_eq_true, decide_eq_true_eq, or_assoc] at hcc
    exact hcc

/-- C11 at the retailer "A+B": the plus sign is outside the class and the receipt is
rejected. -/
theorem retailer_outside_pattern_class_rejected_witness :
    isValidReceipt plusReceipt = false :=
  retailer_outside_pattern_class_rejected plusReceipt '+'
    (show '+' ∈ ['A', '+', 'B'] by decide) (by decide)

/-- C12. The validator rejects every receipt in which the retailer, the purchase date, the
purchase time or the total is the empty string, or in which the list of items is empty,
whatever the other fields hold. -/
theorem empty_field_rejected (r : Receipt)
    (h : r.Retailer = "" ∨ r.PurchaseDate = "" ∨ r.PurchaseTime = "" ∨ r.Total = ""
      ∨ r.Items = []) :
    isValidReceipt r = false := by
  have h0 : r.Retailer = "" ∨ r.PurchaseDate = "" ∨ r.PurchaseTime = ""
      ∨ r.Total = "" ∨ r.Items.length = 0 := by
    rw [List.length_eq_zero]
    exact h
  unfold isValidReceipt
  rw [if_pos h0]

/-- C12 at the receipt decoded from the body `{"retailer": "Test"}`: it is rejected. -/
theorem empty_field_rejected_witness : isValidReceipt missingFieldsReceipt = false :=
  empty_field_rejected missingFieldsReceipt (Or.inr (Or.inl rfl))

theorem daysIn_eq_calendarDays (month year : Nat) (h1 : 1 ≤ month) (h2 : month ≤ 12) :
    daysIn month year = calendarDays month year := by
  have hl : isLeap year = isLeapYear year := by
    unfold isLeap isLeapYear
    by_cases a : year % 4 = 0 <;> by_cases b : year % 100 = 0 <;> by_cases c : year % 400 = 0 <;>
      simp [a, b, c]
  unfold daysIn calendarDays
  rw [hl]
  interval_cases month <;> simp

theorem getnum_fixed_some (cs : List Char) (n : Nat) (rest : List Char)
    (h : getnum cs true = some (n, rest)) :
    ∃ a b, cs = a :: b :: rest ∧ isDigit a = true ∧ isDigit b = true
      ∧ n = digitVal a * 10 + digitVal b := by
  match cs, h with
  | [], h => simp [getnum] at h
  | [c], h =>
    simp only [getnum] at h
    split at h <;> simp at h
  | c :: d :: tl, h =>
    simp only [getnum] at h
    cases hc : isDigit c <;> cases hd : isDigit d <;> simp [hc, hd] at h
    exact ⟨c, d, by rw [h.2], hc, hd, h.1.symm⟩

theorem parseDate_ok_iff (s : String) :
    (parseDate s).2 = none ↔ isCalendarDateText s = true := by
  constructor
  · intro h
    unfold parseDate at h
    simp only at h
    split at h
    · rename_i y1 y2 y3 y4 rest hs
      split at h
      · exact absurd h (by simp)
      · rename_i hdig
        split at h
        · exact absurd h (by simp)
        · rename_i c rest2
          split at h
          · exact absurd h (by simp)
          · rename_i hc
            split at h
            · exact absurd h (by simp)
            · rename_i month rest3 hg1
              split at h
              · exact absurd h (by simp)
              · rename_i hmonth
                split at h
                · exact absurd h (by simp)
                · rename_i c2 rest4
                  split at h
                  · exact absurd h (by simp)
                  · rename_i hc2
                    split at h
                    · exact absurd h (by simp)
                    · rename_i day rest5 hg2
                      split at h
                      · exact absurd h (by simp)
                      · rename_i hrest
                        split at h
                        · exact absurd h (by simp)
                        · rename_i hday
                          obtain ⟨o1, o2, e1, ho1, ho2, hm⟩ := getnum_fixed_some _ _ _ hg1
                          obtain ⟨d1, d2, e2, hd1, hd2, hd⟩ := getnum_fixed_some _ _ _ hg2
                          simp only [ne_eq, not_not] at hc hc2 hrest
                          subst hc hc2 hrest e2 e1
                          simp only [Bool.not_eq_true, Bool.not_eq_false', Bool.and_eq_true] at hdig
                          have hmm : 1 ≤ month ∧ month ≤ 12 := by omega
                          have hcal := daysIn_eq_calendarDays month (digitsVal [y1, y2, y3, y4])
                            hmm.1 hmm.2
                          unfold isCalendarDateText
                          rw [hs]
                          subst hm hd
                          simp only [hdig, ho1, ho2, hd1, hd2, Bool.and_self, decide_True,
                            Bool.true_and, Bool.and_eq_true, decide_eq_true_eq, and_self,
                            true_and]
                          omega
    · exact absurd h (by simp)
  · intro h
    unfold isCalendarDateText at h
    split at h
    · rename_i y1 y2 y3 y4 c1 o1 o2 c2 d1 d2 hs
      simp only [Bool.and_eq_true, decide_eq_true_eq] at h
      obtain ⟨⟨⟨⟨⟨⟨⟨⟨⟨⟨⟨⟨⟨a1, a2⟩, a3⟩, a4⟩, rfl⟩, b1⟩, b2⟩, rfl⟩, c1⟩, c2⟩, m1⟩, m2⟩, e1⟩, e2⟩ := h
      rw [← daysIn_eq_calendarDays _ _ m1 m2] at e2
      have := parseDate_valid y1 y2 y3 y4 o1 o2 d1 d2 ⟨a1, a2, a3, a4⟩ ⟨b1, b2⟩ ⟨c1, c2⟩
        ⟨m1, m2⟩ ⟨e1, e2⟩
      have hs2 : s = ⟨[y1, y2, y3, y4, '-', o1, o2, '-', d1, d2]⟩ := by
        cases s; simp only at hs; rw [hs]
      rw [hs2, this]
    · exact absurd h (by simp)

theorem digitVal_le_nine (c : Char) (h : isDigit c = true) : digitVal c ≤ 9 := by
  unfold isDigit at h
  simp only [decide_eq_true_eq] at h
  have h2 : c.toNat ≤ ('9' : Char).toNat := h.2
  have h3 : ('9' : Char).toNat = 57 := by decide
  unfold digitVal
  omega

theorem getnum_free_some (cs : List Char) (n : Nat) (rest : List Char)
    (h : getnum cs false = some (n, rest)) :
    (∃ a, cs = a :: rest ∧ isDigit a = true ∧ n = digitVal a
        ∧ ∀ d tl, rest = d :: tl → isDigit d = false)
    ∨ (∃ a b, cs = a :: b :: rest ∧ isDigit a = true ∧ isDigit b = true
        ∧ n = digitVal a * 10 + digitVal b) := by
  match cs, h with
  | [], h => simp [getnum] at h
  | [c], h =>
    simp only [getnum] at h
    cases hc : isDigit c <;> simp [hc] at h
    exact Or.inl ⟨c, by rw [h.2], hc, h.1.symm, by rw [h.2]; intro d tl hh; cases hh⟩
  | c :: d :: tl, h =>
    simp only [getnum] at h
    cases hc : isDigit c <;> cases hd : isDigit d <;> simp [hc, hd] at h
    · refine Or.inl ⟨c, by rw [h.2], hc, h.1.symm, ?_⟩
      rw [← h.2]
      intro d2 tl2 hh
      cases hh
      exact hd
    · exact Or.inr ⟨c, d, by rw [h.2], hc, hd, h.1.symm⟩

theorem parseClock_one_digit (h1 m1 m2 : Char)
    (hd : isDigit h1 = true ∧ isDigit m1 = true ∧ isDigit m2 = true)
    (hm : digitVal m1 * 10 + digitVal m2 < 60) :
    parseClock ⟨[h1, ':', m1, m2]⟩
      = (⟨0, 1, 1, digitVal h1, digitVal m1 * 10 + digitVal m2⟩, none) := by
  obtain ⟨d1, d3, d4⟩ := hd
  have e0 : isDigit ':' = false := by decide
  have e1 : ¬ (24 ≤ digitVal h1) := by have := digitVal_le_nine h1 d1; omega
  have e2 : ¬ (60 ≤ digitVal m1 * 10 + digitVal m2) := by omega
  simp [parseClock, getnum, d1, d3, d4, e0, e1, e2]

theorem parseClock_ok_iff (s : String) :
    (parseClock s).2 = none ↔ isClockText s = true := by
  constructor
  · intro h
    unfold parseClock at h
    simp only at h
    split at h
    · exact absurd h (by simp)
    · rename_i hour rest hg
      split at h
      · exact absurd h (by simp)
      · rename_i hhour
        split at h
        · exact absurd h (by simp)
        · rename_i c rest2
          split at h
          · exact absurd h (by simp)
          · rename_i hc
            split at h
            · exact absurd h (by simp)
            · rename_i min rest3 hg2
              split at h
              · exact absurd h (by simp)
              · rename_i hmin
                split at h
                · exact absurd h (by simp)
                · rename_i hrest
                  obtain ⟨m1, m2, e2, hm1, hm2, hm⟩ := getnum_fixed_some _ _ _ hg2
                  simp only [ne_eq, not_not] at hc hrest
                  subst hc hrest e2 hm
                  rcases getnum_free_some _ _ _ hg with ⟨a, e1, ha, hn, _⟩ | ⟨a, b, e1, ha, hb, hn⟩
                  · unfold isClockText
                    rw [e1]
                    simp only [ha, hm1, hm2, Bool.and_self, decide_True, Bool.true_and,
                      decide_eq_true_eq]
                    omega
                  · unfold isClockText
                    rw [e1]
                    subst hn
                    simp only [ha, hb, hm1, hm2, Bool.and_self, decide_True, Bool.true_and,
                      Bool.and_eq_true, decide_eq_true_eq]
                    omega
  · intro h
    unfold isClockText at h
    split at h
    · rename_i h1 c m1 m2 hs
      simp only [Bool.and_eq_true, decide_eq_true_eq] at h
      obtain ⟨⟨⟨⟨a1, rfl⟩, b1⟩, b2⟩, e1⟩ := h
      have hs2 : s = ⟨[h1, ':', m1, m2]⟩ := by
        cases s; simp only at hs; rw [hs]
      rw [hs2, parseClock_one_digit h1 m1 m2 ⟨a1, b1, b2⟩ e1]
    · rename_i h1 h2 c m1 m2 hs
      simp only [Bool.and_eq_true, decide_eq_true_eq] at h
      obtain ⟨⟨⟨⟨⟨⟨a1, a2⟩, rfl⟩, b1⟩, b2⟩, e0⟩, e1⟩ := h
      have hs2 : s = ⟨[h1, h2, ':', m1, m2]⟩ := by
        cases s; simp only at hs; rw [hs]
      rw [hs2, parseClock_valid h1 h2 m1 m2 ⟨a1, a2, b1, b2⟩ e0 e1]
    · exact absurd h (by simp)

theorem isTwoDigitClockText_imp (s : String) (h : isTwoDigitClockText s = true) :
    isClockText s = true := by
  unfold isTwoDigitClockText at h
  unfold isClockText
  split at h
  · rename_i h1 h2 c m1 m2 hs
    rw [hs]
    exact h
  · exact absurd h (by simp)

theorem itemsValid_iff (items : List Item) :
    itemsValid items = true ↔
      ∀ item ∈ items, item.ShortDescription ≠ "" ∧ totalRegexMatch item.Price = true := by
  induction items with
  | nil => simp [itemsValid]
  | cons it rest ih =>
    unfold itemsValid
    by_cases h : it.ShortDescription = "" ∨ (!totalRegexMatch it.Price) = true
    · rw [if_pos h]
      constructor
      · intro hf; exact absurd hf (by simp)
      · intro hall
        have := hall it (List.mem_cons_self _ _)
        rcases h with h | h
        · exact absurd h this.1
        · rw [this.2] at h; exact absurd h (by simp)
    · rw [if_neg h, ih]
      have h1 : it.ShortDescription ≠ "" := fun e => h (Or.inl e)
      have h2 : totalRegexMatch it.Price = true := by
        cases ht : totalRegexMatch it.Price with
        | true => rfl
        | false => exact absurd (Or.inr (by rw [ht]; rfl)) h
      constructor
      · intro hall x hx
        rcases List.mem_cons.1 hx with e | e
        · rw [e]; exact ⟨h1, h2⟩
        · exact hall x e
      · intro hall x hx
        exact hall x (List.mem_cons_of_mem _ hx)

theorem isValidReceipt_iff (r : Receipt) :
    isValidReceipt r = true ↔
      (r.Retailer ≠ "" ∧ r.PurchaseDate ≠ "" ∧ r.PurchaseTime ≠ "" ∧ r.Total ≠ ""
        ∧ r.Items ≠ [])
      ∧ retailerRegexMatch r.Retailer = true
      ∧ (parseDate r.PurchaseDate).2 = none
      ∧ (parseClock r.PurchaseTime).2 = none
      ∧ totalRegexMatch r.Total = true
      ∧ itemsValid r.Items = true := by
  unfold isValidReceipt
  have hlen : r.Items.length = 0 ↔ r.Items = [] := List.length_eq_zero
  by_cases h0 : r.Retailer = "" ∨ r.PurchaseDate = "" ∨ r.PurchaseTime = ""
      ∨ r.Total = "" ∨ r.Items.length = 0
  · rw [if_pos h0]
    constructor
    · intro hf; exact absurd hf (by simp)
    · rintro ⟨⟨a, b, c, d, e⟩, _⟩
      rw [hlen] at h0
      rcases h0 with h | h | h | h | h
      · exact absurd h a
      · exact absurd h b
      · exact absurd h c
      · exact absurd h d
      · exact absurd h e
  · rw [if_neg h0]
    rw [hlen] at h0
    have hb : r.Retailer ≠ "" ∧ r.PurchaseDate ≠ "" ∧ r.PurchaseTime ≠ "" ∧ r.Total ≠ ""
        ∧ r.Items ≠ [] := by
      refine ⟨fun e => h0 (Or.inl e), fun e => h0 (Or.inr (Or.inl e)),
        fun e => h0 (Or.inr (Or.inr (Or.inl e))),
        fun e => h0 (Or.inr (Or.inr (Or.inr (Or.inl e)))),
        fun e => h0 (Or.inr (Or.inr (Or.inr (Or.inr e))))⟩
    cases h1 : retailerRegexMatch r.Retailer <;>
      cases h2 : (parseDate r.PurchaseDate).2 <;>
      cases h3 : (parseClock r.PurchaseTime).2 <;>
      cases h4 : totalRegexMatch r.Total <;>
      simp [hb]

/-! ## The validator: date, time, amounts -/

theorem totalRegexMatch_iff (s : String) :
    totalRegexMatch s = true ↔ isTwoDecimalText s := by
  unfold totalRegexMatch isTwoDecimalText
  constructor
  · intro h
    split at h
    · rename_i d2 d1 c ip hs
      simp only [Bool.and_eq_true, decide_eq_true_eq, List.all_eq_true, ne_eq,
        decide_not, Bool.not_eq_true', decide_eq_false_iff_not] at h
      obtain ⟨⟨⟨⟨a2, a1⟩, rfl⟩, hne⟩, hall⟩ := h
      refine ⟨ip.reverse, d1, d2, ?_, ?_, ?_, a1, a2⟩
      · have := congrArg List.reverse hs
        rw [List.reverse_reverse] at this
        rw [this]
        simp
      · simpa using hne
      · intro x hx
        exact hall x (List.mem_reverse.1 hx)
    · exact absurd h (by simp)
  · rintro ⟨ip, d1, d2, hs, hne, hall, a1, a2⟩
    have hr : s.data.reverse = d2 :: d1 :: '.' :: ip.reverse := by
      rw [hs]; simp
    rw [hr]
    simp only [a1, a2, Bool.and_self, decide_True, Bool.true_and, Bool.and_eq_true,
      decide_eq_true_eq, List.all_eq_true, ne_eq, decide_not, Bool.not_eq_true',
      decide_eq_false_iff_not]
    refine ⟨by simpa using hne, ?_⟩
    intro x hx
    exact hall x (List.mem_reverse.1 hx)

theorem isCalendarDateText_ne_empty (d : String) (h : isCalendarDateText d = true) :
    d ≠ "" := by
  intro e
  rw [e] at h
  exact absurd h (by decide)

theorem isClockText_ne_empty (d : String) (h : isClockText d = true) : d ≠ "" := by
  intro e
  rw [e] at h
  exact absurd h (by decide)

theorem isTwoDecimalText_ne_empty (d : String) (h : isTwoDecimalText d) : d ≠ "" := by
  intro e
  obtain ⟨ip, d1, d2, hs, _⟩ := h
  rw [e] at hs
  have := congrArg List.length hs
  simp at this

/-- Dates of February and other texts, evaluated. -/
theorem date_examples :
    isCalendarDateText "2022-02-30" = false ∧ isCalendarDateText "2023-02-29" = false
    ∧ isCalendarDateText "2024-02-29" = true ∧ isCalendarDateText "1900-02-29" = false
    ∧ isCalendarDateText "2000-02-29" = true ∧ isCalendarDateText "2022-13-01" = false
    ∧ isCalendarDateText "2022-00-10" = false ∧ isCalendarDateText "2022-04-31" = false
    ∧ isCalendarDateText "2022-01-00" = false ∧ isCalendarDateText "2022-1-01" = false
    ∧ isCalendarDateText "2022/01/01" = false ∧ isCalendarDateText " 2022-01-01" = false
    ∧ isCalendarDateText "2022-01-01T00:00" = false
    ∧ isValidReceipt (dateTimeReceipt "2022-02-30" "12:00") = false
    ∧ isValidReceipt (dateTimeReceipt "2023-02-29" "12:00") = false
    ∧ isValidReceipt (dateTimeReceipt "2024-02-29" "12:00") = true := by
  decide

/-- C13. The validator accepts a purchase date exactly when it is a calendar date text:
`time.Parse` with the layout `2006-01-02` returns no error if and only if the text is four
digits, a hyphen, two digits, a hyphen, two digits, the month is in 01..12 and the day is
between 01 and the number of days of that month in that year of the Gregorian calendar; a
receipt that the validator accepts has such a date, and replacing the date of an accepted
receipt gives an accepted receipt exactly when the new date is such a text. So 2022-02-30,
2023-02-29 and 1900-02-29 are rejected and 2024-02-29 and 2000-02-29 are accepted; texts
with one-digit fields, other separators or surrounding characters are rejected. -/
theorem purchase_date_accepted_iff_calendar_date :
    (∀ s : String, (parseDate s).2 = none ↔ isCalendarDateText s = true)
    ∧ (∀ r : Receipt, isValidReceipt r = true → isCalendarDateText r.PurchaseDate = true)
    ∧ (∀ (r : Receipt) (d : String), isValidReceipt r = true →
        (isValidReceipt { r with PurchaseDate := d } = true ↔ isCalendarDateText d = true))
    ∧ (∀ r : Receipt, isCalendarDateText r.PurchaseDate = false → isValidReceipt r = false)
    ∧ isCalendarDateText "2022-02-30" = false ∧ isCalendarDateText "2023-02-29" = false
    ∧ isCalendarDateText "2024-02-29" = true ∧ isCalendarDateText "1900-02-29" = false
    ∧ isCalendarDateText "2000-02-29" = true ∧ isCalendarDateText "2022-13-01" = false
    ∧ isCalendarDateText "2022-00-10" = false ∧ isCalendarDateText "2022-04-31" = false
    ∧ isCalendarDateText "2022-01-00" = false ∧ isCalendarDateText "2022-1-01" = false
    ∧ isCalendarDateText "2022/01/01" = false ∧ isCalendarDateText " 2022-01-01" = false
    ∧ isCalendarDateText "2022-01-01T00:00" = false
    ∧ isValidReceipt (dateTimeReceipt "2022-02-30" "12:00") = false
    ∧ isValidReceipt (dateTimeReceipt "2023-02-29" "12:00") = false
    ∧ isValidReceipt (dateTimeReceipt "2024-02-29" "12:00") = true := by
  refine ⟨parseDate_ok_iff, ?_, ?_, ?_, date_examples⟩
  · intro r h
    exact (parseDate_ok_iff _).1 ((isValidReceipt_iff r).1 h).2.2.1
  · intro r d h
    obtain ⟨⟨a, _, c, e, f⟩, h1, _, h3, h4, h5⟩ := (isValidReceipt_iff r).1 h
    rw [isValidReceipt_iff, ← parseDate_ok_iff]
    constructor
    · intro hh; exact hh.2.2.1
    · intro hh
      exact ⟨⟨a, isCalendarDateText_ne_empty d ((parseDate_ok_iff d).1 hh), c, e, f⟩,
        h1, hh, h3, h4, h5⟩
  · intro r h
    cases hv : isValidReceipt r with
    | false => rfl
    | true =>
      have := (parseDate_ok_iff _).1 ((isValidReceipt_iff r).1 hv).2.2.1
      rw [h] at this
      exact absurd this (by decide)

/-- C14 fails on the time "9:30": it is not of the form `HH:MM` with a two-digit hour, yet
`time.Parse` with the layout `15:04` parses it without error, as 09:30, and the validator
accepts the receipt that carries it. -/
theorem one_digit_hour_accepted :
    isTwoDigitClockText "9:30" = false
    ∧ parseClock "9:30" = (⟨0, 1, 1, 9, 30⟩, none)
    ∧ isValidReceipt (dateTimeReceipt "2022-01-02" "9:30") = true := by
  refine ⟨by decide, by decide, by decide⟩

/-- Times of day and other texts, evaluated. -/
theorem clock_examples :
    isClockText "25:00" = false ∧ isClockText "24:00" = false
    ∧ isClockText "14:60" = false ∧ isClockText "02:30 PM" = false
    ∧ isClockText "2:30PM" = false ∧ isClockText "14:00:00" = false
    ∧ isClockText "14:5" = false ∧ isClockText ":30" = false ∧ isClockText "1430" = false
    ∧ isClockText "9:30" = true ∧ isClockText "09:30" = true ∧ isClockText "23:59" = true
    ∧ isClockText "00:00" = true
    ∧ isValidReceipt (dateTimeReceipt "2022-01-02" "25:00") = false
    ∧ isValidReceipt (dateTimeReceipt "2022-01-02" "02:30 PM") = false := by
  decide

/-- C14, as the code behaves. The validator accepts a purchase time exactly when it is an
hour of one or two digits with value below 24, a colon, and two digits with value 00..59,
and nothing else: `time.Parse` with the layout `15:04` returns no error if and only if the
text has that form; every `HH:MM` text with a two-digit hour has it; a receipt that the
validator accepts has such a time, and replacing the time of an accepted receipt gives an
accepted receipt exactly when the new time has that form. So "25:00", "24:00", "14:60",
times with seconds and times with an AM/PM suffix are rejected, and "9:30" is accepted. -/
theorem purchase_time_accepted_iff_clock_text :
    (∀ s : String, (parseClock s).2 = none ↔ isClockText s = true)
    ∧ (∀ s : String, isTwoDigitClockText s = true → isClockText s = true)
    ∧ (∀ r : Receipt, isValidReceipt r = true → isClockText r.PurchaseTime = true)
    ∧ (∀ (r : Receipt) (t : String), isValidReceipt r = true →
        (isValidReceipt { r with PurchaseTime := t } = true ↔ isClockText t = true))
    ∧ (∀ r : Receipt, isClockText r.PurchaseTime = false → isValidReceipt r = false)
    ∧ isClockText "25:00" = false ∧ isClockText "24:00" = false
    ∧ isClockText "14:60" = false ∧ isClockText "02:30 PM" = false
    ∧ isClockText "2:30PM" = false ∧ isClockText "14:00:00" = false
    ∧ isClockText "14:5" = false ∧ isClockText ":30" = false ∧ isClockText "1430" = false
    ∧ isClockText "9:30" = true ∧ isClockText "09:30" = true ∧ isClockText "23:59" = true
    ∧ isClockText "00:00" = true
    ∧ isValidReceipt (dateTimeReceipt "2022-01-02" "25:00") = false
    ∧ isValidReceipt (dateTimeReceipt "2022-01-02" "02:30 PM") = false := by
  refine ⟨parseClock_ok_iff, isTwoDigitClockText_imp, ?_, ?_, ?_, clock_examples⟩
  · intro r h
    exact (parseClock_ok_iff _).1 ((isValidReceipt_iff r).1 h).2.2.2.1
  · intro r t h
    obtain ⟨⟨a, b, _, e, f⟩, h1, h2, _, h4, h5⟩ := (isValidReceipt_iff r).1 h
    rw [isValidReceipt_iff, ← parseClock_ok_iff]
    constructor
    · intro hh; exact hh.2.2.2.1
    · intro hh
      exact ⟨⟨a, b, isClockText_ne_empty t ((parseClock_ok_iff t).1 hh), e, f⟩,
        h1, h2, hh, h4, h5⟩
  · intro r h
    cases hv : isValidReceipt r with
    | false => rfl
    | true =>
      have := (parseClock_ok_iff _).1 ((isValidReceipt_iff r).1 hv).2.2.2.1
      rw [h] at this
      exact absurd this (by decide)

/-- Amount texts, evaluated. -/
theorem amount_examples :
    totalRegexMatch "+1.00" = false ∧ totalRegexMatch "-1.00" = false
    ∧ totalRegexMatch "1,000.00" = false ∧ totalRegexMatch " 1.00" = false
    ∧ totalRegexMatch "1.00 " = false ∧ totalRegexMatch "1.00\n" = false
    ∧ totalRegexMatch "1.0" = false ∧ totalRegexMatch "1.000" = false
    ∧ totalRegexMatch ".00" = false ∧ totalRegexMatch "1." = false
    ∧ totalRegexMatch "100" = false ∧ totalRegexMatch "1.2e3" = false
    ∧ totalRegexMatch "١.٠٠" = false ∧ totalRegexMatch "0.00" = true
    ∧ totalRegexMatch "35.35" = true
    ∧ isValidReceipt { simpleReceipt with Total := "1.00\n" } = false
    ∧ isValidReceipt
        { morningReceipt with Items := [⟨"Pepsi - 12-oz", "1.25"⟩, ⟨"", "1.40"⟩] } = false
    ∧ isValidReceipt
        { morningReceipt with Items := [⟨"Pepsi - 12-oz", "1.25"⟩, ⟨"Dasani", "1.4"⟩] }
        = false := by
  decide

/-- C15. The pattern of the validator matches a text exactly when the text is one or more
digits 0-9, a point and exactly two digits 0-9; the validator rejects every receipt whose
total is not such a text, and every receipt in which some item, at any position, has an
empty description or a price that is not such a text. Texts with a sign, a separator, a
surrounding space, a trailing line feed, one or three decimals, no digit before the point
or a non-ASCII digit do not match. -/
theorem amounts_outside_pattern_rejected :
    (∀ s : String, totalRegexMatch s = true ↔ isTwoDecimalText s)
    ∧ (∀ r : Receipt, ¬ isTwoDecimalText r.Total → isValidReceipt r = false)
    ∧ (∀ (r : Receipt) (item : Item), item ∈ r.Items →
        item.ShortDescription = "" ∨ ¬ isTwoDecimalText item.Price →
        isValidReceipt r = false)
    ∧ totalRegexMatch "+1.00" = false ∧ totalRegexMatch "-1.00" = false
    ∧ totalRegexMatch "1,000.00" = false ∧ totalRegexMatch " 1.00" = false
    ∧ totalRegexMatch "1.00 " = false ∧ totalRegexMatch "1.00\n" = false
    ∧ totalRegexMatch "1.0" = false ∧ totalRegexMatch "1.000" = false
    ∧ totalRegexMatch ".00" = false ∧ totalRegexMatch "1." = false
    ∧ totalRegexMatch "100" = false ∧ totalRegexMatch "1.2e3" = false
    ∧ totalRegexMatch "١.٠٠" = false ∧ totalRegexMatch "0.00" = true
    ∧ totalRegexMatch "35.35" = true
    ∧ isValidReceipt { simpleReceipt with Total := "1.00\n" } = false
    ∧ isValidReceipt
        { morningReceipt with Items := [⟨"Pepsi - 12-oz", "1.25"⟩, ⟨"", "1.40"⟩] } = false
    ∧ isValidReceipt
        { morningReceipt with Items := [⟨"Pepsi - 12-oz", "1.25"⟩, ⟨"Dasani", "1.4"⟩] }
        = false := by
  refine ⟨totalRegexMatch_iff, ?_, ?_, amount_examples⟩
  · intro r h
    cases hv : isValidReceipt r with
    | false => rfl
    | true =>
      exact absurd ((totalRegexMatch_iff _).1 ((isValidReceipt_iff r).1 hv).2.2.2.2.1) h
  · intro r item hmem h
    cases hv : isValidReceipt r with
    | false => rfl
    | true =>
      exfalso
      have hi := (itemsValid_iff _).1 ((isValidReceipt_iff r).1 hv).2.2.2.2.2 item hmem
      rcases h with h | h
      · exact hi.1 h
      · exact h ((totalRegexMatch_iff _).1 hi.2)

theorem isRetailerChar_of_plain (c : Char) (h : isPlainRetailerChar c = true) :
    isRetailerChar c = true := by
  unfold isPlainRetailerChar at h
  unfold isRetailerChar isAlnum
  simp only [decide_eq_true_eq] at h
  simp only [Bool.or_eq_true, decide_eq_true_eq]
  rcases h with h | h | h | h | h | h | h | h | h | h
  · exact Or.inl (Or.inl (Or.inl (Or.inl (Or.inl (Or.inl (Or.inl (Or.inl (Or.inl h))))))))
  · exact Or.inl (Or.inl (Or.inl (Or.inl (Or.inl (Or.inl (Or.inl (Or.inl
      (Or.inr (Or.inl h)))))))))
  · exact Or.inl (Or.inl (Or.inl (Or.inl (Or.inl (Or.inl (Or.inl (Or.inl
      (Or.inr (Or.inr h)))))))))
  · exact Or.inl (Or.inl (Or.inl (Or.inl (Or.inl (Or.inl (Or.inr h))))))
  · exact Or.inl (Or.inl (Or.inl (Or.inl (Or.inl (Or.inr h)))))
  · exact Or.inl (Or.inl (Or.inl (Or.inl (Or.inr h))))
  · exact Or.inl (Or.inl (Or.inl (Or.inr h)))
  · exact Or.inl (Or.inl (Or.inr h))
  · exact Or.inl (Or.inr h)
  · exact Or.inr h

/-- C16. The validator accepts every receipt that breaks none of its rejection rules: when
the retailer is not empty and made only of ASCII letters, ASCII digits, ASCII white space
(tab, line feed, form feed, carriage return, space), hyphens and ampersands, the purchase
date is a calendar date text `YYYY-MM-DD`, the purchase time is a 24-hour `HH:MM` text, the
total is digits, a point and two digits, and the list of items is not empty, each item with
a description that is not empty and a price of the same form, `isValidReceipt` returns
true. -/
theorem well_formed_receipt_accepted (r : Receipt)
    (hne : r.Retailer ≠ "")
    (hret : ∀ c ∈ r.Retailer.data, isPlainRetailerChar c = true)
    (hdate : isCalendarDateText r.PurchaseDate = true)
    (htime : isTwoDigitClockText r.PurchaseTime = true)
    (htotal : isTwoDecimalText r.Total)
    (hitems : r.Items ≠ [])
    (hitem : ∀ item ∈ r.Items, item.ShortDescription ≠ "" ∧ isTwoDecimalText item.Price) :
    isValidReceipt r = true := by
  rw [isValidReceipt_iff]
  refine ⟨⟨hne, isCalendarDateText_ne_empty _ hdate,
    isClockText_ne_empty _ (isTwoDigitClockText_imp _ htime),
    isTwoDecimalText_ne_empty _ htotal, hitems⟩, ?_, (parseDate_ok_iff _).2 hdate,
    (parseClock_ok_iff _).2 (isTwoDigitClockText_imp _ htime),
    (totalRegexMatch_iff _).2 htotal, ?_⟩
  · unfold retailerRegexMatch
    simp only [Bool.and_eq_true, decide_eq_true_eq, List.all_eq_true, ne_eq]
    refine ⟨?_, fun c hc => isRetailerChar_of_plain c (hret c hc)⟩
    intro e
    apply hne
    cases hr : r.Retailer with
    | mk data =>
      rw [hr] at e
      simp only at e
      rw [e]
  · rw [itemsValid_iff]
    intro item hmem
    exact ⟨(hitem item hmem).1, (totalRegexMatch_iff _).2 (hitem item hmem).2⟩

/-- C16 at the two receipts submitted in `TestFullAPIFlow`: both satisfy the hypotheses and
are accepted. -/
theorem well_formed_receipt_accepted_witness :
    isValidReceipt simpleReceipt = true ∧ isValidReceipt morningReceipt = true :=
  ⟨well_formed_receipt_accepted simpleReceipt (by decide) (by decide) (by decide) (by decide)
      ⟨['1'], '2', '5', rfl, by decide, by decide, by decide, by decide⟩ (by decide)
      (by
        intro item hmem
        rcases List.mem_singleton.1 hmem with rfl
        exact ⟨by decide, ['1'], '2', '5', rfl, by decide, by decide, by decide, by decide⟩),
    well_formed_receipt_accepted morningReceipt (by decide) (by decide) (by decide) (by decide)
      ⟨['2'], '6', '5', rfl, by decide, by decide, by decide, by decide⟩ (by decide)
      (by
        intro item hmem
        rcases List.mem_cons.1 hmem with rfl | hmem
        · exact ⟨by decide, ['1'], '2', '5', rfl, by decide, by decide, by decide, by decide⟩
        · rcases List.mem_singleton.1 hmem with rfl
          exact ⟨by decide, ['1'], '4', '0', rfl, by decide, by decide, by decide,
            by decide⟩)⟩

/-! ## The store -/

theorem mapIndex_mapAssign_same (m : List (String × Receipt)) (id : String) (r : Receipt) :
    mapIndex (mapAssign m id r) id = (r, true) := by
  unfold mapIndex mapAssign
  simp only [List.find?_cons, decide_True]

theorem mapIndex_of_not_key (m : List (String × Receipt)) (id : String)
    (h : ∀ e ∈ m, e.1 ≠ id) : mapIndex m id = (Receipt.zero, false) := by
  unfold mapIndex
  have : m.find? (fun e => decide (e.1 = id)) = none := by
    rw [List.find?_eq_none]
    intro e he
    simp only [decide_eq_true_eq]
    exact h e he
  rw [this]

theorem mem_mapAssign (m : List (String × Receipt)) (id : String) (r : Receipt)
    (e : String × Receipt) (he : e ∈ mapAssign m id r) : e = (id, r) ∨ e ∈ m := by
  unfold mapAssign at he
  rcases List.mem_cons.1 he with h | h
  · exact Or.inl h
  · exact Or.inr (List.mem_filter.1 h).1

theorem processAll_keys (calls : List (String × Receipt)) (rp : ProcessorState)
    (e : String × Receipt) (he : e ∈ (processAll rp calls).receipts) :
    e ∈ rp.receipts ∨ e.1 ∈ calls.map Prod.fst := by
  induction calls generalizing rp with
  | nil => exact Or.inl he
  | cons c rest ih =>
    unfold processAll at he
    rw [List.foldl_cons] at he
    rcases ih _ he with h | h
    · unfold ProcessReceipt at h
      rcases mem_mapAssign _ _ _ _ h with h | h
      · right
        rw [h]
        exact List.mem_cons_self _ _
      · exact Or.inl h
    · right
      rw [List.map_cons]
      exact List.mem_cons_of_mem _ h

theorem GetPoints_of_found (rt : Runtime) (rp : ProcessorState) (id : String) (r : Receipt)
    (h : GetReceipt rp id = (r, true)) :
    ReceiptHandler.GetPoints rt rp id = (⟨200, .pointsResponse (CalculatePoints rt r)⟩, [r]) := by
  unfold ReceiptHandler.GetPoints
  rw [h]
  rfl

theorem GetPoints_of_not_found (rt : Runtime) (rp : ProcessorState) (id : String) (r : Receipt)
    (h : GetReceipt rp id = (r, false)) :
    ReceiptHandler.GetPoints rt rp id = (⟨404, .text "No receipt found for that ID."⟩, []) := by
  unfold ReceiptHandler.GetPoints
  rw [h]
  rfl

set_option maxRecDepth 20000 in
/-- The two receipts of `TestFullAPIFlow`, submitted to a new store and looked up by the id
returned, give 31 and 15 points. -/
theorem full_api_flow (rt : Runtime) (id : String) :
    (ReceiptHandler.ProcessReceipt NewReceiptProcessor id (some simpleReceipt)).2
        = ⟨200, .receiptResponse id⟩
    ∧ (ReceiptHandler.GetPoints rt
        (ReceiptHandler.ProcessReceipt NewReceiptProcessor id (some simpleReceipt)).1 id).1
        = ⟨200, .pointsResponse 31⟩
    ∧ (ReceiptHandler.ProcessReceipt NewReceiptProcessor id (some morningReceipt)).2
        = ⟨200, .receiptResponse id⟩
    ∧ (ReceiptHandler.GetPoints rt
        (ReceiptHandler.ProcessReceipt NewReceiptProcessor id (some morningReceipt)).1 id).1
        = ⟨200, .pointsResponse 15⟩ := by
  have h1 : isValidReceipt simpleReceipt = true := by decide
  have h2 : isValidReceipt morningReceipt = true := by decide
  have e1 : ReceiptHandler.ProcessReceipt NewReceiptProcessor id (some simpleReceipt)
      = (⟨mapAssign [] id simpleReceipt⟩, ⟨200, .receiptResponse id⟩) := by
    unfold ReceiptHandler.ProcessReceipt
    simp only [h1, Bool.not_true, Bool.false_eq_true, if_false]
    rfl
  have e2 : ReceiptHandler.ProcessReceipt NewReceiptProcessor id (some morningReceipt)
      = (⟨mapAssign [] id morningReceipt⟩, ⟨200, .receiptResponse id⟩) := by
    unfold ReceiptHandler.ProcessReceipt
    simp only [h2, Bool.not_true, Bool.false_eq_true, if_false]
    rfl
  have c1 : CalculatePoints rt simpleReceipt = 31 := rfl
  have c2 : CalculatePoints rt morningReceipt = 15 := rfl
  rw [e1, e2]
  dsimp only
  refine ⟨rfl, ?_, rfl, ?_⟩
  · rw [GetPoints_of_found rt ⟨mapAssign [] id simpleReceipt⟩ id simpleReceipt
      (mapIndex_mapAssign_same [] id simpleReceipt), c1]
  · rw [GetPoints_of_found rt ⟨mapAssign [] id morningReceipt⟩ id morningReceipt
      (mapIndex_mapAssign_same [] id morningReceipt), c2]

/-- C17. Round trip through the store: for every state of the store, every receipt `r` and
every id that `ProcessReceipt` draws and returns, `GetReceipt` on the new state returns
`(r, true)` for that id, and the `GetPoints` handler answers 200 with the points
`CalculatePoints r`, computed on `r` itself; the same holds when an accepted receipt goes
through the `ProcessReceipt` handler; and the two receipts of `TestFullAPIFlow` report 31
and 15 points. -/
theorem store_round_trip :
    (∀ (rp : ProcessorState) (newId : String) (r : Receipt),
        GetReceipt (ProcessReceipt rp newId r).1 (ProcessReceipt rp newId r).2 = (r, true))
    ∧ (∀ (rt : Runtime) (rp : ProcessorState) (newId : String) (r : Receipt),
        ReceiptHandler.GetPoints rt (ProcessReceipt rp newId r).1 (ProcessReceipt rp newId r).2
          = (⟨200, .pointsResponse (CalculatePoints rt r)⟩, [r]))
    ∧ (∀ (rt : Runtime) (rp : ProcessorState) (newId : String) (r : Receipt),
        isValidReceipt r = true →
        (ReceiptHandler.ProcessReceipt rp newId (some r)).2 = ⟨200, .receiptResponse newId⟩
        ∧ ReceiptHandler.GetPoints rt (ReceiptHandler.ProcessReceipt rp newId (some r)).1 newId
          = (⟨200, .pointsResponse (CalculatePoints rt r)⟩, [r]))
    ∧ (∀ (rt : Runtime) (id : String),
        (ReceiptHandler.GetPoints rt
          (ReceiptHandler.ProcessReceipt NewReceiptProcessor id (some simpleReceipt)).1 id).1
          = ⟨200, .pointsResponse 31⟩
        ∧ (ReceiptHandler.GetPoints rt
          (ReceiptHandler.ProcessReceipt NewReceiptProcessor id (some morningReceipt)).1 id).1
          = ⟨200, .pointsResponse 15⟩) := by
  refine ⟨?_, ?_, ?_, ?_⟩
  · intro rp newId r
    exact mapIndex_mapAssign_same _ _ _
  · intro rt rp newId r
    exact GetPoints_of_found rt _ _ r (mapIndex_mapAssign_same _ _ _)
  · intro rt rp newId r hv
    have e : ReceiptHandler.ProcessReceipt rp newId (some r)
        = ((ProcessReceipt rp newId r).1, ⟨200, .receiptResponse newId⟩) := by
      unfold ReceiptHandler.ProcessReceipt
      simp only [hv, Bool.not_true, Bool.false_eq_true, if_false]
      rfl
    rw [e]
    exact ⟨rfl, GetPoints_of_found rt _ _ r (mapIndex_mapAssign_same _ _ _)⟩
  · intro rt id
    exact ⟨(full_api_flow rt id).2.1, (full_api_flow rt id).2.2.2⟩

theorem handler_process_cases (rp : ProcessorState) (newId : String)
    (decoded : Option Receipt) :
    ((decoded = none ∨ ∃ r, decoded = some r ∧ isValidReceipt r = false)
      ∧ ReceiptHandler.ProcessReceipt rp newId decoded
          = (rp, ⟨400, .text "The receipt is invalid."⟩))
    ∨ (∃ r, decoded = some r ∧ isValidReceipt r = true
      ∧ ReceiptHandler.ProcessReceipt rp newId decoded
          = (⟨mapAssign rp.receipts newId r⟩, ⟨200, .receiptResponse newId⟩)) := by
  cases decoded with
  | none => exact Or.inl ⟨Or.inl rfl, rfl⟩
  | some r =>
    cases hv : isValidReceipt r with
    | false =>
      refine Or.inl ⟨Or.inr ⟨r, rfl, hv⟩, ?_⟩
      unfold ReceiptHandler.ProcessReceipt
      simp only [hv, Bool.not_false, if_true]
    | true =>
      refine Or.inr ⟨r, rfl, hv, ?_⟩
      unfold ReceiptHandler.ProcessReceipt
      simp only [hv, Bool.not_true, Bool.false_eq_true, if_false]
      rfl

theorem serveOne_valid (rp : ProcessorState) (q : Request)
    (h : ∀ e ∈ rp.receipts, isValidReceipt e.2 = true) :
    ∀ e ∈ (serveOne rp q).receipts, isValidReceipt e.2 = true := by
  cases q with
  | points id => exact h
  | process newId decoded =>
    show ∀ e ∈ (ReceiptHandler.ProcessReceipt rp newId decoded).1.receipts,
      isValidReceipt e.2 = true
    rcases handler_process_cases rp newId decoded with ⟨_, e⟩ | ⟨r, _, hv, e⟩
    · rw [e]; exact h
    · rw [e]
      intro x hx
      rcases mem_mapAssign _ _ _ _ hx with hx | hx
      · rw [hx]; exact hv
      · exact h x hx

theorem serve_valid (requests : List Request) (rp : ProcessorState)
    (h : ∀ e ∈ rp.receipts, isValidReceipt e.2 = true) :
    ∀ e ∈ (serve rp requests).receipts, isValidReceipt e.2 = true := by
  induction requests generalizing rp with
  | nil => exact h
  | cons q rest ih =>
    unfold serve
    rw [List.foldl_cons]
    exact ih _ (serveOne_valid rp q h)

/-- C18. Only receipts that the validator accepts are ever stored: starting from the empty
store, after any sequence of requests every receipt held in the store satisfies
`isValidReceipt`; the `ProcessReceipt` handler answers 400 with the text "The receipt is
invalid." exactly when the body cannot be decoded or the validator rejects the receipt, and
then it leaves the store as it was; otherwise it answers 200 with the new id and stores the
receipt under it. The bodies `{invalid json}` (not decodable) and `{"retailer": "Test"}` of
the tests are answered with 400. -/
theorem only_valid_receipts_stored :
    (∀ (requests : List Request) (id : String) (r : Receipt),
        (id, r) ∈ (serve NewReceiptProcessor requests).receipts → isValidReceipt r = true)
    ∧ (∀ (rp : ProcessorState) (newId : String) (decoded : Option Receipt),
        (ReceiptHandler.ProcessReceipt rp newId decoded).2.status = 400 →
        (ReceiptHandler.ProcessReceipt rp newId decoded).1 = rp
        ∧ (ReceiptHandler.ProcessReceipt rp newId decoded).2.body
            = .text "The receipt is invalid.")
    ∧ (∀ (rp : ProcessorState) (newId : String) (decoded : Option Receipt),
        (ReceiptHandler.ProcessReceipt rp newId decoded).2.status = 400 ↔
        (decoded = none ∨ ∃ r, decoded = some r ∧ isValidReceipt r = false))
    ∧ (∀ (rp : ProcessorState) (newId : String) (r : Receipt), isValidReceipt r = true →
        ReceiptHandler.ProcessReceipt rp newId (some r)
          = (⟨mapAssign rp.receipts newId r⟩, ⟨200, .receiptResponse newId⟩))
    ∧ (∀ (rp : ProcessorState) (newId : String),
        ReceiptHandler.ProcessReceipt rp newId none
          = (rp, ⟨400, .text "The receipt is invalid."⟩)
        ∧ ReceiptHandler.ProcessReceipt rp newId (some missingFieldsReceipt)
          = (rp, ⟨400, .text "The receipt is invalid."⟩)) := by
  refine ⟨?_, ?_, ?_, ?_, ?_⟩
  · intro requests id r h
    exact serve_valid requests NewReceiptProcessor
      (fun e he => absurd he (List.not_mem_nil e)) (id, r) h
  · intro rp newId decoded h
    rcases handler_process_cases rp newId decoded with ⟨_, e⟩ | ⟨r, _, _, e⟩
    · rw [e]; exact ⟨rfl, rfl⟩
    · rw [e] at h
      exact absurd h (show ¬ (200 : Nat) = 400 by decide)
  · intro rp newId decoded
    rcases handler_process_cases rp newId decoded with ⟨hc, e⟩ | ⟨r, hd, hv, e⟩
    · rw [e]
      exact ⟨fun _ => hc, fun _ => rfl⟩
    · rw [e]
      constructor
      · intro h; exact absurd h (show ¬ (200 : Nat) = 400 by decide)
      · intro h
        exfalso
        rcases h with h | ⟨r2, h, hv2⟩
        · rw [hd] at h; cases h
        · rw [hd] at h
          cases h
          rw [hv] at hv2
          cases hv2
  · intro rp newId r hv
    rcases handler_process_cases rp newId (some r) with ⟨hc, _⟩ | ⟨r2, hd, _, e⟩
    · exfalso
      rcases hc with h | ⟨r2, h, hv2⟩
      · cases h
      · cases h
        rw [hv] at hv2
        cases hv2
    · cases hd
      exact e
  · intro rp newId
    refine ⟨rfl, ?_⟩
    have hv : isValidReceipt missingFieldsReceipt = false := by decide
    unfold ReceiptHandler.ProcessReceipt
    simp only [hv, Bool.not_false, if_true]

/-- C19. An id that no earlier `ProcessReceipt` returned is not found: for a store built from
the empty store by any sequence of `ProcessReceipt` calls and an id that none of the calls
returned, `GetReceipt` reports not-found (with the zero receipt) and the `GetPoints` handler
answers 404 with the text "No receipt found for that ID." and calls `CalculatePoints` on no
receipt; more generally the same holds from any state in which the id is not a key; in
particular every lookup on a new store is not-found. -/
theorem unknown_id_not_found (rt : Runtime) (calls : List (String × Receipt)) (id : String)
    (h : id ∉ calls.map Prod.fst) :
    GetReceipt (processAll NewReceiptProcessor calls) id = (Receipt.zero, false)
    ∧ ReceiptHandler.GetPoints rt (processAll NewReceiptProcessor calls) id
        = (⟨404, .text "No receipt found for that ID."⟩, [])
    ∧ (∀ rp : ProcessorState, (∀ e ∈ rp.receipts, e.1 ≠ id) →
        GetReceipt (processAll rp calls) id = (Receipt.zero, false)
        ∧ ReceiptHandler.GetPoints rt (processAll rp calls) id
            = (⟨404, .text "No receipt found for that ID."⟩, []))
    ∧ (∀ id2 : String, GetReceipt NewReceiptProcessor id2 = (Receipt.zero, false)
        ∧ ReceiptHandler.GetPoints rt NewReceiptProcessor id2
            = (⟨404, .text "No receipt found for that ID."⟩, [])) := by
  have key : ∀ rp : ProcessorState, (∀ e ∈ rp.receipts, e.1 ≠ id) →
      GetReceipt (processAll rp calls) id = (Receipt.zero, false) := by
    intro rp hrp
    apply mapIndex_of_not_key
    intro e he heq
    rcases processAll_keys calls rp e he with h1 | h1
    · exact hrp e h1 heq
    · rw [heq] at h1
      exact h h1
  have hnew : ∀ e ∈ NewReceiptProcessor.receipts, e.1 ≠ id :=
    fun e he => absurd he (List.not_mem_nil e)
  refine ⟨key _ hnew, GetPoints_of_not_found rt _ _ _ (key _ hnew), ?_, ?_⟩
  · intro rp hrp
    exact ⟨key rp hrp, GetPoints_of_not_found rt _ _ _ (key rp hrp)⟩
  · intro id2
    exact ⟨rfl, rfl⟩

/-- C19 at the test "Non-existent Receipt ID": after the receipt of the first test was
stored under another id, the id "non-existent-id" is answered with 404. -/
theorem unknown_id_not_found_witness :
    (ReceiptHandler.GetPoints Runtime.sample
      (processAll NewReceiptProcessor [("7fb1377b-b223-49d9-a31a-5a02701dd310", simpleReceipt)])
      "non-existent-id").1.status = 404 := by
  have h := (unknown_id_not_found Runtime.sample
    [("7fb1377b-b223-49d9-a31a-5a02701dd310", simpleReceipt)] "non-existent-id"
    (by decide)).2.1
  rw [h]

/-! ## float64 rounding -/

theorem bitLenAux_spec (fuel : Nat) : ∀ n : Nat, n < 2 ^ fuel →
    n < 2 ^ bitLenAux fuel n ∧ (0 < n → 2 ^ bitLenAux fuel n ≤ 2 * n) := by
  induction fuel with
  | zero =>
    intro n hn
    simp only [pow_zero, Nat.lt_one_iff] at hn
    subst hn
    simp [bitLenAux]
  | succ fuel ih =>
    intro n hn
    unfold bitLenAux
    by_cases h0 : n = 0
    · subst h0; simp
    · rw [if_neg h0]
      have hhalf : n / 2 < 2 ^ fuel := by
        rw [pow_succ] at hn
        omega
      obtain ⟨h1, h2⟩ := ih (n / 2) hhalf
      rw [pow_succ]
      refine ⟨by omega, fun _ => ?_⟩
      by_cases hz : n / 2 = 0
      · have hb : bitLenAux fuel (n / 2) = 0 := by
          rw [hz]
          cases fuel <;> simp [bitLenAux]
        rw [hb]
        omega
      · have := h2 (by omega)
        omega

theorem bitLen_lt (n : Nat) : n < 2 ^ bitLen n :=
  (bitLenAux_spec n n (Nat.lt_two_pow n)).1

theorem bitLen_le (n : Nat) (h : 0 < n) : 2 ^ bitLen n ≤ 2 * n :=
  (bitLenAux_spec n n (Nat.lt_two_pow n)).2 h

theorem bitLen_pos (n : Nat) (h : 0 < n) : 1 ≤ bitLen n := by
  by_contra hc
  have h0 : bitLen n = 0 := by omega
  have := bitLen_lt n
  rw [h0] at this
  omega

theorem bitLen_le_of_lt (n a : Nat) (h : n < 2 ^ a) : bitLen n ≤ a := by
  by_cases h0 : n = 0
  · subst h0
    have : bitLen 0 = 0 := rfl
    omega
  · have h1 := bitLen_le n (by omega)
    have h2 : 2 ^ bitLen n < 2 ^ (a + 1) := by rw [pow_succ]; omega
    have := (Nat.pow_lt_pow_iff_right (by norm_num : 1 < 2)).1 h2
    omega

theorem roundHalfEven_spec (P Q : Nat) (hQ : 0 < Q) :
    2 * (roundHalfEven P Q * Q) ≤ 2 * P + Q ∧ 2 * P ≤ 2 * (roundHalfEven P Q * Q) + Q := by
  have hdm := Nat.div_add_mod P Q
  have hlt := Nat.mod_lt P hQ
  have hs : (P / Q + 1) * Q = Q * (P / Q) + Q := by ring
  have hs0 : P / Q * Q = Q * (P / Q) := by ring
  unfold roundHalfEven
  split_ifs <;> simp only [hs, hs0] <;> omega

theorem roundHalfEven_unique (P Q t : Nat) (hQ : 0 < Q)
    (h1 : 2 * (t * Q) < 2 * P + Q) (h2 : 2 * P < 2 * (t * Q) + Q) :
    roundHalfEven P Q = t := by
  obtain ⟨a, b⟩ := roundHalfEven_spec P Q hQ
  rcases Nat.lt_trichotomy (roundHalfEven P Q) t with h | h | h
  · exfalso
    have : (roundHalfEven P Q + 1) * Q ≤ t * Q := Nat.mul_le_mul_right Q h
    rw [Nat.add_mul, Nat.one_mul] at this
    omega
  · exact h
  · exfalso
    have : (t + 1) * Q ≤ roundHalfEven P Q * Q := Nat.mul_le_mul_right Q h
    rw [Nat.add_mul, Nat.one_mul] at this
    omega

theorem roundHalfEven_exact (Q t : Nat) (hQ : 0 < Q) : roundHalfEven (t * Q) Q = t :=
  roundHalfEven_unique (t * Q) Q t hQ (by omega) (by omega)


/-- Scaling by one more binary place: the pair `(2^(-e), 2^e)` at `e + 1`. -/
theorem scale_succ (e : Int) :
    (2 ^ (-(e + 1)).toNat = 2 ^ (-e).toNat ∧ 2 ^ (e + 1).toNat = 2 * 2 ^ e.toNat ∧ 0 ≤ e)
    ∨ (2 * 2 ^ (-(e + 1)).toNat = 2 ^ (-e).toNat ∧ 2 ^ (e + 1).toNat = 2 ^ e.toNat ∧ e < 0) := by
  by_cases h : 0 ≤ e
  · left
    have h1 : (-(e + 1)).toNat = (-e).toNat := by omega
    have h2 : (e + 1).toNat = e.toNat + 1 := by omega
    rw [h1, h2, pow_succ]
    exact ⟨rfl, by ring, h⟩
  · right
    have h1 : (-e).toNat = (-(e + 1)).toNat + 1 := by omega
    have h2 : (e + 1).toNat = e.toNat := by omega
    rw [h1, h2, pow_succ]
    exact ⟨by ring, rfl, by omega⟩

theorem ulpExp_spec (p q : Nat) (hp : 0 < p) (hq : 0 < q) :
    -1074 ≤ ulpExp p q
    ∧ p * 2 ^ (-(ulpExp p q)).toNat < 2 ^ 53 * (q * 2 ^ (ulpExp p q).toNat)
    ∧ (-1074 < ulpExp p q →
        2 ^ 52 * (q * 2 ^ (ulpExp p q).toNat) ≤ p * 2 ^ (-(ulpExp p q)).toNat) := by
  have ha1 := bitLen_lt p
  have ha2 := bitLen_le p hp
  have hb1 := bitLen_lt q
  have hb2 := bitLen_le q hq
  have ha0 := bitLen_pos p hp
  have hb0 := bitLen_pos q hq
  generalize hA : bitLen p = a at *
  generalize hB : bitLen q = b at *
  -- the exponent before the adjustment
  obtain ⟨e0, he0⟩ : ∃ e0 : Int, e0 = (a : Int) - (b : Int) - 53 := ⟨_, rfl⟩
  -- the adjusted exponent
  have key : ∀ e1 : Int,
      (e1 = if 2 ^ 53 * (q * 2 ^ e0.toNat) ≤ p * 2 ^ (-e0).toNat then e0 + 1 else e0) →
      p * 2 ^ (-e1).toNat < 2 ^ 53 * (q * 2 ^ e1.toNat)
      ∧ 2 ^ 52 * (q * 2 ^ e1.toNat) ≤ p * 2 ^ (-e1).toNat := by
    intro e1 he1
    by_cases hc : 2 ^ 53 * (q * 2 ^ e0.toNat) ≤ p * 2 ^ (-e0).toNat
    · rw [if_pos hc] at he1
      subst he1
      constructor
      · -- p < 2^a and 2^b ≤ 2 q
        have hexp : a + (-(e0 + 1)).toNat + 1 = 53 + b + (e0 + 1).toNat := by omega
        have h1 : p * 2 ^ (-(e0 + 1)).toNat < 2 ^ a * 2 ^ (-(e0 + 1)).toNat :=
          Nat.mul_lt_mul_of_pos_right ha1 (by positivity)
        have h2 : 2 * (2 ^ a * 2 ^ (-(e0 + 1)).toNat) = 2 ^ 53 * (2 ^ b * 2 ^ (e0 + 1).toNat) := by
          rw [← pow_add, ← pow_add, ← pow_add, ← pow_succ']
          congr 1
          omega
        have h3 : 2 ^ 53 * (2 ^ b * 2 ^ (e0 + 1).toNat)
            ≤ 2 ^ 53 * (2 * q * 2 ^ (e0 + 1).toNat) :=
          Nat.mul_le_mul_left _ (Nat.mul_le_mul_right _ hb2)
        have h4 : 2 ^ 53 * (2 * q * 2 ^ (e0 + 1).toNat)
            = 2 * (2 ^ 53 * (q * 2 ^ (e0 + 1).toNat)) := by ring
        omega
      · rcases scale_succ e0 with ⟨s1, s2, _⟩ | ⟨s1, s2, _⟩
        · rw [s1, s2]
          have : 2 ^ 52 * (q * (2 * 2 ^ e0.toNat)) = 2 ^ 53 * (q * 2 ^ e0.toNat) := by ring
          omega
        · rw [s2]
          rw [← s1] at hc
          have : p * (2 * 2 ^ (-(e0 + 1)).toNat) = 2 * (p * 2 ^ (-(e0 + 1)).toNat) := by ring
          have h5 : 2 ^ 53 * (q * 2 ^ e0.toNat) = 2 * (2 ^ 52 * (q * 2 ^ e0.toNat)) := by ring
          omega
    · rw [if_neg hc] at he1
      rw [he1]
      refine ⟨by omega, ?_⟩
      have hexp : 52 + b + e0.toNat + 1 = a + (-e0).toNat := by omega
      have h1 : 2 ^ 52 * (q * 2 ^ e0.toNat) ≤ 2 ^ 52 * (2 ^ b * 2 ^ e0.toNat) :=
        Nat.mul_le_mul_left _ (Nat.mul_le_mul_right _ (Nat.le_of_lt hb1))
      have h2 : 2 * (2 ^ 52 * (2 ^ b * 2 ^ e0.toNat)) = 2 ^ a * 2 ^ (-e0).toNat := by
        rw [← pow_add, ← pow_add, ← pow_add, ← pow_succ']
        congr 1
        omega
      have h3 : 2 ^ a * 2 ^ (-e0).toNat ≤ 2 * p * 2 ^ (-e0).toNat :=
        Nat.mul_le_mul_right _ ha2
      have h4 : 2 * p * 2 ^ (-e0).toNat = 2 * (p * 2 ^ (-e0).toNat) := by ring
      omega
  have hu : ulpExp p q =
      max (if 2 ^ 53 * (q * 2 ^ e0.toNat) ≤ p * 2 ^ (-e0).toNat then e0 + 1 else e0) (-1074) := by
    unfold ulpExp
    rw [hA, hB, he0]
  obtain ⟨k1, k2⟩ := key _ rfl
  generalize hE : (if 2 ^ 53 * (q * 2 ^ e0.toNat) ≤ p * 2 ^ (-e0).toNat then e0 + 1 else e0)
    = e1 at *
  rw [hu]
  by_cases hcl : -1074 ≤ e1
  · rw [max_eq_left hcl]
    exact ⟨hcl, k1, fun _ => k2⟩
  · have hm : max e1 (-1074) = -1074 := max_eq_right (by omega)
    rw [hm]
    refine ⟨le_refl _, ?_, fun h => absurd h (lt_irrefl _)⟩
    have hz : e1.toNat = 0 := by omega
    rw [hz] at k1
    have h1074 : (-(-1074 : Int)).toNat = 1074 := by decide
    have hz2 : (-1074 : Int).toNat = 0 := by decide
    rw [h1074, hz2]
    have hle : p * 2 ^ 1074 ≤ p * 2 ^ (-e1).toNat :=
      Nat.mul_le_mul_left _ (Nat.pow_le_pow_right (by norm_num) (by omega))
    omega


theorem roundHalfEven_le (P Q B : Nat) (hQ : 0 < Q) (h : P < B * Q) :
    roundHalfEven P Q ≤ B := by
  obtain ⟨a, _⟩ := roundHalfEven_spec P Q hQ
  by_contra hc
  have h1 : (B + 1) * Q ≤ roundHalfEven P Q * Q := Nat.mul_le_mul_right Q (by omega)
  rw [Nat.add_mul, Nat.one_mul] at h1
  omega

theorem round_spec (neg : Bool) (p q : Nat) (hp : 0 < p) (hq : 0 < q)
    (hfin : ulpExp p q ≤ 970) :
    F64.round neg p q
      = .finite neg (roundHalfEven (p * 2 ^ (-(ulpExp p q)).toNat) (q * 2 ^ (ulpExp p q).toNat))
          (ulpExp p q) := by
  obtain ⟨_, hU, _⟩ := ulpExp_spec p q hp hq
  have hQ : 0 < q * 2 ^ (ulpExp p q).toNat := Nat.mul_pos hq (by positivity)
  have hm := roundHalfEven_le _ _ (2 ^ 53) hQ hU
  have hb := bitLen_le_of_lt _ 54 (show roundHalfEven (p * 2 ^ (-(ulpExp p q)).toNat)
    (q * 2 ^ (ulpExp p q).toNat) < 2 ^ 54 by omega)
  unfold F64.round
  rw [if_neg (by omega)]
  simp only []
  rw [if_neg (by omega)]

theorem takeWhile_digits_append (ip rest : List Char) (c : Char)
    (h : ∀ x ∈ ip, isDigit x = true) (hc : isDigit c = false) :
    (ip ++ c :: rest).takeWhile isDigit = ip
    ∧ (ip ++ c :: rest).dropWhile isDigit = c :: rest := by
  induction ip with
  | nil => simp [List.takeWhile, List.dropWhile, hc]
  | cons a tl ih =>
    have ha := h a (List.mem_cons_self _ _)
    have := ih (fun x hx => h x (List.mem_cons_of_mem _ hx))
    simp [List.takeWhile, List.dropWhile, ha, this]

theorem readSign_digit (c : Char) (cs : List Char) (h : isDigit c = true) :
    readSign (c :: cs) = (false, c :: cs) := by
  have h1 : c ≠ '+' := by
    intro e; rw [e] at h; exact absurd h (by decide)
  have h2 : c ≠ '-' := by
    intro e; rw [e] at h; exact absurd h (by decide)
  simp [readSign, h1, h2]

theorem filter_digits_amount (ip : List Char) (d1 d2 : Char)
    (h : ∀ x ∈ ip, isDigit x = true) (h1 : isDigit d1 = true) (h2 : isDigit d2 = true) :
    (ip ++ ['.', d1, d2]).filter isDigit = ip ++ [d1, d2] := by
  have hdot : isDigit '.' = false := by decide
  rw [List.filter_append, List.filter_eq_self.2 h]
  simp [List.filter, hdot, h1, h2]

theorem ParseFloat_of_amount (rt : Runtime) (s : String) (h : isTwoDecimalText s) :
    ParseFloat rt s =
      match F64.round false (centsOf s) 100 with
      | .inf sgn => (.inf sgn, some .ErrRange)
      | x => (x, none) := by
  obtain ⟨ip, d1, d2, hs, hne, hall, a1, a2⟩ := h
  have hdot : isDigit '.' = false := by decide
  obtain ⟨t1, t2⟩ := takeWhile_digits_append ip [d1, d2] '.' hall hdot
  have hc : centsOf s = digitsVal (ip ++ [d1, d2]) := by
    unfold centsOf
    rw [hs, filter_digits_amount ip d1 d2 hall a1 a2]
  have hpd : plainDecimal s.data = some (false, ip, [d1, d2]) := by
    rw [hs]
    cases ip with
    | nil => exact absurd rfl hne
    | cons a tl =>
      unfold plainDecimal
      rw [List.cons_append, readSign_digit a _ (hall a (List.mem_cons_self _ _))]
      simp only []
      rw [← List.cons_append, t1, t2]
      simp [a1, a2]
  unfold ParseFloat
  rw [hpd, hc]
  rfl


/-- Rounding a quotient below `2^52` and not below `2^(-j)`, `j ≤ 1021`: the result is
`m * 2^(-k)` with `m` the nearest integer to `p * 2^k / q`, where `k ≥ 1` is the exponent
that puts `p * 2^k / q` in `[2^52, 2^53)`. -/
theorem round_neg (neg : Bool) (p q j : Nat) (hp : 0 < p) (hq : 0 < q)
    (hlt : p < 2 ^ 52 * q) (hj : j ≤ 1021) (hge : q ≤ p * 2 ^ j) :
    ∃ k : Nat, 1 ≤ k ∧ k < 1074
      ∧ F64.round neg p q = .finite neg (roundHalfEven (p * 2 ^ k) q) (-(k : Int))
      ∧ 2 ^ 52 * q ≤ p * 2 ^ k ∧ p * 2 ^ k < 2 ^ 53 * q := by
  obtain ⟨h0, hU, hL⟩ := ulpExp_spec p q hp hq
  have hr := round_spec neg p q hp hq
  generalize ulpExp p q = e at *
  have hneg : e < 0 := by
    by_contra hc
    have hz : (-e).toNat = 0 := by omega
    have hL2 := hL (by omega)
    rw [hz, pow_zero, Nat.mul_one] at hL2
    have : q * 1 ≤ q * 2 ^ e.toNat := Nat.mul_le_mul_left _ (Nat.one_le_two_pow)
    have := Nat.mul_le_mul_left (2 ^ 52) this
    omega
  have hbig : -1074 < e := by
    by_contra hc
    have he : e = -1074 := by omega
    subst he
    have h1 : (-(-1074 : Int)).toNat = j + (1074 - j) := by omega
    have h2 : (-1074 : Int).toNat = 0 := by decide
    rw [h1, h2, pow_zero, Nat.mul_one, pow_add, ← Nat.mul_assoc] at hU
    have h3 : q * 2 ^ 53 ≤ p * 2 ^ j * 2 ^ (1074 - j) :=
      Nat.mul_le_mul hge (Nat.pow_le_pow_right (by norm_num) (by omega))
    omega
  refine ⟨(-e).toNat, by omega, by omega, ?_, ?_, ?_⟩
  · have hz : e.toNat = 0 := by omega
    have he : ((-e).toNat : Int) = -e := by omega
    rw [hr (by omega), hz, pow_zero, Nat.mul_one, he, neg_neg]
  · have hz : e.toNat = 0 := by omega
    have := hL hbig
    rw [hz, pow_zero, Nat.mul_one] at this
    exact this
  · have hz : e.toNat = 0 := by omega
    rw [hz, pow_zero, Nat.mul_one] at hU
    exact hU

theorem Mod_neg_exp (s t : Bool) (m n k : Nat) (hn : 0 < n) :
    Mod (.finite s m (-(k : Int))) (.finite t n 0) = .finite s (m % (n * 2 ^ k)) (-(k : Int)) := by
  have hn0 : n ≠ 0 := by omega
  have hg : min (-(k : Int)) 0 = -(k : Int) := min_eq_left (by omega)
  simp only [Mod, hn0, if_false, hg]
  have h1 : (-(k : Int) - -(k : Int)).toNat = 0 := by omega
  have h2 : ((0 : Int) - -(k : Int)).toNat = k := by omega
  rw [h1, h2, pow_zero, Nat.mul_one]

theorem mul_neg_exp (m n k l : Nat) :
    (F64.finite false m (-(k : Int))).mul (.finite false n (-(l : Int)))
      = F64.round false (m * n) (2 ^ (k + l)) := by
  have h1 : (-(k : Int) + -(l : Int)).toNat = 0 := by omega
  have h2 : (-(-(k : Int) + -(l : Int))).toNat = k + l := by omega
  simp only [F64.mul, h1, h2, pow_zero, Nat.mul_one, Bool.xor_false]

theorem mul_hundred (m k : Nat) :
    (F64.finite false m (-(k : Int))).mul F64.hundred = F64.round false (m * 100) (2 ^ k) := by
  have := mul_neg_exp m 100 k 0
  simpa using this

theorem mul_pointTwo (m k : Nat) :
    (F64.finite false m (-(k : Int))).mul F64.pointTwo
      = F64.round false (m * 3602879701896397) (2 ^ (k + 54)) :=
  mul_neg_exp m 3602879701896397 k 54

theorem toInt64_Ceil_neg_exp (rt : Runtime) (m k : Nat)
    (h : (m + 2 ^ k - 1) / 2 ^ k < 2 ^ 63) :
    F64.toInt64 rt (Ceil (.finite false m (-(k : Int)))) = (((m + 2 ^ k - 1) / 2 ^ k : Nat) : Int) := by
  unfold Ceil
  have h1 : (-(k : Int)).toNat = 0 := by omega
  have h2 : (-(-(k : Int))).toNat = k := by omega
  simp only [h1, h2, pow_zero, Nat.mul_one]
  unfold F64.toInt64
  have h3 : (0 : Int).toNat = 0 := rfl
  have h4 : (-(0 : Int)).toNat = 0 := rfl
  simp only [h3, h4, pow_zero, Nat.mul_one, Nat.div_one, Bool.false_eq_true, if_false]
  rw [if_pos]
  constructor
  · have : (0 : Int) ≤ (((m + 2 ^ k - 1) / 2 ^ k : Nat) : Int) := Int.natCast_nonneg _
    omega
  · exact_mod_cast h

theorem two_pow_le_of_le (k n : Nat) (h : k ≤ n) : 2 ^ k ≤ 2 ^ n :=
  Nat.pow_le_pow_right (by norm_num) h

/-- The float64 nearest to `c / 100` for `1 ≤ c < 10^15`: it is `m * 2^(-k)` with `k ≥ 9`
and `|100 * m - c * 2^k| ≤ 50`. -/
theorem round_cents (c : Nat) (h1 : 1 ≤ c) (h2 : c < 10 ^ 15) :
    ∃ k m : Nat, F64.round false c 100 = .finite false m (-(k : Int))
      ∧ 9 ≤ k ∧ k < 1074 ∧ 2 ^ 52 ≤ m
      ∧ 2 ^ 52 * 100 ≤ c * 2 ^ k ∧ c * 2 ^ k < 2 ^ 53 * 100
      ∧ 100 * m ≤ c * 2 ^ k + 50 ∧ c * 2 ^ k ≤ 100 * m + 50
      ∧ (∀ t, c = 100 * t → m = t * 2 ^ k) := by
  obtain ⟨k, hk1, hk2, hr, hL, hU⟩ := round_neg false c 100 7 (by omega) (by norm_num)
    (by norm_num at h2 ⊢; omega) (by norm_num) (by norm_num; omega)
  obtain ⟨s1, s2⟩ := roundHalfEven_spec (c * 2 ^ k) 100 (by norm_num)
  refine ⟨k, roundHalfEven (c * 2 ^ k) 100, hr, ?_, hk2, ?_, hL, hU, by omega, by omega, ?_⟩
  · by_contra hc
    have : 2 ^ k ≤ 2 ^ 8 := two_pow_le_of_le k 8 (by omega)
    have := Nat.mul_le_mul_left c this
    norm_num at h2 hL this
    omega
  · norm_num at hL ⊢
    omega
  · intro t ht
    have : c * 2 ^ k = (t * 2 ^ k) * 100 := by rw [ht]; ring
    rw [this]
    exact roundHalfEven_exact 100 _ (by norm_num)

theorem ParseFloat_zero_cents (rt : Runtime) (s : String) (h : isTwoDecimalText s)
    (hc : centsOf s = 0) : ParseFloat rt s = (.finite false 0 0, none) := by
  rw [ParseFloat_of_amount rt s h, hc]
  rfl

theorem ParseFloat_cents (rt : Runtime) (s : String) (h : isTwoDecimalText s)
    (k m : Nat) (hr : F64.round false (centsOf s) 100 = .finite false m (-(k : Int))) :
    ParseFloat rt s = (.finite false m (-(k : Int)), none) := by
  rw [ParseFloat_of_amount rt s h, hr]

/-- Rule 2 on an amount below ten to the thirteenth: 50 exactly when the cents are a
multiple of 100. -/
theorem roundDollarPoints_eq (rt : Runtime) (s : String) (h : isTwoDecimalText s)
    (hc : centsOf s < 10 ^ 15) :
    roundDollarPoints rt s = if centsOf s % 100 = 0 then 50 else 0 := by
  by_cases h0 : centsOf s = 0
  · unfold roundDollarPoints
    rw [ParseFloat_zero_cents rt s h h0, h0]
    rfl
  · obtain ⟨k, m, hr, hk, _, _, hL, hU, a1, a2, hex⟩ := round_cents (centsOf s) (by omega) hc
    unfold roundDollarPoints
    rw [ParseFloat_cents rt s h k m hr]
    have hM : Mod (.finite false m (-(k : Int))) F64.one
        = .finite false (m % (1 * 2 ^ k)) (-(k : Int)) :=
      Mod_neg_exp false false m 1 k (by norm_num)
    simp only [hM, F64.eqZero, Nat.one_mul, decide_eq_true_eq]
    have hK : 2 ^ 9 ≤ 2 ^ k := two_pow_le_of_le 9 k hk
    generalize centsOf s = c at *
    by_cases hd : c % 100 = 0
    · rw [if_pos hd]
      have hm := hex (c / 100) (by omega)
      rw [hm, Nat.mul_mod_left, if_pos rfl]
    · rw [if_neg hd]
      have hne : m % 2 ^ k ≠ 0 := by
        intro hz
        obtain ⟨t, ht⟩ := Nat.dvd_of_mod_eq_zero hz
        rw [ht] at a1 a2
        rcases Nat.lt_trichotomy (100 * t) c with hlt | heq | hgt
        · have := Nat.mul_le_mul_right (2 ^ k) (show 100 * t + 1 ≤ c by omega)
          have e : (100 * t + 1) * 2 ^ k = 100 * (2 ^ k * t) + 2 ^ k := by ring
          norm_num at hK
          omega
        · omega
        · have := Nat.mul_le_mul_right (2 ^ k) (show c + 1 ≤ 100 * t by omega)
          have e : 100 * t * 2 ^ k = 100 * (2 ^ k * t) := by ring
          have e2 : (c + 1) * 2 ^ k = c * 2 ^ k + 2 ^ k := by ring
          norm_num at hK
          omega
      rw [if_neg hne]

theorem quarter_core (c m t K K2 : Nat) (hK : 512 ≤ K) (hK2 : 8 ≤ K2)
    (a1 : 100 * m ≤ c * K + 50) (a2 : c * K ≤ 100 * m + 50)
    (s1 : 2 * (t * (25 * K2) * K) ≤ 2 * (m * 100 * K2) + K)
    (s2 : 2 * (m * 100 * K2) ≤ 2 * (t * (25 * K2) * K) + K) : c = 25 * t := by
  obtain ⟨W, hW⟩ : ∃ W, W = K * K2 := ⟨_, rfl⟩
  obtain ⟨V, hV⟩ : ∃ V, V = m * K2 := ⟨_, rfl⟩
  obtain ⟨T, hT⟩ : ∃ T, T = t * W := ⟨_, rfl⟩
  obtain ⟨C, hC⟩ : ∃ C, C = c * W := ⟨_, rfl⟩
  have e1 : t * (25 * K2) * K = 25 * T := by rw [hT, hW]; ring
  have e2 : m * 100 * K2 = 100 * V := by rw [hV]; ring
  rw [e1, e2] at s1 s2
  have b1 : 100 * V ≤ C + 50 * K2 := by
    have := Nat.mul_le_mul_right K2 a1
    have e : 100 * m * K2 = 100 * V := by rw [hV]; ring
    have e' : (c * K + 50) * K2 = C + 50 * K2 := by rw [hC, hW]; ring
    omega
  have b2 : C ≤ 100 * V + 50 * K2 := by
    have := Nat.mul_le_mul_right K2 a2
    have e : (100 * m + 50) * K2 = 100 * V + 50 * K2 := by rw [hV]; ring
    have e' : c * K * K2 = C := by rw [hC, hW]; ring
    omega
  have w1 : 8 * K ≤ W := by
    rw [hW]; have := Nat.mul_le_mul_left K hK2; omega
  have w2 : 512 * K2 ≤ W := by
    rw [hW]; exact Nat.mul_le_mul_right K2 hK
  rcases Nat.lt_trichotomy c (25 * t) with h | h | h
  · exfalso
    have := Nat.mul_le_mul_right W (show c + 1 ≤ 25 * t by omega)
    have e : (c + 1) * W = C + W := by rw [hC]; ring
    have e' : 25 * t * W = 25 * T := by rw [hT]; ring
    omega
  · exact h
  · exfalso
    have := Nat.mul_le_mul_right W (show 25 * t + 1 ≤ c by omega)
    have e : (25 * t + 1) * W = 25 * T + W := by rw [hT]; ring
    have e' : c * W = C := by rw [hC]
    omega

/-- Core of rule 5, `A = 3602879701896397`, `B = 2^54`, `5 * A = B + 1`. -/
theorem ceil_core (c m m3 K K3 : Nat) (hc : c < 10 ^ 15) (hK : 512 ≤ K) (hK3 : 512 ≤ K3)
    (a1 : 100 * m ≤ c * K + 50) (a2 : c * K ≤ 100 * m + 50)
    (s1 : 2 * (m3 * (K * 2 ^ 54)) ≤ 2 * (m * 3602879701896397 * K3) + K * 2 ^ 54)
    (s2 : 2 * (m * 3602879701896397 * K3) ≤ 2 * (m3 * (K * 2 ^ 54)) + K * 2 ^ 54)
    (hU : m * 3602879701896397 * K3 < 2 ^ 53 * (K * 2 ^ 54)) :
    (m3 + K3 - 1) / K3 = (c + 499) / 500 := by
  obtain ⟨j, hj⟩ : ∃ j, j = c / 500 := ⟨_, rfl⟩
  obtain ⟨r, hr⟩ : ∃ r, r = c % 500 := ⟨_, rfl⟩
  have hcj : c = 500 * j + r := by omega
  have hr5 : r < 500 := by omega
  obtain ⟨W, hW⟩ : ∃ W, W = K * K3 := ⟨_, rfl⟩
  obtain ⟨V, hV⟩ : ∃ V, V = m * K3 := ⟨_, rfl⟩
  obtain ⟨Y, hY⟩ : ∃ Y, Y = m3 * K := ⟨_, rfl⟩
  obtain ⟨J, hJ⟩ : ∃ J, J = j * W := ⟨_, rfl⟩
  obtain ⟨R, hR⟩ : ∃ R, R = r * W := ⟨_, rfl⟩
  have e1 : m3 * (K * 2 ^ 54) = 2 ^ 54 * Y := by rw [hY]; ring
  have e2 : m * 3602879701896397 * K3 = 3602879701896397 * V := by rw [hV]; ring
  rw [e1, e2] at s1 s2
  rw [e2] at hU
  have eC : c * K * K3 = 500 * J + R := by rw [hcj, hJ, hR, hW]; ring
  have b1 : 100 * V ≤ 500 * J + R + 50 * K3 := by
    have := Nat.mul_le_mul_right K3 a1
    have e : 100 * m * K3 = 100 * V := by rw [hV]; ring
    have e' : (c * K + 50) * K3 = c * K * K3 + 50 * K3 := by ring
    omega
  have b2 : 500 * J + R ≤ 100 * V + 50 * K3 := by
    have := Nat.mul_le_mul_right K3 a2
    have e : (100 * m + 50) * K3 = 100 * V + 50 * K3 := by rw [hV]; ring
    omega
  have w1 : 512 * K ≤ W := by
    rw [hW]; have := Nat.mul_le_mul_left K hK3; omega
  have w2 : 512 * K3 ≤ W := by
    rw [hW]; exact Nat.mul_le_mul_right K3 hK
  have hjb : J ≤ 2 * 10 ^ 12 * W := by
    rw [hJ]; exact Nat.mul_le_mul_right W (by omega)
  have hK3pos : 0 < K3 := by omega
  have hKpos : 0 < K := by omega
  have eJ : j * K3 * K = J := by rw [hJ, hW]; ring
  have eW : K3 * K = W := by rw [hW]; ring
  by_cases hr0 : r = 0
  · -- exact multiple of 500
    have hR0 : R = 0 := by rw [hR, hr0]; ring
    have hm : m = 5 * (j * K) := by
      have e : c * K = 500 * (j * K) := by rw [hcj, hr0]; ring
      omega
    have hV5 : V = 5 * J := by rw [hV, hm, hJ, hW]; ring
    have hm3 : m3 = j * K3 := by
      rcases Nat.lt_trichotomy m3 (j * K3) with h | h | h
      · exfalso
        have := Nat.mul_le_mul_right K (show m3 + 1 ≤ j * K3 by omega)
        have e : (m3 + 1) * K = Y + K := by rw [hY]; ring
        omega
      · exact h
      · exfalso
        have := Nat.mul_le_mul_right K (show j * K3 + 1 ≤ m3 by omega)
        have e : (j * K3 + 1) * K = J + K := by rw [← eJ]; ring
        have e' : m3 * K = Y := by rw [hY]
        omega
    rw [hm3]
    have : (j * K3 + K3 - 1) / K3 = j := by
      have e : j * K3 + K3 - 1 = (K3 - 1) + K3 * j := by
        have := Nat.mul_comm j K3
        omega
      rw [e, Nat.add_mul_div_left _ _ hK3pos, Nat.div_eq_of_lt (by omega)]
      omega
    rw [this]
    omega
  · have hRl : W ≤ R := by
      rw [hR]; have := Nat.mul_le_mul_right W (show 1 ≤ r by omega); omega
    have hRu : R ≤ 499 * W := by
      rw [hR]; exact Nat.mul_le_mul_right W (by omega)
    have lo : j * K3 < m3 := by
      by_contra hcon
      have := Nat.mul_le_mul_right K (show m3 ≤ j * K3 by omega)
      have e' : m3 * K = Y := by rw [hY]
      omega
    have hi : m3 ≤ (j + 1) * K3 := by
      by_contra hcon
      have := Nat.mul_le_mul_right K (show (j + 1) * K3 + 1 ≤ m3 by omega)
      have e : ((j + 1) * K3 + 1) * K = J + W + K := by rw [← eJ, ← eW]; ring
      have e' : m3 * K = Y := by rw [hY]
      omega
    have : (m3 + K3 - 1) / K3 = j + 1 := by
      apply Nat.div_eq_of_lt_le
      · have e : (j + 1) * K3 = j * K3 + K3 := by ring
        omega
      · have e : (j + 1 + 1) * K3 = (j + 1) * K3 + K3 := by ring
        omega
    rw [this]
    omega

theorem round_cents_exp_le (c k : Nat) (h1 : 1 ≤ c) (hU : c * 2 ^ k < 2 ^ 53 * 100) :
    k ≤ 59 := by
  by_contra hc
  have h60 : 2 ^ 60 ≤ 2 ^ k := two_pow_le_of_le 60 k (by omega)
  have := Nat.mul_le_mul h1 h60
  omega

/-- Rule 3 on an amount below ten to the thirteenth: 25 exactly when the cents are a
multiple of 25. -/
theorem quarterPoints_eq (rt : Runtime) (s : String) (h : isTwoDecimalText s)
    (hc : centsOf s < 10 ^ 15) :
    quarterPoints rt s = if centsOf s % 25 = 0 then 25 else 0 := by
  by_cases h0 : centsOf s = 0
  · unfold quarterPoints
    rw [ParseFloat_zero_cents rt s h h0, h0]
    rfl
  · obtain ⟨k, m, hr, hk, _, hm52, hL, hU, a1, a2, hex⟩ := round_cents (centsOf s) (by omega) hc
    unfold quarterPoints
    rw [ParseFloat_cents rt s h k m hr]
    generalize centsOf s = c at *
    have hk59 := round_cents_exp_le c k (by omega) hU
    have hK : 2 ^ 9 ≤ 2 ^ k := two_pow_le_of_le 9 k hk
    have hK59 : 2 ^ k ≤ 2 ^ 59 := two_pow_le_of_le k 59 hk59
    have hcK : c * 2 ^ k ≤ (10 ^ 15 - 1) * 2 ^ k := Nat.mul_le_mul_right _ (by omega)
    obtain ⟨k2, _, _, hr2, hL2, hU2⟩ := round_neg false (m * 100) (2 ^ k) 7 (by omega)
      (by positivity) (by omega) (by norm_num) (by omega)
    obtain ⟨s1, s2⟩ := roundHalfEven_spec (m * 100 * 2 ^ k2) (2 ^ k) (by positivity)
    have hy : (F64.finite false m (-(k : Int))).mul F64.hundred
        = .finite false (roundHalfEven (m * 100 * 2 ^ k2) (2 ^ k)) (-(k2 : Int)) := by
      rw [mul_hundred, hr2]
    have hM := Mod_neg_exp false false (roundHalfEven (m * 100 * 2 ^ k2) (2 ^ k)) 25 k2
      (by norm_num)
    simp only [hy, F64.twentyFive, hM, F64.eqZero, decide_eq_true_eq]
    have hk2 : 3 ≤ k2 := by
      by_contra hcon
      have h4 : 2 ^ k2 ≤ 2 ^ 2 := two_pow_le_of_le k2 2 (by omega)
      have := Nat.mul_le_mul_left (m * 100) h4
      omega
    have hK2 : 2 ^ 3 ≤ 2 ^ k2 := two_pow_le_of_le 3 k2 hk2
    by_cases hd : c % 25 = 0
    · rw [if_pos hd]
      have hK4 : 2 ^ k = 4 * 2 ^ (k - 2) := by
        have : k = (k - 2) + 2 := by omega
        conv_lhs => rw [this, pow_add]
        ring
      have hm : m = c / 25 * 2 ^ (k - 2) := by
        have e : c * 2 ^ k = 100 * (c / 25 * 2 ^ (k - 2)) := by
          rw [hK4]
          have : c = 25 * (c / 25) := by omega
          conv_lhs => rw [this]
          ring
        omega
      have hP : m * 100 * 2 ^ k2 = (c / 25 * (25 * 2 ^ k2)) * 2 ^ k := by
        rw [hm, hK4]; ring
      rw [hP, roundHalfEven_exact (2 ^ k) _ (by positivity), Nat.mul_mod_left, if_pos rfl]
    · rw [if_neg hd]
      have hne : roundHalfEven (m * 100 * 2 ^ k2) (2 ^ k) % (25 * 2 ^ k2) ≠ 0 := by
        intro hz
        obtain ⟨t, ht⟩ := Nat.dvd_of_mod_eq_zero hz
        have ht2 : roundHalfEven (m * 100 * 2 ^ k2) (2 ^ k) = t * (25 * 2 ^ k2) := by
          rw [ht]; ring
        rw [ht2] at s1 s2
        have := quarter_core c m t (2 ^ k) (2 ^ k2) (by omega) (by omega) a1 a2 s1 s2
        omega
      rw [if_neg hne]

/-- Rule 5 on a price below ten to the thirteenth: the bonus is the cents divided by 500,
rounded up. -/
theorem priceBonus_eq (rt : Runtime) (s : String) (h : isTwoDecimalText s)
    (hc : centsOf s < 10 ^ 15) :
    priceBonus rt s = (((centsOf s + 499) / 500 : Nat) : Int) := by
  by_cases h0 : centsOf s = 0
  · unfold priceBonus
    rw [ParseFloat_zero_cents rt s h h0, h0]
    rfl
  · obtain ⟨k, m, hr, hk, _, hm52, hL, hU, a1, a2, hex⟩ := round_cents (centsOf s) (by omega) hc
    unfold priceBonus
    rw [ParseFloat_cents rt s h k m hr]
    generalize centsOf s = c at *
    have hk59 := round_cents_exp_le c k (by omega) hU
    have hK : 2 ^ 9 ≤ 2 ^ k := two_pow_le_of_le 9 k hk
    have hK59 : 2 ^ k ≤ 2 ^ 59 := two_pow_le_of_le k 59 hk59
    have hcK : c * 2 ^ k ≤ (10 ^ 15 - 1) * 2 ^ k := Nat.mul_le_mul_right _ (by omega)
    have hQ : 2 ^ (k + 54) = 2 ^ k * 2 ^ 54 := pow_add 2 k 54
    obtain ⟨k3, _, _, hr3, hL3, hU3⟩ := round_neg false (m * 3602879701896397) (2 ^ (k + 54)) 10
      (by omega) (by positivity) (by rw [hQ]; omega) (by norm_num) (by rw [hQ]; omega)
    obtain ⟨s1, s2⟩ := roundHalfEven_spec (m * 3602879701896397 * 2 ^ k3) (2 ^ (k + 54))
      (by positivity)
    generalize roundHalfEven (m * 3602879701896397 * 2 ^ k3) (2 ^ (k + 54)) = m3 at s1 s2 hr3
    rw [hQ] at s1 s2 hL3 hU3
    have hK3 : 512 ≤ 2 ^ k3 := by
      have : 9 ≤ k3 := by
        by_contra hcon
        have h8 : 2 ^ k3 ≤ 2 ^ 8 := two_pow_le_of_le k3 8 (by omega)
        have := Nat.mul_le_mul_left (m * 3602879701896397) h8
        omega
      have := two_pow_le_of_le 9 k3 this
      omega
    have hcore := ceil_core c m m3 (2 ^ k) (2 ^ k3) hc (by omega) hK3 a1 a2 s1 s2 hU3
    rw [mul_pointTwo, hr3, toInt64_Ceil_neg_exp rt _ k3 (by rw [hcore]; omega), hcore]


/-! ## Rules 2 and 3 -/

theorem digitsVal_foldl (cs : List Char) (a : Nat) :
    cs.foldl (fun a c => 10 * a + digitVal c) a = a * 10 ^ cs.length + digitsVal cs := by
  induction cs generalizing a with
  | nil => simp [digitsVal]
  | cons c tl ih =>
    unfold digitsVal
    rw [List.foldl_cons, List.foldl_cons, ih, ih (10 * 0 + digitVal c), List.length_cons,
      pow_succ]
    ring

theorem centsOf_eq (s : String) (ip : List Char) (d1 d2 : Char)
    (hs : s.data = ip ++ ['.', d1, d2]) (hall : ∀ c ∈ ip, isDigit c = true)
    (h1 : isDigit d1 = true) (h2 : isDigit d2 = true) :
    centsOf s = 100 * digitsVal ip + (10 * digitVal d1 + digitVal d2) := by
  unfold centsOf
  rw [hs, filter_digits_amount ip d1 d2 hall h1 h2]
  unfold digitsVal
  rw [List.foldl_append, digitsVal_foldl [d1, d2]]
  simp only [digitsVal, List.foldl_cons, List.foldl_nil, List.length_cons, List.length_nil]
  ring

theorem sub64_total (x y a d e f g : Int) :
    sub64 (wrap64 (a + x + d + e + f + g)) (wrap64 (a + y + d + e + f + g))
      = wrap64 (x - y) := by
  unfold sub64 wrap64; omega

theorem scoreSum_total (rt : Runtime) (r : Receipt) :
    scoreSum rt r = (alnumCount r.Retailer : Int) + totalPoints rt r.Total
      + ((5 * (r.Items.length / 2) : Nat) : Int) + rule5Points rt r.Items
      + oddDayPoints r.PurchaseDate + afternoonPoints r.PurchaseTime := by
  unfold scoreSum totalPoints
  omega

set_option maxRecDepth 20000 in
/-- The receipts of the rule 2 and rule 3 tests evaluate to the expected scores on every
runtime. -/
theorem rule23_test (rt : Runtime) :
    CalculatePoints rt (rule2Receipt "5.01") = 1
      ∧ CalculatePoints rt (rule2Receipt "5.00") = 76
      ∧ CalculatePoints rt (rule2Receipt "5.25") = 26
      ∧ CalculatePoints rt (rule3Receipt "5.23") = 1
      ∧ CalculatePoints rt (rule3Receipt "5.25") = 26 := by
  refine ⟨?_, ?_, ?_, ?_, ?_⟩ <;> rfl

set_option maxRecDepth 20000 in
/-- C3. At the total "562949953421313.00" the code leaves rule 3 out: the validator accepts
the receipt of the rule 2 test with this amount, the two fraction digits are "00" and the cents are a multiple
of 100, yet on every runtime rule 2 awards its 50 points and rule 3 awards nothing, so the
total contributes 50 and not 75: the float64 product `total * 100` is
`56294995342131296`, which is not a multiple of 25. -/
theorem round_dollar_bonus_without_quarter_bonus :
    isValidReceipt (rule2Receipt "562949953421313.00") = true
    ∧ centsOf "562949953421313.00" % 100 = 0
    ∧ (∀ rt : Runtime, roundDollarPoints rt "562949953421313.00" = 50)
    ∧ (∀ rt : Runtime, quarterPoints rt "562949953421313.00" = 0)
    ∧ (∀ rt : Runtime, totalPoints rt "562949953421313.00" = 50)
    ∧ (∀ rt : Runtime,
        CalculatePoints rt (rule2Receipt "562949953421313.00")
          - CalculatePoints rt (rule2Receipt "5.01") = 50) := by
  refine ⟨by decide, by decide, fun rt => ?_, fun rt => ?_, fun rt => ?_, fun rt => ?_⟩
  · rfl
  · rfl
  · rfl
  · have h1 : CalculatePoints rt (rule2Receipt "562949953421313.00") = 51 := rfl
    have h2 : CalculatePoints rt (rule2Receipt "5.01") = 1 := rfl
    rw [h1, h2]
    rfl

/-- Rules 2 and 3 for totals below ten to the thirteenth. For every total of the validated form
`digits.dd` whose amount in cents is below `10^15`, the contribution of the total is decided
by the cents, exactly: rule 2 awards 50 when the cents are a multiple of 100 and rule 3
awards 25 when they are a multiple of 25, so the total contributes 75 when the two fraction
digits are "00", 25 when they are "25", "50" or "75", and 0 otherwise, and the 50 points
are never awarded without the 25 points. Replacing only the total of a receipt changes
the score, in int64 arithmetic, by the difference of the two contributions, and the
receipts of the tests score as expected: 5.01 -> 5.00 adds 75, 5.23 -> 5.25 adds 25, and
5.00 scores 50 more than 5.25. -/
theorem total_rules_decided_by_cents (rt : Runtime) (total : String)
    (h : isTwoDecimalText total) (hc : centsOf total < 10 ^ 15) :
    roundDollarPoints rt total = (if centsOf total % 100 = 0 then 50 else 0)
    ∧ quarterPoints rt total = (if centsOf total % 25 = 0 then 25 else 0)
    ∧ totalPoints rt total
        = (if centsOf total % 100 = 0 then 75
           else if centsOf total % 100 = 25 ∨ centsOf total % 100 = 50
             ∨ centsOf total % 100 = 75 then 25 else 0)
    ∧ (roundDollarPoints rt total = 50 → quarterPoints rt total = 25)
    ∧ (∀ (ip : List Char) (d1 d2 : Char), total.data = ip ++ ['.', d1, d2] →
        (∀ c ∈ ip, isDigit c = true) → isDigit d1 = true → isDigit d2 = true →
        centsOf total % 100 = 10 * digitVal d1 + digitVal d2)
    ∧ (∀ (r : Receipt) (t : String),
        sub64 (CalculatePoints rt { r with Total := t }) (CalculatePoints rt r)
          = wrap64 (totalPoints rt t - totalPoints rt r.Total))
    ∧ CalculatePoints rt (rule2Receipt "5.00") - CalculatePoints rt (rule2Receipt "5.01") = 75
    ∧ CalculatePoints rt (rule3Receipt "5.25") - CalculatePoints rt (rule3Receipt "5.23") = 25
    ∧ CalculatePoints rt (rule2Receipt "5.00") - CalculatePoints rt (rule2Receipt "5.25")
        = 50 := by
  have e2 := roundDollarPoints_eq rt total h hc
  have e3 := quarterPoints_eq rt total h hc
  obtain ⟨t1, t2, t3, t4, t5⟩ := rule23_test rt
  refine ⟨e2, e3, ?_, ?_, ?_, ?_, by rw [t1, t2]; rfl, by rw [t4, t5]; rfl,
    by rw [t2, t3]; rfl⟩
  · unfold totalPoints
    rw [e2, e3]
    split_ifs <;> first | rfl | omega
  · rw [e2, e3]
    split_ifs <;> first | (intro _; rfl) | (intro hh; omega)
  · intro ip d1 d2 hs hall h1 h2
    rw [centsOf_eq total ip d1 d2 hs hall h1 h2]
    have := digitVal_le_nine d1 h1
    have := digitVal_le_nine d2 h2
    omega
  · intro r t
    rw [CalculatePoints_eq_scoreSum, CalculatePoints_eq_scoreSum, scoreSum_total,
      scoreSum_total]
    exact sub64_total _ _ _ _ _ _ _

/-- The total "5.00" on the sample runtime: the hypotheses hold and the total
contributes 75. -/
theorem total_rules_decided_by_cents_witness :
    centsOf "5.00" < 10 ^ 15 ∧ totalPoints Runtime.sample "5.00" = 75 :=
  ⟨by decide,
    (total_rules_decided_by_cents Runtime.sample "5.00"
      ⟨['5'], '0', '0', rfl, by decide, by decide, by decide, by decide⟩
      (by decide)).2.2.1.trans (by decide)⟩

/-! ## Rule 5: the amount -/

set_option maxRecDepth 20000 in
/-- The bonus of the prices of the tests and of the examples, on every runtime. -/
theorem priceBonus_examples (rt : Runtime) :
    priceBonus rt "1.40" = 1 ∧ priceBonus rt "10.00" = 2 ∧ priceBonus rt "5.00" = 1
      ∧ priceBonus rt "4.90" = 1 ∧ priceBonus rt "0.50" = 1 ∧ priceBonus rt "12.25" = 3
      ∧ priceBonus rt "12.00" = 3 ∧ priceBonus rt "0.00" = 0 ∧ priceBonus rt "0.01" = 1
      ∧ priceBonus rt "6.49" = 2 ∧ priceBonus rt "2.50" = 1 := by
  refine ⟨?_, ?_, ?_, ?_, ?_, ?_, ?_, ?_, ?_, ?_, ?_⟩ <;> rfl

theorem ceilDiv500_spec (c : Nat) :
    c ≤ 500 * ceilDiv500 c ∧ ∀ n : Nat, c ≤ 500 * n → ceilDiv500 c ≤ n := by
  unfold ceilDiv500
  refine ⟨by omega, fun n hn => ?_⟩
  omega

theorem rule5Points_cons (rt : Runtime) (item : Item) (items : List Item) :
    rule5Points rt (item :: items) = itemPoints rt item + rule5Points rt items := by
  unfold rule5Points
  rw [List.map_cons, List.sum_cons]

set_option maxRecDepth 20000 in
/-- C4. At the price "9007199254740990.01" the code misses the ceiling: the validator
accepts the receipt of the rule 5 test with this price on an eligible item, the price is worth 900719925474099001
cents, the smallest `n` with `500 * n ≥ c` is 1801439850948199, and on every runtime the
item earns 1801439850948198 points, one less: the float64 nearest to the price is
`9007199254740990`, the cent is lost. -/
theorem large_price_bonus_below_ceiling :
    isValidReceipt (rule5Receipt "ABC" "9007199254740990.01") = true
    ∧ eligible "ABC" = true
    ∧ centsOf "9007199254740990.01" = 900719925474099001
    ∧ ceilDiv500 (centsOf "9007199254740990.01") = 1801439850948199
    ∧ (∀ rt : Runtime, priceBonus rt "9007199254740990.01" = 1801439850948198)
    ∧ (∀ rt : Runtime, itemPoints rt ⟨"ABC", "9007199254740990.01"⟩ = 1801439850948198)
    ∧ (∀ rt : Runtime,
        CalculatePoints rt (rule5Receipt "ABC" "9007199254740990.01")
          - CalculatePoints rt (rule5Receipt "ABCD" "9007199254740990.01")
          = 1801439850948198) := by
  refine ⟨by decide, by decide, by decide, by decide, fun rt => ?_, fun rt => ?_,
    fun rt => ?_⟩
  · rfl
  · rfl
  · have h1 : CalculatePoints rt (rule5Receipt "ABC" "9007199254740990.01")
        = 1801439850948274 := rfl
    have h2 : CalculatePoints rt (rule5Receipt "ABCD" "9007199254740990.01") = 76 := rfl
    rw [h1, h2]
    rfl

/-- Rule 5 for prices below ten to the thirteenth. For every price of the form `digits.dd`
worth `c < 10^15` cents, `int64(math.Ceil(price * 0.2))` is exactly the ceiling of
`c / 500`, the smallest integer `n` with `500 * n ≥ c`; an item with an eligible description
and this price contributes this number and an item with another description contributes
0; the rule 5 contribution of a receipt whose prices are all such texts is the sum of these
ceilings over its eligible items; and the prices 1.40, 10.00, 5.00, 4.90, 0.50, 12.25,
12.00 earn 1, 2, 1, 1, 1, 3, 3. -/
theorem price_bonus_is_ceiling (rt : Runtime) (price : String)
    (h : isTwoDecimalText price) (hc : centsOf price < 10 ^ 15) :
    priceBonus rt price = (ceilDiv500 (centsOf price) : Int)
    ∧ centsOf price ≤ 500 * ceilDiv500 (centsOf price)
    ∧ (∀ n : Nat, centsOf price ≤ 500 * n → ceilDiv500 (centsOf price) ≤ n)
    ∧ (∀ desc : String, eligible desc = true →
        itemPoints rt ⟨desc, price⟩ = (ceilDiv500 (centsOf price) : Int))
    ∧ (∀ desc : String, eligible desc = false → itemPoints rt ⟨desc, price⟩ = 0)
    ∧ (∀ items : List Item,
        (∀ item ∈ items, isTwoDecimalText item.Price ∧ centsOf item.Price < 10 ^ 15) →
        rule5Points rt items
          = ((items.filter fun item => eligible item.ShortDescription).map
              fun item => (ceilDiv500 (centsOf item.Price) : Int)).sum)
    ∧ (priceBonus rt "1.40" = 1 ∧ priceBonus rt "10.00" = 2 ∧ priceBonus rt "5.00" = 1
      ∧ priceBonus rt "4.90" = 1 ∧ priceBonus rt "0.50" = 1 ∧ priceBonus rt "12.25" = 3
      ∧ priceBonus rt "12.00" = 3) := by
  have e := priceBonus_eq rt price h hc
  obtain ⟨p1, p2, p3, p4, p5, p6, p7, _⟩ := priceBonus_examples rt
  refine ⟨e, (ceilDiv500_spec _).1, (ceilDiv500_spec _).2, ?_, ?_, ?_,
    p1, p2, p3, p4, p5, p6, p7⟩
  · intro desc hd
    unfold itemPoints
    simp only [hd, if_true]
    exact e
  · intro desc hd
    unfold itemPoints
    simp only [hd, Bool.false_eq_true, if_false]
  · intro items
    induction items with
    | nil => intro _; rfl
    | cons item rest ih =>
      intro hall
      have hi := hall item (List.mem_cons_self _ _)
      have hrest := ih (fun x hx => hall x (List.mem_cons_of_mem _ hx))
      rw [rule5Points_cons, hrest]
      unfold itemPoints
      cases hel : eligible item.ShortDescription with
      | true =>
        simp only [if_true, List.filter_cons, hel, List.map_cons, List.sum_cons]
        rw [priceBonus_eq rt item.Price hi.1 hi.2]
        rfl
      | false =>
        simp only [Bool.false_eq_true, if_false, List.filter_cons, hel, zero_add]

/-- The price "12.25" on the sample runtime: the hypotheses hold and the bonus is 3,
the ceiling of 2.45. -/
theorem price_bonus_is_ceiling_witness :
    centsOf "12.25" < 10 ^ 15 ∧ priceBonus Runtime.sample "12.25" = 3 :=
  ⟨by decide,
    (price_bonus_is_ceiling Runtime.sample "12.25"
      ⟨['1', '2'], '2', '5', rfl, by decide, by decide, by decide, by decide⟩
      (by decide)).1.trans (by decide)⟩

/-! ## Parses of a validated receipt -/

set_option exponentiation.threshold 2000 in
theorem pow_ten_le_max : (10 : Nat) ^ 309 ≤ 2 ^ 52 * (100 * 2 ^ 971) := by
  norm_num

theorem round_neg_sign (neg s : Bool) (p q : Nat) (h : F64.round neg p q = .inf s) :
    s = neg := by
  unfold F64.round at h
  split at h
  · cases h
  · simp only [] at h
    split at h
    · cases h
      rfl
    · cases h

theorem ParseFloat_amount_no_error (rt : Runtime) (s : String) (h : isTwoDecimalText s)
    (hc : centsOf s < 10 ^ 309) : (ParseFloat rt s).2 = none := by
  by_cases h0 : centsOf s = 0
  · rw [ParseFloat_zero_cents rt s h h0]
  · have he : ulpExp (centsOf s) 100 ≤ 970 := by
      by_contra hcon
      obtain ⟨_, _, hL⟩ := ulpExp_spec (centsOf s) 100 (by omega) (by norm_num)
      have hL2 := hL (by omega)
      have hz : (-(ulpExp (centsOf s) 100)).toNat = 0 := by omega
      rw [hz, pow_zero, Nat.mul_one] at hL2
      have hp : 2 ^ 971 ≤ 2 ^ (ulpExp (centsOf s) 100).toNat :=
        two_pow_le_of_le 971 _ (by omega)
      have h1 : 2 ^ 52 * (100 * 2 ^ 971) ≤ 2 ^ 52 * (100 * 2 ^ (ulpExp (centsOf s) 100).toNat) :=
        Nat.mul_le_mul_left _ (Nat.mul_le_mul_left _ hp)
      have := pow_ten_le_max
      omega
    rw [ParseFloat_of_amount rt s h, round_spec false _ 100 (by omega) (by norm_num) he]

theorem ParseFloat_amount_cases (rt : Runtime) (s : String) (h : isTwoDecimalText s) :
    (ParseFloat rt s).2 = none ∨ ParseFloat rt s = (.inf false, some .ErrRange) := by
  rw [ParseFloat_of_amount rt s h]
  cases hr : F64.round false (centsOf s) 100 with
  | finite sgn m e => exact Or.inl rfl
  | nan => exact Or.inl rfl
  | inf sgn =>
    right
    rw [round_neg_sign false sgn _ _ hr]

set_option maxRecDepth 100000 in
set_option exponentiation.threshold 5000 in
theorem round_hugeTotal : F64.round false (centsOf hugeTotal) 100 = .inf false := by
  decide!

theorem hugeTotal_matches : isTwoDecimalText hugeTotal :=
  (totalRegexMatch_iff hugeTotal).1 (by decide!)

/-- C20 fails on `hugeTotalReceipt`: the validator accepts it, and `strconv.ParseFloat`
returns an error for its total, a one followed by 400 zeros and ".00": the value is out of
the range of float64, the result is `+Inf` with `ErrRange`; `CalculatePoints` discards the
error, and the total, although a round amount, earns nothing. -/
theorem huge_total_parse_error :
    isValidReceipt hugeTotalReceipt = true
    ∧ (∀ rt : Runtime, ParseFloat rt hugeTotalReceipt.Total = (.inf false, some .ErrRange))
    ∧ (∀ rt : Runtime, totalPoints rt hugeTotalReceipt.Total = 0)
    ∧ centsOf hugeTotalReceipt.Total % 100 = 0 := by
  have hp : ∀ rt : Runtime, ParseFloat rt hugeTotal = (.inf false, some .ErrRange) := by
    intro rt
    rw [ParseFloat_of_amount rt hugeTotal hugeTotal_matches, round_hugeTotal]
  refine ⟨by decide!, hp, fun rt => ?_, by decide!⟩
  show roundDollarPoints rt hugeTotal + quarterPoints rt hugeTotal = 0
  unfold roundDollarPoints quarterPoints
  rw [hp rt]
  rfl

/-- C20, as the code behaves. For every receipt that the validator accepts, the date parse
and the time parse of `CalculatePoints` return no error; the numeric parse of the total and
of each item's price returns no error when the amount is below `10^307`, that is below
`10^309` cents; in every case the only error it can return is a range error, with the value
`+Inf` and not the zero default. -/
theorem validated_receipt_parses (r : Receipt) (h : isValidReceipt r = true) :
    (parseDate r.PurchaseDate).2 = none
    ∧ (parseClock r.PurchaseTime).2 = none
    ∧ (∀ rt : Runtime, centsOf r.Total < 10 ^ 309 → (ParseFloat rt r.Total).2 = none)
    ∧ (∀ (rt : Runtime) (item : Item), item ∈ r.Items → centsOf item.Price < 10 ^ 309 →
        (ParseFloat rt item.Price).2 = none)
    ∧ (∀ rt : Runtime, (ParseFloat rt r.Total).2 = none
        ∨ ParseFloat rt r.Total = (.inf false, some .ErrRange))
    ∧ (∀ (rt : Runtime) (item : Item), item ∈ r.Items →
        (ParseFloat rt item.Price).2 = none
          ∨ ParseFloat rt item.Price = (.inf false, some .ErrRange)) := by
  obtain ⟨_, _, hd, ht, htot, hitems⟩ := (isValidReceipt_iff r).1 h
  have htot2 := (totalRegexMatch_iff _).1 htot
  have hit := (itemsValid_iff _).1 hitems
  refine ⟨hd, ht, fun rt hc => ParseFloat_amount_no_error rt _ htot2 hc, ?_,
    fun rt => ParseFloat_amount_cases rt _ htot2, ?_⟩
  · intro rt item hmem hc
    exact ParseFloat_amount_no_error rt _ ((totalRegexMatch_iff _).1 (hit item hmem).2) hc
  · intro rt item hmem
    exact ParseFloat_amount_cases rt _ ((totalRegexMatch_iff _).1 (hit item hmem).2)

set_option exponentiation.threshold 2000 in
/-- C20 at the receipt of `TestSimpleReceiptCalculation`: it is accepted and its date, its
time and its total parse without error. -/
theorem validated_receipt_parses_witness :
    (parseDate simpleReceipt.PurchaseDate).2 = none
    ∧ (parseClock simpleReceipt.PurchaseTime).2 = none
    ∧ (ParseFloat Runtime.sample simpleReceipt.Total).2 = none :=
  ⟨(validated_receipt_parses simpleReceipt (by decide)).1,
    (validated_receipt_parses simpleReceipt (by decide)).2.1,
    (validated_receipt_parses simpleReceipt (by decide)).2.2.1 Runtime.sample (by decide)⟩

/-! ## Order of the items -/

theorem rule5Points_perm (rt : Runtime) (p items : List Item) (h : p.Perm items) :
    rule5Points rt p = rule5Points rt items := by
  unfold rule5Points
  exact (h.map (itemPoints rt)).sum_eq

theorem scoreSum_perm (rt : Runtime) (r : Receipt) (p : List Item) (h : p.Perm r.Items) :
    scoreSum rt { r with Items := p } = scoreSum rt r := by
  unfold scoreSum
  show (alnumCount r.Retailer : Int) + roundDollarPoints rt r.Total + quarterPoints rt r.Total
      + ((5 * (p.length / 2) : Nat) : Int) + rule5Points rt p
      + oddDayPoints r.PurchaseDate + afternoonPoints r.PurchaseTime = _
  rw [h.length_eq, rule5Points_perm rt p r.Items h]

set_option maxRecDepth 20000 in
/-- Example 1 of the README scores 28 with its items in another order too. -/
theorem shuffled_example (rt : Runtime) : CalculatePoints rt readmeReceipt1Shuffled = 28 := by
  rfl

/-- C21. The score does not depend on the order of the items: for every receipt `r` and
every permutation `p` of its items, `CalculatePoints` returns the same int64 for `r` with
the items `p` as for `r`, on every runtime; the rule 4 contribution depends only on the
number of items and the rule 5 contribution is the sum of the items' points, both unchanged
by a permutation; the validator accepts the permuted receipt exactly when it accepts `r`. -/
theorem score_independent_of_item_order (rt : Runtime) (r : Receipt) (p : List Item)
    (h : p.Perm r.Items) :
    CalculatePoints rt { r with Items := p } = CalculatePoints rt r
    ∧ pairPoints p = pairPoints r.Items
    ∧ rule5Points rt p = rule5Points rt r.Items
    ∧ isValidReceipt { r with Items := p } = isValidReceipt r := by
  refine ⟨?_, ?_, rule5Points_perm rt p r.Items h, ?_⟩
  · rw [CalculatePoints_eq_scoreSum, CalculatePoints_eq_scoreSum, scoreSum_perm rt r p h]
  · unfold pairPoints
    rw [h.length_eq]
  · have hne : p ≠ [] ↔ r.Items ≠ [] := by
      constructor
      · intro a e
        rw [e] at h
        exact a h.eq_nil
      · intro a e
        rw [e] at h
        exact a h.symm.eq_nil
    have hall : (∀ item ∈ p, item.ShortDescription ≠ "" ∧ totalRegexMatch item.Price = true)
        ↔ (∀ item ∈ r.Items, item.ShortDescription ≠ ""
          ∧ totalRegexMatch item.Price = true) :=
      ⟨fun a x hx => a x (h.symm.subset hx), fun a x hx => a x (h.subset hx)⟩
    have e : isValidReceipt { r with Items := p } = true ↔ isValidReceipt r = true := by
      rw [isValidReceipt_iff, isValidReceipt_iff, itemsValid_iff, itemsValid_iff]
      show ((r.Retailer ≠ "" ∧ r.PurchaseDate ≠ "" ∧ r.PurchaseTime ≠ "" ∧ r.Total ≠ ""
          ∧ p ≠ []) ∧ retailerRegexMatch r.Retailer = true ∧ (parseDate r.PurchaseDate).2 = none
          ∧ (parseClock r.PurchaseTime).2 = none ∧ totalRegexMatch r.Total = true
          ∧ ∀ item ∈ p, item.ShortDescription ≠ "" ∧ totalRegexMatch item.Price = true) ↔ _
      rw [hne, hall]
    cases h1 : isValidReceipt { r with Items := p } <;> cases h2 : isValidReceipt r
    · rfl
    · rw [e.2 h2] at h1
      cases h1
    · rw [e.1 h1] at h2
      cases h2
    · rfl

/-- C21 at example 1 of the README with its five items in another order: the order is a
permutation of the original one and the score is the same, 28. -/
theorem score_independent_of_item_order_witness :
    CalculatePoints Runtime.sample readmeReceipt1Shuffled
      = CalculatePoints Runtime.sample readmeReceipt1 :=
  (score_independent_of_item_order Runtime.sample readmeReceipt1
    readmeReceipt1Shuffled.Items (by decide)).1

/-! ## The named predicates -/

theorem validByNamedPredicates_iff (r : Receipt) :
    validByNamedPredicates r = true ↔
      (r.Retailer ≠ "" ∧ r.PurchaseDate ≠ "" ∧ r.PurchaseTime ≠ "" ∧ r.Total ≠ ""
        ∧ r.Items ≠ [])
      ∧ IsValidRetailer r.Retailer = true ∧ IsValidDate r.PurchaseDate = true
      ∧ IsValidTime r.PurchaseTime = true ∧ IsValidPrice r.Total = true
      ∧ ∀ item ∈ r.Items, item.ShortDescription ≠ "" ∧ IsValidPrice item.Price = true := by
  unfold validByNamedPredicates
  simp only [Bool.and_eq_true, decide_eq_true_eq, List.all_eq_true, and_assoc]

set_option maxRecDepth 20000 in
/-- The two validators on receipts of the tests and on rejected variants of them. -/
theorem validator_examples :
    isValidReceipt simpleReceipt = true ∧ validByNamedPredicates simpleReceipt = true
    ∧ isValidReceipt readmeReceipt2 = true ∧ validByNamedPredicates readmeReceipt2 = true
    ∧ isValidReceipt missingFieldsReceipt = false
    ∧ validByNamedPredicates missingFieldsReceipt = false
    ∧ isValidReceipt underscoreReceipt = true ∧ validByNamedPredicates underscoreReceipt = true
    ∧ isValidReceipt plusReceipt = false ∧ validByNamedPredicates plusReceipt = false
    ∧ isValidReceipt (dateTimeReceipt "2022-02-30" "12:00") = false
    ∧ validByNamedPredicates (dateTimeReceipt "2022-02-30" "12:00") = false
    ∧ isValidReceipt (dateTimeReceipt "2022-01-02" "9:30") = true
    ∧ validByNamedPredicates (dateTimeReceipt "2022-01-02" "9:30") = true
    ∧ isValidReceipt (rule2Receipt "5.0") = false
    ∧ validByNamedPredicates (rule2Receipt "5.0") = false := by
  decide

/-- C22. The inline validator and the named predicates agree: for every receipt,
`isValidReceipt` returns true if and only if the retailer, the purchase date, the purchase
time and the total are not empty, the list of items is not empty, `IsValidRetailer` holds of
the retailer, `IsValidDate` of the purchase date, `IsValidTime` of the purchase time,
`IsValidPrice` of the total, and every item has a description that is not empty and a price
of which `IsValidPrice` holds; as booleans, `isValidReceipt` equals the conjunction
`validByNamedPredicates`; each named predicate is the test the inline validator makes on
that field. -/
theorem validator_agrees_with_named_predicates :
    (∀ r : Receipt, isValidReceipt r = true ↔
      (r.Retailer ≠ "" ∧ r.PurchaseDate ≠ "" ∧ r.PurchaseTime ≠ "" ∧ r.Total ≠ ""
        ∧ r.Items ≠ [])
      ∧ IsValidRetailer r.Retailer = true ∧ IsValidDate r.PurchaseDate = true
      ∧ IsValidTime r.PurchaseTime = true ∧ IsValidPrice r.Total = true
      ∧ ∀ item ∈ r.Items, item.ShortDescription ≠ "" ∧ IsValidPrice item.Price = true)
    ∧ (∀ r : Receipt, isValidReceipt r = validByNamedPredicates r)
    ∧ (∀ s : String, IsValidDate s = true ↔ isCalendarDateText s = true)
    ∧ (∀ s : String, IsValidTime s = true ↔ isClockText s = true)
    ∧ (∀ s : String, IsValidPrice s = true ↔ isTwoDecimalText s)
    ∧ (∀ s : String, IsValidRetailer s = true ↔ (s ≠ "" ∧ ∀ c ∈ s.data, isRetailerChar c = true))
    ∧ isValidReceipt simpleReceipt = true ∧ validByNamedPredicates simpleReceipt = true
    ∧ isValidReceipt missingFieldsReceipt = false
    ∧ validByNamedPredicates missingFieldsReceipt = false := by
  have main : ∀ r : Receipt, isValidReceipt r = true ↔
      (r.Retailer ≠ "" ∧ r.PurchaseDate ≠ "" ∧ r.PurchaseTime ≠ "" ∧ r.Total ≠ ""
        ∧ r.Items ≠ [])
      ∧ IsValidRetailer r.Retailer = true ∧ IsValidDate r.PurchaseDate = true
      ∧ IsValidTime r.PurchaseTime = true ∧ IsValidPrice r.Total = true
      ∧ ∀ item ∈ r.Items, item.ShortDescription ≠ "" ∧ IsValidPrice item.Price = true := by
    intro r
    rw [isValidReceipt_iff, itemsValid_iff]
    unfold IsValidRetailer IsValidDate IsValidTime IsValidPrice
    simp only [decide_eq_true_eq]
  obtain ⟨x1, x2, _, _, x5, x6, _⟩ := validator_examples
  refine ⟨main, ?_, ?_, ?_, ?_, ?_, x1, x2, x5, x6⟩
  · intro r
    have e : isValidReceipt r = true ↔ validByNamedPredicates r = true := by
      rw [main, validByNamedPredicates_iff]
    cases h1 : isValidReceipt r <;> cases h2 : validByNamedPredicates r
    · rfl
    · rw [e.2 h2] at h1
      cases h1
    · rw [e.1 h1] at h2
      cases h2
    · rfl
  · intro s
    unfold IsValidDate
    simp only [decide_eq_true_eq]
    exact parseDate_ok_iff s
  · intro s
    unfold IsValidTime
    simp only [decide_eq_true_eq]
    exact parseClock_ok_iff s
  · intro s
    exact totalRegexMatch_iff s
  · intro s
    unfold IsValidRetailer retailerRegexMatch
    simp only [Bool.and_eq_true, decide_eq_true_eq, List.all_eq_true, ne_eq]
    constructor
    · rintro ⟨a, b⟩
      refine ⟨fun e => a ?_, b⟩
      rw [e]
    · rintro ⟨a, b⟩
      refine ⟨fun e => a ?_, b⟩
      cases s with
      | mk data =>
        simp only at e
        rw [e]

/-! ## The score and the documented score -/

theorem rule5Points_eq_ceilings (rt : Runtime) (items : List Item)
    (h : ∀ item ∈ items, isTwoDecimalText item.Price ∧ centsOf item.Price < 10 ^ 15) :
    rule5Points rt items
      = ((items.filter fun item => eligible item.ShortDescription).map
          fun item => (ceilDiv500 (centsOf item.Price) : Int)).sum := by
  induction items with
  | nil => rfl
  | cons item rest ih =>
    have hi := h item (List.mem_cons_self _ _)
    have hrest := ih (fun x hx => h x (List.mem_cons_of_mem _ hx))
    rw [rule5Points_cons, hrest]
    unfold itemPoints
    cases hel : eligible item.ShortDescription with
    | true =>
      simp only [if_true, List.filter_cons, hel, List.map_cons, List.sum_cons]
      rw [priceBonus_eq rt item.Price hi.1 hi.2]
      rfl
    | false =>
      simp only [Bool.false_eq_true, if_false, List.filter_cons, hel, zero_add]

/-- For a receipt that the validator accepts and whose total and prices are all below
`10^15` cents, the score is the documented score reduced into int64, and the documented
score itself when that fits an int64. -/
theorem CalculatePoints_eq_documentedScore (rt : Runtime) (r : Receipt)
    (hv : isValidReceipt r = true) (htotal : centsOf r.Total < 10 ^ 15)
    (hitems : ∀ item ∈ r.Items, centsOf item.Price < 10 ^ 15) :
    CalculatePoints rt r = wrap64 (documentedScore r)
    ∧ (documentedScore r < 2 ^ 63 → CalculatePoints rt r = documentedScore r) := by
  obtain ⟨_, _, _, _, htot, hit⟩ := (isValidReceipt_iff r).1 hv
  have htot2 := (totalRegexMatch_iff _).1 htot
  have hit2 := (itemsValid_iff _).1 hit
  have e5 := rule5Points_eq_ceilings rt r.Items
    (fun item hm => ⟨(totalRegexMatch_iff _).1 (hit2 item hm).2, hitems item hm⟩)
  have e : scoreSum rt r = documentedScore r := by
    unfold scoreSum documentedScore
    rw [roundDollarPoints_eq rt _ htot2 htotal, quarterPoints_eq rt _ htot2 htotal, e5]
  have h0 : 0 ≤ documentedScore r := by
    rw [← e]
    unfold scoreSum
    rw [roundDollarPoints_eq rt _ htot2 htotal, quarterPoints_eq rt _ htot2 htotal, e5]
    have a1 : (0 : Int) ≤ ((r.Items.filter fun item => eligible item.ShortDescription).map
        fun item => (ceilDiv500 (centsOf item.Price) : Int)).sum :=
      List.sum_nonneg (by
        intro x hx
        obtain ⟨i, _, rfl⟩ := List.mem_map.1 hx
        exact Int.natCast_nonneg _)
    have a2 : (0 : Int) ≤ oddDayPoints r.PurchaseDate := by
      unfold oddDayPoints; split_ifs <;> decide
    have a3 : (0 : Int) ≤ afternoonPoints r.PurchaseTime := by
      unfold afternoonPoints; simp only []; split_ifs <;> decide
    have a4 : (0 : Int) ≤ (if centsOf r.Total % 100 = 0 then 50 else 0) := by
      split_ifs <;> decide
    have a5 : (0 : Int) ≤ (if centsOf r.Total % 25 = 0 then 25 else 0) := by
      split_ifs <;> decide
    have a6 : (0 : Int) ≤ (alnumCount r.Retailer : Int) := Int.natCast_nonneg _
    have a7 : (0 : Int) ≤ ((5 * (r.Items.length / 2) : Nat) : Int) := Int.natCast_nonneg _
    omega
  rw [CalculatePoints_eq_scoreSum, e]
  refine ⟨rfl, fun hlt => wrap64_of_range (by omega) hlt⟩

set_option maxRecDepth 20000 in
/-- C1. The score is not the documented sum on every receipt. Three receipts that the
validator accepts: with the total "562949953421313.00" the documented score is 76 (1 for the
retailer, 50 and 25 for the total) and `CalculatePoints` returns 51, rule 3 left out; with
the eligible price "9007199254740990.01" the documented score is 1801439850948275 and
`CalculatePoints` returns one less; with two eligible items priced
"40000000000000000000.00" the documented score is 16000000000000000006 and
`CalculatePoints` returns the negative number -2446744073709551610. On the four
documented receipts both give 31, 15, 28 and 109. -/
theorem score_differs_from_documented_sum :
    isValidReceipt (rule2Receipt "562949953421313.00") = true
    ∧ documentedScore (rule2Receipt "562949953421313.00") = 76
    ∧ (∀ rt : Runtime, CalculatePoints rt (rule2Receipt "562949953421313.00") = 51)
    ∧ isValidReceipt (rule5Receipt "ABC" "9007199254740990.01") = true
    ∧ documentedScore (rule5Receipt "ABC" "9007199254740990.01") = 1801439850948275
    ∧ (∀ rt : Runtime,
        CalculatePoints rt (rule5Receipt "ABC" "9007199254740990.01") = 1801439850948274)
    ∧ isValidReceipt overflowReceipt = true
    ∧ documentedScore overflowReceipt = 16000000000000000006
    ∧ (∀ rt : Runtime, CalculatePoints rt overflowReceipt = -2446744073709551610)
    ∧ documentedScore simpleReceipt = 31 ∧ documentedScore morningReceipt = 15
    ∧ documentedScore readmeReceipt1 = 28 ∧ documentedScore readmeReceipt2 = 109
    ∧ (∀ rt : Runtime,
        CalculatePoints rt simpleReceipt = 31 ∧ CalculatePoints rt morningReceipt = 15
          ∧ CalculatePoints rt readmeReceipt1 = 28
          ∧ CalculatePoints rt readmeReceipt2 = 109) := by
  refine ⟨by decide, by decide, fun rt => ?_, by decide, by decide, fun rt => ?_, by decide,
    by decide, fun rt => ?_, by decide, by decide, by decide, by decide, documented_receipts⟩
  · rfl
  · rfl
  · rfl

/-! ## Parse errors play no part in the score -/

theorem ParseFloat_fst_sameValues (rt rt2 : Runtime) (h : rt.sameValues rt2) (s : String) :
    (ParseFloat rt2 s).1 = (ParseFloat rt s).1 := by
  unfold ParseFloat
  cases plainDecimal s.data with
  | some t => rfl
  | none =>
    simp only []
    by_cases hc : cannotStartNumber s.data = true
    · rw [if_pos hc, if_pos hc]
    · rw [if_neg hc, if_neg hc]
      exact h.2 s

theorem toInt64_sameValues (rt rt2 : Runtime) (h : rt.sameValues rt2) (x : F64) :
    F64.toInt64 rt2 x = F64.toInt64 rt x := by
  cases x with
  | finite s m e =>
    unfold F64.toInt64
    rw [h.1]
  | inf s =>
    unfold F64.toInt64
    rw [h.1]
  | nan =>
    unfold F64.toInt64
    rw [h.1]

theorem itemPoints_sameValues (rt rt2 : Runtime) (h : rt.sameValues rt2) (item : Item) :
    itemPoints rt2 item = itemPoints rt item := by
  unfold itemPoints priceBonus
  rw [ParseFloat_fst_sameValues rt rt2 h, toInt64_sameValues rt rt2 h]

theorem scoreSum_sameValues (rt rt2 : Runtime) (h : rt.sameValues rt2) (r : Receipt) :
    scoreSum rt2 r = scoreSum rt r := by
  have hi : itemPoints rt2 = itemPoints rt := funext (itemPoints_sameValues rt rt2 h)
  unfold scoreSum roundDollarPoints quarterPoints rule5Points
  rw [ParseFloat_fst_sameValues rt rt2 h, hi]

set_option maxRecDepth 20000 in
/-- The receipt `separatorReceipt`, whose amounts are left to the runtime, scores the same
on a runtime that reports the syntax errors and on one that reports none. -/
theorem separator_examples :
    isValidReceipt separatorReceipt = false
    ∧ (ParseFloat Runtime.strict "1,000.00").2 = some .ErrSyntax
    ∧ (ParseFloat Runtime.strict "12.5abc").2 = some .ErrSyntax
    ∧ (ParseFloat Runtime.silent "1,000.00").2 = none
    ∧ CalculatePoints Runtime.silent separatorReceipt
        = CalculatePoints Runtime.strict separatorReceipt := by
  decide

/-- C10, as the code behaves. When `CalculatePoints` is invoked on a receipt whose total, or
whose eligible item's price, is malformed numeric text, that is text for which
`strconv.ParseFloat` returns an error, the scorer does not fail: `CalculatePoints` has no
error result, it returns an ordinary int64 score, the int64 sum of the seven contributions
computed from the values that `ParseFloat` returned next to the errors; and the errors play
no part in it: on every runtime that returns the same values, whatever errors it reports or
omits, the score is the same. -/
theorem parse_errors_are_discarded (rt : Runtime) (r : Receipt)
    (_h : (ParseFloat rt r.Total).2 ≠ none
      ∨ ∃ item ∈ r.Items, eligible item.ShortDescription = true
          ∧ (ParseFloat rt item.Price).2 ≠ none) :
    (-(2 : Int) ^ 63 ≤ CalculatePoints rt r ∧ CalculatePoints rt r < 2 ^ 63)
    ∧ CalculatePoints rt r =
        sum64 [retailerPoints r.Retailer, roundDollarPoints rt r.Total,
          quarterPoints rt r.Total, pairPoints r.Items,
          sum64 (r.Items.map (itemPoints rt)),
          oddDayPoints r.PurchaseDate, afternoonPoints r.PurchaseTime]
    ∧ (∀ rt2 : Runtime, rt.sameValues rt2 → CalculatePoints rt2 r = CalculatePoints rt r) := by
  refine ⟨?_, ?_, ?_⟩
  · rw [CalculatePoints_eq_scoreSum]
    exact wrap64_range _
  · rw [CalculatePoints_eq_wrap, sum64_seven]
  · intro rt2 h2
    rw [CalculatePoints_eq_scoreSum, CalculatePoints_eq_scoreSum, scoreSum_sameValues rt rt2 h2]

/-- C10 at the receipt `separatorReceipt` on a runtime that reports a syntax error for the
total "1,000.00": the score is an int64, and it is the score on the runtime that returns the
same values and reports no error. -/
theorem parse_errors_are_discarded_witness :
    (ParseFloat Runtime.strict separatorReceipt.Total).2 ≠ none
    ∧ -(2 : Int) ^ 63 ≤ CalculatePoints Runtime.strict separatorReceipt
    ∧ CalculatePoints Runtime.silent separatorReceipt
        = CalculatePoints Runtime.strict separatorReceipt :=
  ⟨by decide,
    (parse_errors_are_discarded Runtime.strict separatorReceipt (Or.inl (by decide))).1.1,
    (parse_errors_are_discarded Runtime.strict separatorReceipt (Or.inl (by decide))).2.2
      Runtime.silent ⟨rfl, fun _ => rfl⟩⟩

end ReceiptProcessor
